import Mathlib

/-!
Shallow embedding of the Stop-and-Wait / Go-Back-N / Selective Repeat ARQ
simulation (stop_and_wait.py, go_back_n.py, selective_repeat.py).

The Python code draws from a global pseudo-random source; each call
`random.random() < p` is modelled as consuming one boolean from an oracle
`o : Nat → Bool` at a running index (`true` means the random draw was below
the threshold, i.e. the fault fired).  Wall-clock time (`time.time()` /
`time.sleep`) is modelled by an integer clock that advances by one tick per
simulated `sleep`; timestamps and timeouts are integers in those ticks.
Python dictionaries are modelled as insertion-ordered association lists,
Python sets of ints as duplicate-free lists.
-/

namespace ARQ

/-- Sequence number space, `max_seq_num = 8` in all three engines. -/
def maxSeqNum : Nat := 8

inductive FrameType
  | DATA
  | ACK
  | NAK
deriving DecidableEq, Repr

/-- `Frame` dataclass: seq_num, frame_type, data, checksum. -/
structure Frame where
  seq_num : Nat
  frame_type : FrameType
  data : String
  checksum : Nat
deriving DecidableEq, Repr

/-- `calculate_checksum`: sum of character codes of the payload mod 256. -/
def calculate_checksum (data : String) : Nat :=
  (data.toList.map Char.toNat).sum % 256

/-- `Frame.__post_init__` for DATA frames: checksum is computed at creation. -/
def Frame.mkData (seq : Nat) (data : String) : Frame :=
  { seq_num := seq, frame_type := .DATA, data := data,
    checksum := calculate_checksum data }

/-! ### Association-list helpers (Python dict semantics) -/

/-- Python `d[k]` / `k in d` lookup on an insertion-ordered assoc list. -/
def lookupKey {β : Type} (k : Nat) : List (Nat × β) → Option β
  | [] => none
  | (a, b) :: t => if a = k then some b else lookupKey k t

/-- Python `d[k] = v`: update in place if present, else append. -/
def setKey {β : Type} (k : Nat) (v : β) : List (Nat × β) → List (Nat × β)
  | [] => [(k, v)]
  | (a, b) :: t => if a = k then (k, v) :: t else (a, b) :: setKey k v t

/-- Python `del d[k]` (no-op when absent, matching the guarded deletes). -/
def removeKey {β : Type} (k : Nat) : List (Nat × β) → List (Nat × β)
  | [] => []
  | (a, b) :: t => if a = k then t else (a, b) :: removeKey k t

/-- Python `set.remove` on a duplicate-free list of ints. -/
def removeNat (k : Nat) : List Nat → List Nat
  | [] => []
  | a :: t => if a = k then t else a :: removeNat k t

def keysOf {β : Type} (l : List (Nat × β)) : List Nat := l.map Prod.fst

theorem lookupKey_removeKey_ne {β : Type} {m k : Nat} (l : List (Nat × β)) (h : m ≠ k) :
    lookupKey m (removeKey k l) = lookupKey m l := by
  induction l with
  | nil => rfl
  | cons hd t ih =>
    obtain ⟨a, b⟩ := hd
    by_cases hak : a = k
    · subst hak
      have ham : ¬ a = m := fun hh => h (hh ▸ rfl)
      simp [removeKey, lookupKey, fun hh : a = m => h (hh ▸ rfl)]
      rw [if_neg ham]
    · by_cases ham : a = m
      · subst ham
        simp [removeKey, lookupKey, hak]
      · simp [removeKey, lookupKey, hak, ham, ih]

theorem removeKey_length_lt {β : Type} {k : Nat} {l : List (Nat × β)} {v : β}
    (h : lookupKey k l = some v) : (removeKey k l).length < l.length := by
  induction l with
  | nil => simp [lookupKey] at h
  | cons hd t ih =>
    obtain ⟨a, b⟩ := hd
    by_cases hak : a = k
    · simp [removeKey, hak]
    · simp only [lookupKey, hak, if_false] at h
      simp only [removeKey, hak, if_false, List.length_cons]
      exact Nat.succ_lt_succ (ih h)

theorem removeNat_length_lt {k : Nat} {l : List Nat} (h : k ∈ l) :
    (removeNat k l).length < l.length := by
  induction l with
  | nil => simp at h
  | cons a t ih =>
    by_cases hak : a = k
    · simp [removeNat, hak]
    · have hk : k ∈ t := by
        rcases List.mem_cons.mp h with h' | h'
        · exact absurd h'.symm hak
        · exact h'
      simp only [removeNat, hak, if_false, List.length_cons]
      exact Nat.succ_lt_succ (ih hk)

/-! ### Selective Repeat engine (selective_repeat.py) -/

/-- A value of the sender's `window` dict: `{'frame': .., 'timestamp': .., 'data': ..}`. -/
structure WindowEntry where
  frame : Frame
  timestamp : Int
  data : String
deriving Repr

/-- `SelectiveRepeatSender.__init__` state. -/
structure SelectiveRepeatSender where
  window_size : Nat
  timeout : Int
  base : Nat
  next_seq_num : Nat
  window : List (Nat × WindowEntry)
  ack_received : List Nat
  data_buffer : List String
  total_transmissions : Nat
  retransmissions : Nat
  individual_timers : List (Nat × Int)
deriving Repr

/-- `SelectiveRepeatSender.__init__(window_size, timeout)`: no validation of
the arguments is performed; they are stored as given. -/
def SelectiveRepeatSender.init (window_size : Nat) (timeout : Int) :
    SelectiveRepeatSender :=
  { window_size := window_size, timeout := timeout, base := 0, next_seq_num := 0,
    window := [], ack_received := [], data_buffer := [], total_transmissions := 0,
    retransmissions := 0, individual_timers := [] }

/-- `SelectiveRepeatSender.add_data`. -/
def SelectiveRepeatSender.add_data (s : SelectiveRepeatSender) (ds : List String) :
    SelectiveRepeatSender :=
  { s with data_buffer := s.data_buffer ++ ds }

/-- `SelectiveRepeatSender.can_send`. -/
def SelectiveRepeatSender.can_send (s : SelectiveRepeatSender) : Bool :=
  decide (s.next_seq_num < s.base + s.window_size) && !s.data_buffer.isEmpty

/-- `SelectiveRepeatSender.process_ack`: add to the acked set, then delete every
window entry (and its timer) whose modular number equals the ACK. -/
def SelectiveRepeatSender.process_ack (s : SelectiveRepeatSender) (ack_num : Nat) :
    SelectiveRepeatSender :=
  let s := if ack_num ∈ s.ack_received then s
           else { s with ack_received := s.ack_received ++ [ack_num] }
  let toRemove := (keysOf s.window).filter (fun k => k % maxSeqNum = ack_num)
  { s with window := toRemove.foldl (fun m k => removeKey k m) s.window,
           individual_timers :=
             toRemove.foldl (fun m k => removeKey k m) s.individual_timers }

/-- `SelectiveRepeatSender.slide_window`: advance `base` while `base % 8` is in
the acked set, removing each consumed modular number from the set. -/
def SelectiveRepeatSender.slide_window (s : SelectiveRepeatSender) :
    SelectiveRepeatSender :=
  if h : s.base % maxSeqNum ∈ s.ack_received then
    slide_window { s with ack_received := removeNat (s.base % maxSeqNum) s.ack_received,
                          base := s.base + 1 }
  else s
termination_by s.ack_received.length
decreasing_by simpa using removeNat_length_lt h

/-- `SelectiveRepeatSender.get_statistics` / `GoBackNSender.get_statistics`
result (efficiency as an exact rational percentage). -/
structure SlidingStats where
  total_transmissions : Nat
  retransmissions : Nat
  efficiency : ℚ
deriving DecidableEq, Repr

/-- `SelectiveRepeatSender.get_statistics`. -/
def SelectiveRepeatSender.get_statistics (s : SelectiveRepeatSender) : SlidingStats :=
  { total_transmissions := s.total_transmissions,
    retransmissions := s.retransmissions,
    efficiency :=
      if s.total_transmissions > 0 then
        ((s.total_transmissions : ℚ) - (s.retransmissions : ℚ))
          / (s.total_transmissions : ℚ) * 100
      else 0 }

/-- `SelectiveRepeatReceiver.__init__` state. -/
structure SelectiveRepeatReceiver where
  window_size : Nat
  base : Nat
  buffer : List (Nat × String)
  received_frames : List String
  total_frames_received : Nat
  frames_discarded : Nat
  duplicate_frames : Nat
deriving Repr

/-- `SelectiveRepeatReceiver.__init__(window_size)`: no validation. -/
def SelectiveRepeatReceiver.init (window_size : Nat) : SelectiveRepeatReceiver :=
  { window_size := window_size, base := 0, buffer := [], received_frames := [],
    total_frames_received := 0, frames_discarded := 0, duplicate_frames := 0 }

/-- `SelectiveRepeatReceiver.is_in_window`: wraparound-aware modular window test. -/
def SelectiveRepeatReceiver.is_in_window (r : SelectiveRepeatReceiver) (seq : Nat) : Bool :=
  let window_end := (r.base + r.window_size - 1) % maxSeqNum
  if r.base % maxSeqNum ≤ window_end then
    decide (r.base % maxSeqNum ≤ seq) && decide (seq ≤ window_end)
  else
    decide (seq ≥ r.base % maxSeqNum) || decide (seq ≤ window_end)

/-- `SelectiveRepeatReceiver.is_already_delivered`: plain numeric comparison
`seq_num < base % max_seq_num` (not wraparound-aware). -/
def SelectiveRepeatReceiver.is_already_delivered (r : SelectiveRepeatReceiver)
    (seq : Nat) : Bool :=
  decide (seq < r.base % maxSeqNum)

/-- `SelectiveRepeatReceiver.deliver_frames`: pop consecutive buffered frames
starting at `base % 8`, appending payloads to `received_frames`; the returned
`delivered_acks` list is never appended to in the source, so it is always `[]`. -/
def SelectiveRepeatReceiver.deliver_frames (r : SelectiveRepeatReceiver) :
    List Nat × SelectiveRepeatReceiver :=
  match h : lookupKey (r.base % maxSeqNum) r.buffer with
  | none => ([], r)
  | some data =>
      deliver_frames
        { r with received_frames := r.received_frames ++ [data],
                 buffer := removeKey (r.base % maxSeqNum) r.buffer,
                 base := r.base + 1 }
termination_by r.buffer.length
decreasing_by simpa using removeKey_length_lt h

/-- `SelectiveRepeatReceiver.receive_frame`.  Draw order: frame loss (p=0.15),
then `frame.is_corrupted()` (p=0.1), then — on the ACKing paths — ACK loss
(p=0.1) inside `send_ack`.  Returns the acknowledgment list (or `none`), the
new receiver state, and the new oracle index. -/
def SelectiveRepeatReceiver.receive_frame (o : Nat → Bool)
    (r : SelectiveRepeatReceiver) (ix : Nat) (f : Frame) :
    Option (List Nat) × SelectiveRepeatReceiver × Nat :=
  let r := { r with total_frames_received := r.total_frames_received + 1 }
  let lost := o ix
  let ix := ix + 1
  if lost then (none, r, ix)
  else
    let corrupted := o ix
    let ix := ix + 1
    if corrupted then (none, { r with frames_discarded := r.frames_discarded + 1 }, ix)
    else if r.is_in_window f.seq_num then
      let r :=
        if (lookupKey f.seq_num r.buffer).isSome then
          { r with duplicate_frames := r.duplicate_frames + 1 }
        else
          { r with buffer := setKey f.seq_num f.data r.buffer }
      let ack_lost := o ix
      let ix := ix + 1
      let ack_nums := if ack_lost then [] else [f.seq_num]
      let dres := r.deliver_frames
      (some (ack_nums ++ dres.1), dres.2, ix)
    else if r.is_already_delivered f.seq_num then
      let ack_lost := o ix
      let ix := ix + 1
      if ack_lost then (none, r, ix) else (some [f.seq_num], r, ix)
    else
      (none, { r with frames_discarded := r.frames_discarded + 1 }, ix)

/-- `SelectiveRepeatReceiver.get_received_data`. -/
def SelectiveRepeatReceiver.get_received_data (r : SelectiveRepeatReceiver) :
    List String :=
  r.received_frames

/-- Combined simulation state for a Selective Repeat run: sender, receiver,
oracle index, clock, plus a ghost log of every frame handed to
`receiver.receive_frame` (for stating which frames were (re)transmitted). -/
structure SRWorld where
  snd : SelectiveRepeatSender
  rcv : SelectiveRepeatReceiver
  ix : Nat
  clock : Int
  sent_log : List Frame
deriving Repr

theorem process_ack_data_buffer (s : SelectiveRepeatSender) (a : Nat) :
    (s.process_ack a).data_buffer = s.data_buffer := by
  unfold SelectiveRepeatSender.process_ack
  by_cases h : a ∈ s.ack_received <;> simp [h]

theorem foldl_process_ack_data_buffer (l : List Nat) (s : SelectiveRepeatSender) :
    (l.foldl (fun s' a => s'.process_ack a) s).data_buffer = s.data_buffer := by
  induction l generalizing s with
  | nil => rfl
  | cons a t ih => simp [List.foldl_cons, ih, process_ack_data_buffer]

/-- The body of `send_frames`' inner `while self.can_send()` loop: pop the next
payload, build its frame, record window entry and per-frame timer, transmit,
process any returned ACKs, advance `next_seq_num`, sleep. -/
def SRWorld.send_new_frames (o : Nat → Bool) (w : SRWorld) : SRWorld :=
  if w.snd.can_send then
    match hb : w.snd.data_buffer with
    | [] => w
    | data :: rest =>
      let f := Frame.mkData (w.snd.next_seq_num % maxSeqNum) data
      let entry : WindowEntry := { frame := f, timestamp := w.clock, data := data }
      let snd := { w.snd with
        data_buffer := rest,
        window := setKey w.snd.next_seq_num entry w.snd.window,
        individual_timers := setKey w.snd.next_seq_num w.clock w.snd.individual_timers,
        total_transmissions := w.snd.total_transmissions + 1 }
      let res := w.rcv.receive_frame o w.ix f
      let snd := (res.1.getD []).foldl (fun s a => s.process_ack a) snd
      let snd := { snd with next_seq_num := snd.next_seq_num + 1 }
      send_new_frames o
        { snd := snd, rcv := res.2.1, ix := res.2.2, clock := w.clock + 1,
          sent_log := w.sent_log ++ [f] }
  else w
termination_by w.snd.data_buffer.length
decreasing_by
  simp only [foldl_process_ack_data_buffer, hb]
  simp [hb]

/-- `SelectiveRepeatSender.selective_retransmit`: retransmit only frame
`seq_num` if it is still in the window, refreshing its timestamp and timer. -/
def SRWorld.selective_retransmit (o : Nat → Bool) (w : SRWorld) (seq_num : Nat) :
    SRWorld :=
  match lookupKey seq_num w.snd.window with
  | none => w
  | some entry =>
    let f := entry.frame
    let snd := { w.snd with
      total_transmissions := w.snd.total_transmissions + 1,
      retransmissions := w.snd.retransmissions + 1,
      window := setKey seq_num { entry with timestamp := w.clock } w.snd.window,
      individual_timers := setKey seq_num w.clock w.snd.individual_timers }
    let res := w.rcv.receive_frame o w.ix f
    let snd := (res.1.getD []).foldl (fun s a => s.process_ack a) snd
    { snd := snd, rcv := res.2.1, ix := res.2.2, clock := w.clock + 1,
      sent_log := w.sent_log ++ [f] }

/-- `SelectiveRepeatSender.check_individual_timeouts`: snapshot the list of
timed-out frames, then selectively retransmit each one still in the window. -/
def SRWorld.check_individual_timeouts (o : Nat → Bool) (w : SRWorld) : SRWorld :=
  let expired :=
    (w.snd.individual_timers.filter
      (fun kv => decide (w.clock - kv.2 > w.snd.timeout))).map Prod.fst
  expired.foldl
    (fun w' k =>
      if (lookupKey k w'.snd.window).isSome then w'.selective_retransmit o k else w')
    w

/-- `SelectiveRepeatSender.send_frames`: the main
`while self.data_buffer or self.window:` loop.  The source has no iteration
cap, so the loop is modelled with explicit fuel: the boolean is `true` when
the loop exited by its own condition (the function returned `True`), and
`false` when the fuel ran out with the loop still running. -/
def SRWorld.send_frames_loop (o : Nat → Bool) : Nat → SRWorld → SRWorld × Bool
  | 0, w => (w, false)
  | fuel + 1, w =>
    if w.snd.data_buffer.isEmpty && w.snd.window.isEmpty then (w, true)
    else
      let w := w.send_new_frames o
      let w := w.check_individual_timeouts o
      let w := { w with snd := w.snd.slide_window }
      if w.snd.window.isEmpty && w.snd.data_buffer.isEmpty then (w, true)
      else send_frames_loop o fuel { w with clock := w.clock + 1 }

/-- Initial world for a Selective Repeat run: freshly constructed sender and
receiver with the payload backlog added. -/
def initSRWorld (sender_ws : Nat) (receiver_ws : Nat) (timeout : Int)
    (payloads : List String) : SRWorld :=
  { snd := (SelectiveRepeatSender.init sender_ws timeout).add_data payloads,
    rcv := SelectiveRepeatReceiver.init receiver_ws,
    ix := 0, clock := 0, sent_log := [] }

/-! ### Go-Back-N engine (go_back_n.py) -/

/-- `GoBackNSender.__init__` state. -/
structure GoBackNSender where
  window_size : Nat
  timeout : Int
  base : Nat
  next_seq_num : Nat
  window : List (Nat × WindowEntry)
  data_buffer : List String
  total_transmissions : Nat
  retransmissions : Nat
  max_retransmissions : Nat
  total_retransmission_count : Nat
deriving Repr

/-- `GoBackNSender.__init__(window_size, timeout)`: no validation;
`max_retransmissions = 10`. -/
def GoBackNSender.init (window_size : Nat) (timeout : Int) : GoBackNSender :=
  { window_size := window_size, timeout := timeout, base := 0, next_seq_num := 0,
    window := [], data_buffer := [], total_transmissions := 0, retransmissions := 0,
    max_retransmissions := 10, total_retransmission_count := 0 }

/-- `GoBackNSender.add_data`. -/
def GoBackNSender.add_data (s : GoBackNSender) (ds : List String) : GoBackNSender :=
  { s with data_buffer := s.data_buffer ++ ds }

/-- `GoBackNSender.can_send`. -/
def GoBackNSender.can_send (s : GoBackNSender) : Bool :=
  decide (s.next_seq_num < s.base + s.window_size) && !s.data_buffer.isEmpty

/-- `GoBackNSender.is_in_range(seq_num, start, end)`: `start <= seq_num <= end`,
with a "wraparound" branch `seq_num >= start or seq_num <= end` when
`start > end`.  Note that `start` is the unbounded `base` while `end` is the
modular ACK number. -/
def GoBackNSender.is_in_range (seq_num start stop : Nat) : Bool :=
  if start ≤ stop then decide (start ≤ seq_num) && decide (seq_num ≤ stop)
  else decide (seq_num ≥ start) || decide (seq_num ≤ stop)

/-- `GoBackNSender.process_ack`: remove every window entry whose key is
`is_in_range` of `[base, ack_num]`, then set `base` to one past the highest
removed key (if any were removed). -/
def GoBackNSender.process_ack (s : GoBackNSender) (ack_num : Nat) : GoBackNSender :=
  let frames_to_remove :=
    (keysOf s.window).filter (fun k => GoBackNSender.is_in_range k s.base ack_num)
  let s := { s with window :=
    frames_to_remove.foldl (fun m k => removeKey k m) s.window }
  match frames_to_remove.max? with
  | none => s
  | some m => { s with base := m + 1 }

/-- `GoBackNSender.get_statistics`. -/
def GoBackNSender.get_statistics (s : GoBackNSender) : SlidingStats :=
  { total_transmissions := s.total_transmissions,
    retransmissions := s.retransmissions,
    efficiency :=
      if s.total_transmissions > 0 then
        ((s.total_transmissions : ℚ) - (s.retransmissions : ℚ))
          / (s.total_transmissions : ℚ) * 100
      else 0 }

/-- `GoBackNReceiver.__init__` state. -/
structure GoBackNReceiver where
  expected_seq_num : Nat
  received_frames : List String
  total_frames_received : Nat
  frames_discarded : Nat
deriving Repr

def GoBackNReceiver.init : GoBackNReceiver :=
  { expected_seq_num := 0, received_frames := [], total_frames_received := 0,
    frames_discarded := 0 }

/-- `GoBackNReceiver.receive_frame`: accept only the exactly-expected modular
number, otherwise discard and re-ACK the last accepted number.  Draw order:
loss (p=0.15), corruption (p=0.1), then ACK loss (p=0.1) in `send_ack`. -/
def GoBackNReceiver.receive_frame (o : Nat → Bool) (r : GoBackNReceiver) (ix : Nat)
    (f : Frame) : Option Nat × GoBackNReceiver × Nat :=
  let r := { r with total_frames_received := r.total_frames_received + 1 }
  let lost := o ix
  let ix := ix + 1
  if lost then (none, r, ix)
  else
    let corrupted := o ix
    let ix := ix + 1
    if corrupted then (none, { r with frames_discarded := r.frames_discarded + 1 }, ix)
    else if f.seq_num = r.expected_seq_num % maxSeqNum then
      let r := { r with received_frames := r.received_frames ++ [f.data],
                        expected_seq_num := r.expected_seq_num + 1 }
      let ack_lost := o ix
      let ix := ix + 1
      if ack_lost then (none, r, ix) else (some f.seq_num, r, ix)
    else
      let r := { r with frames_discarded := r.frames_discarded + 1 }
      if r.expected_seq_num > 0 then
        let last_correct := (r.expected_seq_num - 1) % maxSeqNum
        let ack_lost := o ix
        let ix := ix + 1
        if ack_lost then (none, r, ix) else (some last_correct, r, ix)
      else (none, r, ix)

def GoBackNReceiver.get_received_data (r : GoBackNReceiver) : List String :=
  r.received_frames

/-- Combined Go-Back-N simulation state (clock in hundredths of a second,
since `send_frames` sleeps 0.05 s per outer iteration and 0.1 s per send). -/
structure GBNWorld where
  snd : GoBackNSender
  rcv : GoBackNReceiver
  ix : Nat
  clock : Int
  sent_log : List Frame
deriving Repr

theorem gbn_process_ack_data_buffer (s : GoBackNSender) (a : Nat) :
    (s.process_ack a).data_buffer = s.data_buffer := by
  simp only [GoBackNSender.process_ack]
  split <;> rfl

/-- Insertion sort, modelling Python's `sorted` on the window keys. -/
def insSorted (a : Nat) : List Nat → List Nat
  | [] => [a]
  | b :: t => if a ≤ b then a :: b :: t else b :: insSorted a t

def insSort : List Nat → List Nat
  | [] => []
  | a :: t => insSorted a (insSort t)

/-- Inner `while self.can_send()` loop of `GoBackNSender.send_frames`. -/
def GBNWorld.send_new_frames (o : Nat → Bool) (w : GBNWorld) : GBNWorld :=
  if w.snd.can_send then
    match hb : w.snd.data_buffer with
    | [] => w
    | data :: rest =>
      let f := Frame.mkData (w.snd.next_seq_num % maxSeqNum) data
      let entry : WindowEntry := { frame := f, timestamp := w.clock, data := data }
      let snd := { w.snd with
        data_buffer := rest,
        window := setKey w.snd.next_seq_num entry w.snd.window,
        total_transmissions := w.snd.total_transmissions + 1 }
      let res := w.rcv.receive_frame o w.ix f
      let snd := match res.1 with
        | some a => snd.process_ack a
        | none => snd
      let snd := { snd with next_seq_num := snd.next_seq_num + 1 }
      send_new_frames o
        { snd := snd, rcv := res.2.1, ix := res.2.2, clock := w.clock + 10,
          sent_log := w.sent_log ++ [f] }
  else w
termination_by w.snd.data_buffer.length
decreasing_by
  cases hr : ((w.rcv.receive_frame o w.ix
      (Frame.mkData (w.snd.next_seq_num % maxSeqNum) data)).1) <;>
    simp [hr, gbn_process_ack_data_buffer, hb]

/-- Body of the retransmission loop in `GoBackNSender.go_back_n_retransmit`:
counters are incremented first, and the retransmission-limit check happens
*after* the increments but *before* the frame is actually sent. -/
def GBNWorld.retransmit_list (o : Nat → Bool) : List Nat → GBNWorld → GBNWorld
  | [], w => w
  | k :: rest, w =>
    match lookupKey k w.snd.window with
    | none => retransmit_list o rest w
    | some entry =>
      let f := entry.frame
      let s1 : GoBackNSender := { w.snd with
        total_transmissions := w.snd.total_transmissions + 1,
        retransmissions := w.snd.retransmissions + 1,
        total_retransmission_count := w.snd.total_retransmission_count + 1 }
      if s1.total_retransmission_count ≥ s1.max_retransmissions then
        { w with snd := s1 }
      else
        let s2 : GoBackNSender := { s1 with
          window := setKey k { entry with timestamp := w.clock } s1.window }
        let res := w.rcv.receive_frame o w.ix f
        let s3 : GoBackNSender := match res.1 with
          | some a => s2.process_ack a
          | none => s2
        retransmit_list o rest
          { snd := s3, rcv := res.2.1, ix := res.2.2, clock := w.clock + 10,
            sent_log := w.sent_log ++ [f] }

/-- `GoBackNSender.go_back_n_retransmit`. -/
def GBNWorld.go_back_n_retransmit (o : Nat → Bool) (w : GBNWorld)
    (failed_seq_num : Nat) : GBNWorld :=
  if w.snd.total_retransmission_count ≥ w.snd.max_retransmissions then w
  else
    let frames_to_retransmit :=
      ((insSort (keysOf w.snd.window)).filter (fun k => k ≥ failed_seq_num)).take
        w.snd.window_size
    GBNWorld.retransmit_list o frames_to_retransmit w

/-- `GoBackNSender.check_timeouts`: only the oldest unacknowledged frame's
timestamp is examined. -/
def GBNWorld.check_timeouts (o : Nat → Bool) (w : GBNWorld) : GBNWorld :=
  match (keysOf w.snd.window).min? with
  | none => w
  | some oldest =>
    match lookupKey oldest w.snd.window with
    | none => w
    | some entry =>
      if w.clock - entry.timestamp > w.snd.timeout then
        w.go_back_n_retransmit o oldest
      else w

/-- `GoBackNSender.send_frames`: the main loop, capped at
`max_iterations = 500`; timeouts are only checked every 3rd iteration.  The
boolean result is `True` (the function's literal return value). -/
def GBNWorld.send_frames_loop (o : Nat → Bool) (iteration_count : Nat)
    (w : GBNWorld) : GBNWorld × Bool :=
  if w.snd.data_buffer.isEmpty && w.snd.window.isEmpty then (w, true)
  else if h500 : iteration_count ≥ 500 then (w, true)
  else
    let ic := iteration_count + 1
    let w := w.send_new_frames o
    let w := if ic % 3 = 0 then w.check_timeouts o else w
    if w.snd.window.isEmpty && w.snd.data_buffer.isEmpty then (w, true)
    else send_frames_loop o ic { w with clock := w.clock + 5 }
termination_by 500 - iteration_count
decreasing_by omega

def initGBNWorld (window_size : Nat) (timeout : Int) (payloads : List String) :
    GBNWorld :=
  { snd := (GoBackNSender.init window_size timeout).add_data payloads,
    rcv := GoBackNReceiver.init, ix := 0, clock := 0, sent_log := [] }

/-! ### Stop-and-Wait engine (stop_and_wait.py) -/

/-- `StopAndWaitSender.__init__` state. -/
structure StopAndWaitSender where
  timeout : Int
  seq_num : Nat
  waiting_for_ack : Bool
  current_frame : Option Frame
  retransmission_count : Nat
  total_transmissions : Nat
deriving Repr

/-- `StopAndWaitSender.__init__(timeout)`: no validation. -/
def StopAndWaitSender.init (timeout : Int) : StopAndWaitSender :=
  { timeout := timeout, seq_num := 0, waiting_for_ack := false,
    current_frame := none, retransmission_count := 0, total_transmissions := 0 }

/-- `StopAndWaitSender.get_statistics` result: the record has no
retransmissions field, and efficiency is `(1/total)*100`. -/
structure StopWaitStats where
  total_transmissions : Nat
  efficiency : ℚ
deriving DecidableEq, Repr

/-- `StopAndWaitSender.get_statistics`. -/
def StopAndWaitSender.get_statistics (s : StopAndWaitSender) : StopWaitStats :=
  { total_transmissions := s.total_transmissions,
    efficiency :=
      if s.total_transmissions > 0 then
        (1 / (s.total_transmissions : ℚ)) * 100
      else 0 }

/-- `StopAndWaitReceiver.__init__` state. -/
structure StopAndWaitReceiver where
  expected_seq_num : Nat
  received_frames : List String
deriving Repr

def StopAndWaitReceiver.init : StopAndWaitReceiver :=
  { expected_seq_num := 0, received_frames := [] }

/-- `StopAndWaitReceiver.receive_frame`: loss (p=0.2), corruption (p=0.1, NAK
consumes no draw), then the sequence check.  On the accept path the payload is
appended and `send_ack` draws once for ACK loss — but the function returns
`True` regardless of whether the ACK was "lost".  The duplicate path likewise
draws once in `send_ack` and returns `True`. -/
def StopAndWaitReceiver.receive_frame (o : Nat → Bool) (r : StopAndWaitReceiver)
    (ix : Nat) (f : Frame) : Bool × StopAndWaitReceiver × Nat :=
  let lost := o ix
  let ix := ix + 1
  if lost then (false, r, ix)
  else
    let corrupted := o ix
    let ix := ix + 1
    if corrupted then (false, r, ix)
    else if f.seq_num = r.expected_seq_num then
      let r := { r with received_frames := r.received_frames ++ [f.data],
                        expected_seq_num := 1 - r.expected_seq_num }
      (true, r, ix + 1)
    else
      (true, r, ix + 1)

def StopAndWaitReceiver.get_received_data (r : StopAndWaitReceiver) : List String :=
  r.received_frames

/-- Combined Stop-and-Wait simulation state (clock in tenths of a second). -/
structure SWWorld where
  snd : StopAndWaitSender
  rcv : StopAndWaitReceiver
  ix : Nat
  clock : Int
deriving Repr

/-- The `while self.waiting_for_ack and self.retransmission_count < 5` loop
inside `StopAndWaitSender.send_frame`. -/
def SWWorld.send_attempt_loop (o : Nat → Bool) (f : Frame) (w : SWWorld) :
    SWWorld × Bool :=
  if h : w.snd.waiting_for_ack = true ∧ w.snd.retransmission_count < 5 then
    let s1 : StopAndWaitSender :=
      { w.snd with total_transmissions := w.snd.total_transmissions + 1 }
    let clock := w.clock + 1
    let res := w.rcv.receive_frame o w.ix f
    if res.1 then
      ({ snd := { s1 with waiting_for_ack := false, seq_num := 1 - s1.seq_num },
         rcv := res.2.1, ix := res.2.2, clock := clock }, true)
    else
      send_attempt_loop o f
        { snd := { s1 with retransmission_count := s1.retransmission_count + 1 },
          rcv := res.2.1, ix := res.2.2, clock := clock + w.snd.timeout }
  else (w, false)
termination_by 5 - w.snd.retransmission_count
decreasing_by omega

/-- `StopAndWaitSender.send_frame(data, receiver)`. -/
def SWWorld.send_frame (o : Nat → Bool) (w : SWWorld) (data : String) :
    SWWorld × Bool :=
  let f := Frame.mkData w.snd.seq_num data
  let s0 : StopAndWaitSender :=
    { w.snd with current_frame := some f, waiting_for_ack := true,
                 retransmission_count := 0 }
  SWWorld.send_attempt_loop o f { w with snd := s0 }

/-- The harness loop of `demonstrate_stop_and_wait`: one `send_frame` call per
payload, in order, with a 0.5 s pause between frames. -/
def SWWorld.run_all (o : Nat → Bool) : List String → SWWorld → SWWorld
  | [], w => w
  | d :: rest, w =>
    let res := w.send_frame o d
    run_all o rest { res.1 with clock := res.1.clock + 5 }

def initSWWorld (timeout : Int) : SWWorld :=
  { snd := StopAndWaitSender.init timeout, rcv := StopAndWaitReceiver.init,
    ix := 0, clock := 0 }

/-! ### Generic lemmas about the dict/set helpers -/

theorem keysOf_nil {β : Type} : keysOf ([] : List (Nat × β)) = [] := rfl

theorem keysOf_cons {β : Type} (a : Nat) (b : β) (t : List (Nat × β)) :
    keysOf ((a, b) :: t) = a :: keysOf t := rfl

theorem lookupKey_setKey_self {β : Type} (k : Nat) (v : β) (l : List (Nat × β)) :
    lookupKey k (setKey k v l) = some v := by
  induction l with
  | nil => simp [setKey, lookupKey]
  | cons hd t ih =>
    obtain ⟨a, b⟩ := hd
    by_cases hak : a = k
    · simp [setKey, hak, lookupKey]
    · simp [setKey, hak, lookupKey, ih]

theorem lookupKey_setKey_ne {β : Type} {m k : Nat} (v : β) (l : List (Nat × β))
    (h : m ≠ k) : lookupKey m (setKey k v l) = lookupKey m l := by
  induction l with
  | nil =>
    simp only [setKey, lookupKey]
    rw [if_neg (fun hh : k = m => h hh.symm)]
  | cons hd t ih =>
    obtain ⟨a, b⟩ := hd
    by_cases hak : a = k
    · subst hak
      simp only [setKey, if_pos rfl, lookupKey]
      rw [if_neg (fun hh : a = m => h hh.symm), if_neg (fun hh : a = m => h hh.symm)]
    · simp only [setKey, hak, if_false, lookupKey]
      by_cases ham : a = m
      · simp [ham]
      · simp [ham, ih]

theorem mem_keysOf_of_lookup {β : Type} {k : Nat} {v : β} {l : List (Nat × β)}
    (h : lookupKey k l = some v) : k ∈ keysOf l := by
  induction l with
  | nil => simp [lookupKey] at h
  | cons hd t ih =>
    obtain ⟨a, b⟩ := hd
    rw [keysOf_cons]
    by_cases hak : a = k
    · exact hak ▸ List.mem_cons_self a _
    · simp only [lookupKey, hak, if_false] at h
      exact List.mem_cons_of_mem _ (ih h)

theorem lookup_isSome_of_mem_keysOf {β : Type} {k : Nat} {l : List (Nat × β)}
    (h : k ∈ keysOf l) : (lookupKey k l).isSome := by
  induction l with
  | nil => simp [keysOf_nil] at h
  | cons hd t ih =>
    obtain ⟨a, b⟩ := hd
    by_cases hak : a = k
    · simp [lookupKey, hak]
    · rw [keysOf_cons] at h
      rcases List.mem_cons.mp h with h' | h'
      · exact absurd h'.symm hak
      · simp only [lookupKey, hak, if_false]
        exact ih h'

theorem lookup_none_of_not_mem_keysOf {β : Type} {k : Nat} {l : List (Nat × β)}
    (h : k ∉ keysOf l) : lookupKey k l = none := by
  cases hl : lookupKey k l with
  | none => rfl
  | some v => exact absurd (mem_keysOf_of_lookup hl) h

theorem keysOf_setKey_mem {β : Type} {k : Nat} (v : β) {l : List (Nat × β)}
    (h : k ∈ keysOf l) : keysOf (setKey k v l) = keysOf l := by
  induction l with
  | nil => simp [keysOf_nil] at h
  | cons hd t ih =>
    obtain ⟨a, b⟩ := hd
    by_cases hak : a = k
    · simp [setKey, hak, keysOf_cons]
    · rw [keysOf_cons] at h
      rcases List.mem_cons.mp h with h' | h'
      · exact absurd h'.symm hak
      · simp only [setKey, hak, if_false, keysOf_cons, ih h']

theorem keysOf_setKey_not_mem {β : Type} {k : Nat} (v : β) {l : List (Nat × β)}
    (h : k ∉ keysOf l) : keysOf (setKey k v l) = keysOf l ++ [k] := by
  induction l with
  | nil => simp [setKey, keysOf]
  | cons hd t ih =>
    obtain ⟨a, b⟩ := hd
    rw [keysOf_cons] at h
    have h1 : ¬ a = k := fun hh => h (hh ▸ List.mem_cons_self a _)
    have h2 : k ∉ keysOf t := fun hh => h (List.mem_cons_of_mem _ hh)
    simp only [setKey, h1, if_false, keysOf_cons, ih h2, List.cons_append]

theorem lookupKey_foldl_removeKey_not_mem {β : Type} {m : Nat} (R : List Nat)
    (l : List (Nat × β)) (h : m ∉ R) :
    lookupKey m (R.foldl (fun acc k => removeKey k acc) l) = lookupKey m l := by
  induction R generalizing l with
  | nil => rfl
  | cons k R ih =>
    simp at h
    push_neg at h
    rw [List.foldl_cons, ih _ h.2, lookupKey_removeKey_ne _ h.1]

theorem removeKey_eq_filter_of_nodup {β : Type} (k : Nat) (l : List (Nat × β))
    (h : (keysOf l).Nodup) :
    removeKey k l = l.filter (fun kv => decide (kv.1 ≠ k)) := by
  induction l with
  | nil => rfl
  | cons hd t ih =>
    obtain ⟨a, b⟩ := hd
    rw [keysOf_cons, List.nodup_cons] at h
    by_cases hak : a = k
    · subst hak
      have ht : t.filter (fun kv => !decide (kv.1 = a)) = t := by
        apply List.filter_eq_self.mpr
        intro kv hkv
        simp only [Bool.not_eq_true', decide_eq_false_iff_not]
        intro hEq
        exact h.1 (hEq ▸ List.mem_map_of_mem Prod.fst hkv)
      simp only [removeKey, if_pos rfl, List.filter_cons]
      simp [ht]
    · simp only [removeKey, hak, if_false, List.filter_cons]
      simp [hak, ih h.2]

theorem keysOf_filter_sublist {β : Type} (q : Nat × β → Bool) (l : List (Nat × β)) :
    (keysOf (l.filter q)).Sublist (keysOf l) := by
  induction l with
  | nil => simp [keysOf_nil]
  | cons hd t ih =>
    by_cases hq : q hd
    · rw [List.filter_cons_of_pos hq]
      obtain ⟨a, b⟩ := hd
      rw [keysOf_cons, keysOf_cons]
      exact ih.cons₂ a
    · rw [List.filter_cons_of_neg hq]
      obtain ⟨a, b⟩ := hd
      rw [keysOf_cons]
      exact ih.cons a

theorem foldl_removeKey_eq_filter_of_nodup {β : Type} (R : List Nat)
    (l : List (Nat × β)) (h : (keysOf l).Nodup) :
    R.foldl (fun acc k => removeKey k acc) l =
      l.filter (fun kv => decide (kv.1 ∉ R)) := by
  induction R generalizing l with
  | nil => simp
  | cons k R ih =>
    rw [List.foldl_cons, removeKey_eq_filter_of_nodup k l h]
    have hnd : (keysOf (l.filter (fun kv => decide (kv.1 ≠ k)))).Nodup :=
      h.sublist (keysOf_filter_sublist _ l)
    rw [ih _ hnd, List.filter_filter]
    apply List.filter_congr
    intro kv _
    by_cases h1 : kv.1 = k <;> by_cases h2 : kv.1 ∈ R <;> simp [h1, h2]

theorem lookupKey_filter_eq_none {β : Type} (p : Nat × β → Bool) (k : Nat)
    (l : List (Nat × β)) (hp : ∀ v, p (k, v) = false) :
    lookupKey k (l.filter p) = none := by
  induction l with
  | nil => rfl
  | cons hd t ih =>
    obtain ⟨a, b⟩ := hd
    by_cases hpa : p (a, b)
    · simp only [List.filter_cons, hpa, if_true, lookupKey]
      by_cases hak : a = k
      · subst hak
        rw [hp b] at hpa
        exact absurd hpa (by simp)
      · simp [hak, ih]
    · simp only [List.filter_cons, hpa]
      simp [ih]

/-! ### Oracles and concrete states used in the scenarios -/

/-- Channel oracle on which no fault ever fires (clean channel). -/
def alwaysFalseOracle : Nat → Bool := fun _ => false

/-- Channel oracle on which every fault draw fires (every frame is lost). -/
def alwaysTrueOracle : Nat → Bool := fun _ => true

/-- Oracle whose only firing draw is draw 2: for a first Stop-and-Wait send
attempt this is exactly the `send_ack` ACK-loss draw (draw 0 = frame loss,
draw 1 = corruption). -/
def ackLossOnlyOracle : Nat → Bool := fun k => k = 2

/-! ### C7 — constructor validation -/

/-- C7 counterexample: constructing a Selective Repeat or Go-Back-N sender with
`window_size = 8 > maxSeq/2` and a negative timeout does not fail; the
constructor returns a live engine with the invalid parameters stored, so the
claim that invalid configuration "fails fast at construction time" is false. -/
theorem c7_counterexample :
    (SelectiveRepeatSender.init 8 (-1)).window_size = 8 ∧
    (SelectiveRepeatSender.init 8 (-1)).timeout = -1 ∧
    (GoBackNSender.init 8 (-1)).window_size = 8 ∧
    (GoBackNSender.init 8 (-1)).timeout = -1 ∧
    (StopAndWaitSender.init (-1)).timeout = -1 ∧
    maxSeqNum / 2 < 8 :=
  ⟨rfl, rfl, rfl, rfl, rfl, by norm_num [maxSeqNum]⟩

/-- C7 (amended): no engine constructor performs any validation — every
`window_size` (including values above `maxSeq/2`) and every timeout (including
negative ones) is accepted and stored unchanged, producing a normally usable
engine rather than an error. -/
theorem c7_amended (ws : Nat) (t : Int) :
    (SelectiveRepeatSender.init ws t).window_size = ws ∧
    (SelectiveRepeatSender.init ws t).timeout = t ∧
    (SelectiveRepeatReceiver.init ws).window_size = ws ∧
    (GoBackNSender.init ws t).window_size = ws ∧
    (GoBackNSender.init ws t).timeout = t ∧
    (StopAndWaitSender.init t).timeout = t :=
  ⟨rfl, rfl, rfl, rfl, rfl, rfl⟩

/-! ### C9 — statistics -/

/-- A Stop-and-Wait run of two payloads over a clean channel. -/
def swCleanRun : SWWorld :=
  SWWorld.run_all alwaysFalseOracle ["x", "y"] (initSWWorld 10)

/-- C9 counterexample: after two clean Stop-and-Wait transmissions (2 total
transmissions, 0 retransmissions) the claimed efficiency would be
`(2-0)/2*100 = 100`, but `StopAndWaitSender.get_statistics` reports
`1/2*100 = 50` (and its record carries no retransmission count at all). -/
theorem c9_counterexample :
    swCleanRun.snd.total_transmissions = 2 ∧
    swCleanRun.snd.retransmission_count = 0 ∧
    swCleanRun.snd.get_statistics.efficiency = 50 ∧
    ¬ swCleanRun.snd.get_statistics.efficiency =
        ((swCleanRun.snd.total_transmissions : ℚ) -
          (swCleanRun.snd.retransmission_count : ℚ)) /
          (swCleanRun.snd.total_transmissions : ℚ) * 100 := by
  have htot : swCleanRun.snd.total_transmissions = 2 := by
    simp [swCleanRun, SWWorld.run_all, SWWorld.send_frame, SWWorld.send_attempt_loop,
      initSWWorld, StopAndWaitSender.init, StopAndWaitReceiver.init,
      StopAndWaitReceiver.receive_frame, Frame.mkData, alwaysFalseOracle]
  have hret : swCleanRun.snd.retransmission_count = 0 := by
    simp [swCleanRun, SWWorld.run_all, SWWorld.send_frame, SWWorld.send_attempt_loop,
      initSWWorld, StopAndWaitSender.init, StopAndWaitReceiver.init,
      StopAndWaitReceiver.receive_frame, Frame.mkData, alwaysFalseOracle]
  refine ⟨htot, hret, ?_, ?_⟩
  · rw [StopAndWaitSender.get_statistics, htot]
    norm_num
  · rw [StopAndWaitSender.get_statistics, htot, hret]
    norm_num

/-- C9 (amended): the Selective Repeat and Go-Back-N senders report total
transmissions, retransmissions, and efficiency `(total-retrans)/total*100`;
the Stop-and-Wait sender reports only total transmissions and computes
efficiency as `1/total*100`, with no retransmission count in its record — its
statistics record consists of exactly the fields `total_transmissions` and
`efficiency`, while the sliding-window record consists of exactly
`total_transmissions`, `retransmissions` and `efficiency`. -/
theorem c9_amended :
    (∀ s : SelectiveRepeatSender, 0 < s.total_transmissions →
      s.get_statistics.total_transmissions = s.total_transmissions ∧
      s.get_statistics.retransmissions = s.retransmissions ∧
      s.get_statistics.efficiency =
        ((s.total_transmissions : ℚ) - (s.retransmissions : ℚ)) /
          (s.total_transmissions : ℚ) * 100) ∧
    (∀ s : GoBackNSender, 0 < s.total_transmissions →
      s.get_statistics.total_transmissions = s.total_transmissions ∧
      s.get_statistics.retransmissions = s.retransmissions ∧
      s.get_statistics.efficiency =
        ((s.total_transmissions : ℚ) - (s.retransmissions : ℚ)) /
          (s.total_transmissions : ℚ) * 100) ∧
    (∀ s : StopAndWaitSender, 0 < s.total_transmissions →
      s.get_statistics.total_transmissions = s.total_transmissions ∧
      s.get_statistics.efficiency = 1 / (s.total_transmissions : ℚ) * 100) ∧
    (∀ st : SlidingStats,
      st = { total_transmissions := st.total_transmissions,
             retransmissions := st.retransmissions,
             efficiency := st.efficiency }) ∧
    (∀ st : StopWaitStats,
      st = { total_transmissions := st.total_transmissions,
             efficiency := st.efficiency }) := by
  refine ⟨fun s h => ⟨rfl, rfl, ?_⟩, fun s h => ⟨rfl, rfl, ?_⟩,
    fun s h => ⟨rfl, ?_⟩, fun st => rfl, fun st => rfl⟩
  · simp [SelectiveRepeatSender.get_statistics, h]
  · simp [GoBackNSender.get_statistics, h]
  · simp [StopAndWaitSender.get_statistics, h]

/-- A Selective Repeat sender with 4 transmissions, 1 of them a retransmission. -/
def srStatSender : SelectiveRepeatSender :=
  { SelectiveRepeatSender.init 4 20 with total_transmissions := 4, retransmissions := 1 }

/-- A Go-Back-N sender with 4 transmissions, 1 of them a retransmission. -/
def gbnStatSender : GoBackNSender :=
  { GoBackNSender.init 4 200 with total_transmissions := 4, retransmissions := 1 }

/-- A Stop-and-Wait sender with 2 transmissions. -/
def swStatSender : StopAndWaitSender :=
  { StopAndWaitSender.init 20 with total_transmissions := 2 }

/-- Witness for C9's amended statement at concrete senders. -/
theorem c9_witness :
    0 < srStatSender.total_transmissions ∧
    srStatSender.get_statistics.efficiency = 75 ∧
    gbnStatSender.get_statistics.efficiency = 75 ∧
    swStatSender.get_statistics.efficiency = 50 := by
  have h1 := (c9_amended.1 srStatSender (by norm_num [srStatSender])).2.2
  have h2 := (c9_amended.2.1 gbnStatSender (by norm_num [gbnStatSender])).2.2
  have h3 := (c9_amended.2.2.1 swStatSender (by norm_num [swStatSender])).2
  refine ⟨by norm_num [srStatSender], ?_, ?_, ?_⟩
  · rw [h1]; norm_num [srStatSender]
  · rw [h2]; norm_num [gbnStatSender]
  · rw [h3]; norm_num [swStatSender]

/-! ### C5 — Go-Back-N cumulative ACK processing -/

theorem mem_keysOf_filter_not_mem {β : Type} (R : List Nat) (l : List (Nat × β))
    (k : Nat) :
    k ∈ keysOf (l.filter (fun kv => decide (kv.1 ∉ R))) ↔
      k ∈ keysOf l ∧ k ∉ R := by
  induction l with
  | nil => simp [keysOf_nil]
  | cons hd t ih =>
    obtain ⟨a, b⟩ := hd
    by_cases ha : a ∈ R
    · rw [List.filter_cons_of_neg (by simpa using ha), keysOf_cons]
      rw [ih]
      constructor
      · intro hh
        exact ⟨List.mem_cons_of_mem _ hh.1, hh.2⟩
      · rintro ⟨hmem, hnotR⟩
        rcases List.mem_cons.mp hmem with h' | h'
        · exact absurd (h' ▸ ha) hnotR
        · exact ⟨h', hnotR⟩
    · rw [List.filter_cons_of_pos (by simpa using ha), keysOf_cons, keysOf_cons]
      constructor
      · intro hh
        rcases List.mem_cons.mp hh with h' | h'
        · exact ⟨h' ▸ List.mem_cons_self a _, h' ▸ ha⟩
        · have := ih.mp h'
          exact ⟨List.mem_cons_of_mem _ this.1, this.2⟩
      · rintro ⟨hmem, hnotR⟩
        rcases List.mem_cons.mp hmem with h' | h'
        · exact h' ▸ List.mem_cons_self a _
        · exact List.mem_cons_of_mem _ (ih.mpr ⟨h', hnotR⟩)

/-- A Go-Back-N sender state after sequence-number wraparound: `base = 8`,
outstanding instances 8 and 9 (modular numbers 0 and 1). -/
def gbnWrapSender : GoBackNSender :=
  { GoBackNSender.init 4 200 with
    base := 8
    next_seq_num := 10
    window := [(8, { frame := Frame.mkData 0 "I", timestamp := 0, data := "I" }),
               (9, { frame := Frame.mkData 1 "J", timestamp := 0, data := "J" })] }

/-- C5 counterexample: with `base = 8` and outstanding instances {8, 9}, a
cumulative ACK for modular number 0 should — per the claim — retire only the
range from `base` through the first instance mapping to 0 (instance 8) and set
`base` to 9.  The code instead retires both 8 and 9 (instance 9 was never
acknowledged) and sets `base` to 10. -/
theorem c5_counterexample :
    keysOf (gbnWrapSender.process_ack 0).window = [] ∧
    (gbnWrapSender.process_ack 0).base = 10 ∧
    ¬ (keysOf (gbnWrapSender.process_ack 0).window = [9] ∧
        (gbnWrapSender.process_ack 0).base = 9) := by
  refine ⟨rfl, rfl, ?_⟩
  rintro ⟨h, -⟩
  have : keysOf (gbnWrapSender.process_ack 0).window = [] := rfl
  rw [this] at h
  exact List.cons_ne_nil 9 [] h.symm

/-- The window left by `process_ack` is the original window with every
`is_in_range` key deleted. -/
theorem gbn_process_ack_window_eq (s : GoBackNSender) (a : Nat) :
    (s.process_ack a).window =
      ((keysOf s.window).filter (fun k => GoBackNSender.is_in_range k s.base a)).foldl
        (fun m k => removeKey k m) s.window := by
  rw [GoBackNSender.process_ack]
  split <;> rfl

theorem gbn_process_ack_base_some (s : GoBackNSender) (a m : Nat)
    (h : ((keysOf s.window).filter
      (fun k => GoBackNSender.is_in_range k s.base a)).max? = some m) :
    (s.process_ack a).base = m + 1 := by
  rw [GoBackNSender.process_ack]
  split <;> simp_all

theorem gbn_process_ack_base_none (s : GoBackNSender) (a : Nat)
    (h : ((keysOf s.window).filter
      (fun k => GoBackNSender.is_in_range k s.base a)).max? = none) :
    (s.process_ack a).base = s.base := by
  rw [GoBackNSender.process_ack]
  split <;> simp_all

/-- C5 (amended): `process_ack a` compares the *unbounded* window keys against
the *modular* ACK number.  When `base ≤ a` it retires exactly the keys `k` with
`base ≤ k ≤ a`, sets `base` one past the largest retired key, and leaves `base`
unchanged when nothing is retired; when `a < base` (in particular after any
wraparound, since every key is `≥ base`) the range check degenerates to
"everything", so every outstanding entry is retired — acknowledged or not —
and `base` jumps one past the highest outstanding key. -/
theorem c5_amended (s : GoBackNSender) (a : Nat)
    (hk : ∀ k ∈ keysOf s.window, s.base ≤ k)
    (hnd : (keysOf s.window).Nodup) :
    (s.base ≤ a →
      (∀ k, (k ∈ keysOf (s.process_ack a).window ↔ k ∈ keysOf s.window ∧ a < k)) ∧
      (∀ m, ((keysOf s.window).filter (fun k => decide (k ≤ a))).max? = some m →
        (s.process_ack a).base = m + 1) ∧
      (((keysOf s.window).filter (fun k => decide (k ≤ a))).max? = none →
        (s.process_ack a).base = s.base)) ∧
    (a < s.base → (s.process_ack a).window = []) ∧
    (a < s.base → ∀ m, (keysOf s.window).max? = some m →
      (s.process_ack a).base = m + 1) := by
  have hfold := foldl_removeKey_eq_filter_of_nodup
    ((keysOf s.window).filter (fun k => GoBackNSender.is_in_range k s.base a))
    s.window hnd
  have hall2 : s.base ≤ a →
      (keysOf s.window).filter (fun k => GoBackNSender.is_in_range k s.base a) =
        (keysOf s.window).filter (fun k => decide (k ≤ a)) := by
    intro hba
    apply List.filter_congr
    intro k hkm
    simp [GoBackNSender.is_in_range, hba, hk k hkm]
  constructor
  · -- base ≤ a: the range check is `base ≤ k ∧ k ≤ a`, i.e. `k ≤ a` on window
    -- keys, so exactly the keys up to `a` are retired and `base` becomes one
    -- past the largest of them
    intro hba
    refine ⟨?_, ?_, ?_⟩
    · intro k
      rw [gbn_process_ack_window_eq, hfold, mem_keysOf_filter_not_mem]
      constructor
      · rintro ⟨hmem, hnotR⟩
        refine ⟨hmem, ?_⟩
        by_contra hle
        push_neg at hle
        exact hnotR (List.mem_filter.mpr ⟨hmem, by
          simp [GoBackNSender.is_in_range, hba, hk k hmem, hle]⟩)
      · rintro ⟨hmem, hlt⟩
        refine ⟨hmem, fun hR => ?_⟩
        have := (List.mem_filter.mp hR).2
        simp [GoBackNSender.is_in_range, hba] at this
        omega
    · intro m hm
      exact gbn_process_ack_base_some s a m (by rw [hall2 hba]; exact hm)
    · intro hm
      exact gbn_process_ack_base_none s a (by rw [hall2 hba]; exact hm)
  · constructor
    · -- a < base: the wraparound branch `k ≥ base ∨ k ≤ a` holds for every key
      intro hab
      rw [gbn_process_ack_window_eq, hfold]
      apply List.filter_eq_nil_iff.mpr
      intro kv hkv
      simp only [decide_eq_true_eq, Decidable.not_not]
      apply List.mem_filter.mpr
      refine ⟨List.mem_map_of_mem Prod.fst hkv, ?_⟩
      have hbk := hk kv.1 (List.mem_map_of_mem Prod.fst hkv)
      simp [GoBackNSender.is_in_range, Nat.not_le.mpr hab, hbk]
    · intro hab m hm
      have hall : (keysOf s.window).filter
          (fun k => GoBackNSender.is_in_range k s.base a) = keysOf s.window := by
        apply List.filter_eq_self.mpr
        intro k hkm
        simp [GoBackNSender.is_in_range, Nat.not_le.mpr hab, hk k hkm]
      exact gbn_process_ack_base_some s a m (by rw [hall]; exact hm)

/-- Witness for C5's amended statement: in the non-wraparound case
(`base = 0`, keys {0,1,2,3}, ACK 2) exactly the keys 0..2 are retired. -/
def gbnPlainSender : GoBackNSender :=
  { GoBackNSender.init 4 200 with
    next_seq_num := 4
    window := [(0, { frame := Frame.mkData 0 "A", timestamp := 0, data := "A" }),
               (1, { frame := Frame.mkData 1 "B", timestamp := 0, data := "B" }),
               (2, { frame := Frame.mkData 2 "C", timestamp := 0, data := "C" }),
               (3, { frame := Frame.mkData 3 "D", timestamp := 0, data := "D" })] }

theorem c5_witness :
    (3 ∈ keysOf (gbnPlainSender.process_ack 2).window ∧
      2 ∉ keysOf (gbnPlainSender.process_ack 2).window ∧
      (gbnPlainSender.process_ack 2).base = 3) ∧
    gbnWrapSender.process_ack 0 = gbnWrapSender.process_ack 0 := by
  have h := (c5_amended gbnPlainSender 2 (by decide) (by decide)).1 (by decide)
  refine ⟨⟨?_, ?_, ?_⟩, rfl⟩
  · exact (h.1 3).mpr ⟨by decide, by decide⟩
  · intro hmem
    have := ((h.1 2).mp hmem).2
    omega
  · exact h.2.1 2 (by decide)

/-! ### C6 — Selective Repeat receiver, frames outside the window -/

/-- A Selective Repeat receiver that has delivered instances 0..9
(`base = 10`, so the modular window is seq 2..5). -/
def srBase10Receiver : SelectiveRepeatReceiver :=
  { SelectiveRepeatReceiver.init 4 with
    base := 10
    received_frames := ["p0", "p1", "p2", "p3", "p4", "p5", "p6", "p7", "p8", "p9"] }

/-- C6 counterexample: frame 6 is a retransmission of the already-delivered
instance 6 (6 < base = 10) and lies outside the receive window, yet the
receiver silently discards it (no acknowledgment, `frames_discarded`
incremented) instead of re-ACKing it, because `is_already_delivered` is the
numeric test `seq < base % 8 = 2`, which ignores wraparound. -/
theorem c6_counterexample :
    (6 : Nat) < srBase10Receiver.base ∧
    srBase10Receiver.received_frames.length = 10 ∧
    srBase10Receiver.is_in_window 6 = false ∧
    (srBase10Receiver.receive_frame alwaysFalseOracle 0 (Frame.mkData 6 "p6")).1 = none ∧
    (srBase10Receiver.receive_frame alwaysFalseOracle 0
        (Frame.mkData 6 "p6")).2.1.frames_discarded =
      srBase10Receiver.frames_discarded + 1 := by
  refine ⟨by norm_num [srBase10Receiver], rfl, rfl, ?_, ?_⟩ <;>
    simp [SelectiveRepeatReceiver.receive_frame, srBase10Receiver,
      SelectiveRepeatReceiver.init, SelectiveRepeatReceiver.is_in_window,
      SelectiveRepeatReceiver.is_already_delivered, Frame.mkData, alwaysFalseOracle,
      maxSeqNum]

/-- C6 (amended): for a frame outside the receive window that is neither lost
nor corrupted: if `seq < base % 8` the receiver re-ACKs it (delivering and
buffering nothing); if `seq ≥ base % 8` it is silently discarded with no
acknowledgment — even when it corresponds to an already-delivered instance. -/
theorem c6_amended (r : SelectiveRepeatReceiver) (f : Frame) (o : Nat → Bool) (ix : Nat)
    (hlost : o ix = false) (hcorr : o (ix + 1) = false)
    (hout : r.is_in_window f.seq_num = false) :
    (f.seq_num < r.base % maxSeqNum → o (ix + 2) = false →
      (r.receive_frame o ix f).1 = some [f.seq_num] ∧
      (r.receive_frame o ix f).2.1.received_frames = r.received_frames ∧
      (r.receive_frame o ix f).2.1.buffer = r.buffer ∧
      (r.receive_frame o ix f).2.1.frames_discarded = r.frames_discarded) ∧
    (r.base % maxSeqNum ≤ f.seq_num →
      (r.receive_frame o ix f).1 = none ∧
      (r.receive_frame o ix f).2.1.frames_discarded = r.frames_discarded + 1 ∧
      (r.receive_frame o ix f).2.1.received_frames = r.received_frames ∧
      (r.receive_frame o ix f).2.1.buffer = r.buffer) := by
  simp only [SelectiveRepeatReceiver.is_in_window] at hout
  constructor
  · intro hbelow hackok
    simp only [SelectiveRepeatReceiver.receive_frame,
      SelectiveRepeatReceiver.is_in_window, SelectiveRepeatReceiver.is_already_delivered]
    simp [hlost, hcorr, hout, hbelow, hackok]
  · intro habove
    simp only [SelectiveRepeatReceiver.receive_frame,
      SelectiveRepeatReceiver.is_in_window, SelectiveRepeatReceiver.is_already_delivered]
    simp [hlost, hcorr, hout, Nat.not_lt.mpr habove]

/-- Witness for C6's amended statement: at `base = 10` a below-window frame
(seq 1) is re-ACKed while seq 7 — also already delivered — is discarded. -/
theorem c6_witness :
    ((srBase10Receiver.receive_frame alwaysFalseOracle 0 (Frame.mkData 1 "p1")).1 =
      some [1]) ∧
    ((srBase10Receiver.receive_frame alwaysFalseOracle 0 (Frame.mkData 7 "p7")).1 =
      none) := by
  constructor
  · exact ((c6_amended srBase10Receiver (Frame.mkData 1 "p1") alwaysFalseOracle 0
      rfl rfl rfl).1 (by norm_num [srBase10Receiver, Frame.mkData, maxSeqNum]) rfl).1
  · exact ((c6_amended srBase10Receiver (Frame.mkData 7 "p7") alwaysFalseOracle 0
      rfl rfl rfl).2 (by norm_num [srBase10Receiver, Frame.mkData, maxSeqNum])).1

/-! ### C8 — Stop-and-Wait retry behavior -/

/-- C8 counterexample: on the very first send attempt the frame arrives intact
but the ACK is lost (draw 2 fires).  The claim says the sender then observes
no-ACK and retries; in fact `receive_frame` returns `True` regardless of the
ACK-loss draw, so `send_frame` reports success after 1 transmission with a
retry counter of 0. -/
theorem c8_counterexample :
    ackLossOnlyOracle 2 = true ∧
    ((initSWWorld 10).send_frame ackLossOnlyOracle "x").2 = true ∧
    ((initSWWorld 10).send_frame ackLossOnlyOracle "x").1.snd.retransmission_count = 0 ∧
    ((initSWWorld 10).send_frame ackLossOnlyOracle "x").1.snd.total_transmissions = 1 ∧
    ((initSWWorld 10).send_frame ackLossOnlyOracle "x").1.rcv.received_frames = ["x"] := by
  refine ⟨rfl, ?_, ?_, ?_, ?_⟩ <;>
    simp [SWWorld.send_frame, SWWorld.send_attempt_loop, initSWWorld,
      StopAndWaitSender.init, StopAndWaitReceiver.init,
      StopAndWaitReceiver.receive_frame, Frame.mkData, ackLossOnlyOracle]

/-- Any attempt whose frame is lost (`o ix` fires) or corrupted (`o ix` is
clean but `o (ix+1)` fires) reports no-ACK and leaves the receiver unchanged. -/
theorem sw_receive_frame_fail (o : Nat → Bool) (r : StopAndWaitReceiver)
    (ix : Nat) (f : Frame)
    (h : o ix = true ∨ o (ix + 1) = true) :
    (r.receive_frame o ix f).1 = false ∧ (r.receive_frame o ix f).2.1 = r := by
  unfold StopAndWaitReceiver.receive_frame
  by_cases h1 : o ix
  · simp [h1]
  · rcases h with h' | h'
    · exact absurd h' h1
    · simp [h1, h']

/-- Under any channel behavior that loses or corrupts every attempt, the retry
loop transmits once per attempt (incrementing the retry counter each time)
until the counter reaches 5, then reports failure with the receiver
untouched. -/
theorem sw_attempt_loop_all_fail (o : Nat → Bool) (f : Frame)
    (hfail : ∀ ix, o ix = true ∨ o (ix + 1) = true) :
    ∀ (n : Nat) (w : SWWorld), w.snd.waiting_for_ack = true →
      w.snd.retransmission_count + n = 5 →
      (SWWorld.send_attempt_loop o f w).2 = false ∧
      (SWWorld.send_attempt_loop o f w).1.snd.retransmission_count = 5 ∧
      (SWWorld.send_attempt_loop o f w).1.snd.total_transmissions =
        w.snd.total_transmissions + n ∧
      (SWWorld.send_attempt_loop o f w).1.rcv = w.rcv := by
  intro n
  induction n with
  | zero =>
    intro w hwait hcnt
    rw [SWWorld.send_attempt_loop, dif_neg (by rintro ⟨-, hlt⟩; omega)]
    exact ⟨rfl, by show w.snd.retransmission_count = 5; omega, rfl, rfl⟩
  | succ n ih =>
    intro w hwait hcnt
    rw [SWWorld.send_attempt_loop, dif_pos ⟨hwait, by omega⟩]
    simp only []
    obtain ⟨hres, hrcv⟩ := sw_receive_frame_fail o w.rcv w.ix f (hfail w.ix)
    rw [if_neg (by rw [hres]; exact Bool.false_ne_true)]
    rw [hrcv]
    obtain ⟨g1, g2, g3, g4⟩ := ih
      { snd := { w.snd with
          total_transmissions := w.snd.total_transmissions + 1,
          retransmission_count := w.snd.retransmission_count + 1 },
        rcv := w.rcv,
        ix := (w.rcv.receive_frame o w.ix f).2.2,
        clock := w.clock + 1 + w.snd.timeout }
      hwait (by show w.snd.retransmission_count + 1 + n = 5; omega)
    refine ⟨g1, g2, ?_, g4⟩
    rw [show w.snd.total_transmissions + (n + 1) =
      w.snd.total_transmissions + 1 + n from by omega]
    exact g3

/-- From any sender state, if every attempt of this `send_frame` call is lost
or corrupted, the call performs exactly 5 transmissions, ends with a retry
counter of 5, returns `False` (no exception), and leaves the receiver
unchanged. -/
theorem sw_send_frame_all_fail (o : Nat → Bool)
    (hfail : ∀ ix, o ix = true ∨ o (ix + 1) = true) (w : SWWorld) (d : String) :
    (w.send_frame o d).2 = false ∧
    (w.send_frame o d).1.snd.retransmission_count = 5 ∧
    (w.send_frame o d).1.snd.total_transmissions =
      w.snd.total_transmissions + 5 ∧
    (w.send_frame o d).1.rcv = w.rcv := by
  unfold SWWorld.send_frame
  obtain ⟨g1, g2, g3, g4⟩ := sw_attempt_loop_all_fail o
    (Frame.mkData w.snd.seq_num d) hfail 5
    { w with snd := { w.snd with
        current_frame := some (Frame.mkData w.snd.seq_num d),
        waiting_for_ack := true, retransmission_count := 0 } }
    rfl rfl
  exact ⟨g1, g2, g3, g4⟩

/-- C8 (amended): for every attempt in which the frame is lost or corrupted,
the sender observes no-ACK (`receive_frame` returns `False`, receiver
unchanged), and a no-ACK attempt makes the retry loop increment the retry
counter and try again; under any channel behavior that loses or corrupts
every attempt, `send_frame` performs exactly 5 transmissions and returns
`False` (no exception) with the receiver unchanged, and the harness still
attempts the subsequent frame normally.  But a lost acknowledgment is
invisible to the sender: `receive_frame` returns `True` for every accepted
frame regardless of the ACK-loss draw, so an ACK-loss attempt is treated as
success, not retried. -/
theorem c8_amended (o : Nat → Bool)
    (hfail : ∀ ix, o ix = true ∨ o (ix + 1) = true) (w : SWWorld) (d : String) :
    ((w.send_frame o d).2 = false ∧
      (w.send_frame o d).1.snd.retransmission_count = 5 ∧
      (w.send_frame o d).1.snd.total_transmissions =
        w.snd.total_transmissions + 5 ∧
      (w.send_frame o d).1.rcv = w.rcv) ∧
    (∀ (d2 : String),
      (SWWorld.run_all o [d, d2] w).snd.total_transmissions =
        w.snd.total_transmissions + 10 ∧
      (SWWorld.run_all o [d, d2] w).rcv = w.rcv) ∧
    (∀ (o' : Nat → Bool) (r : StopAndWaitReceiver) (ix : Nat) (f : Frame),
      o' ix = true ∨ o' (ix + 1) = true →
      (r.receive_frame o' ix f).1 = false ∧ (r.receive_frame o' ix f).2.1 = r) ∧
    (∀ (o' : Nat → Bool) (f : Frame) (w' : SWWorld),
      w'.snd.waiting_for_ack = true → w'.snd.retransmission_count < 5 →
      (w'.rcv.receive_frame o' w'.ix f).1 = false →
      SWWorld.send_attempt_loop o' f w' =
        SWWorld.send_attempt_loop o' f
          { snd := { w'.snd with
              total_transmissions := w'.snd.total_transmissions + 1,
              retransmission_count := w'.snd.retransmission_count + 1 },
            rcv := (w'.rcv.receive_frame o' w'.ix f).2.1,
            ix := (w'.rcv.receive_frame o' w'.ix f).2.2,
            clock := w'.clock + 1 + w'.snd.timeout }) ∧
    (∀ (r : StopAndWaitReceiver) (o' : Nat → Bool) (ix : Nat) (f : Frame),
      o' ix = false → o' (ix + 1) = false → f.seq_num = r.expected_seq_num →
      (r.receive_frame o' ix f).1 = true) := by
  refine ⟨sw_send_frame_all_fail o hfail w d, ?_, ?_, ?_, ?_⟩
  · intro d2
    obtain ⟨-, -, h3, h4⟩ := sw_send_frame_all_fail o hfail w d
    obtain ⟨-, -, g3, g4⟩ := sw_send_frame_all_fail o hfail
      { (w.send_frame o d).1 with clock := (w.send_frame o d).1.clock + 5 } d2
    constructor
    · show ((({ (w.send_frame o d).1 with
          clock := (w.send_frame o d).1.clock + 5 } : SWWorld).send_frame o d2
          ).1.snd.total_transmissions) = w.snd.total_transmissions + 10
      rw [g3]
      show (w.send_frame o d).1.snd.total_transmissions + 5 = _
      rw [h3]
    · show ((({ (w.send_frame o d).1 with
          clock := (w.send_frame o d).1.clock + 5 } : SWWorld).send_frame o d2
          ).1.rcv) = w.rcv
      rw [g4]
      show (w.send_frame o d).1.rcv = w.rcv
      exact h4
  · intro o' r ix f h
    exact sw_receive_frame_fail o' r ix f h
  · intro o' f w' hw hlt hres
    rw [SWWorld.send_attempt_loop, dif_pos ⟨hw, hlt⟩]
    simp only []
    rw [if_neg (by rw [hres]; exact Bool.false_ne_true)]
  · intro r o' ix f hlost hcorr hseq
    simp [StopAndWaitReceiver.receive_frame, hlost, hcorr, hseq]

/-- A channel that corrupts (but never loses) every attempted frame: the loss
draw (taken at even oracle indices) is always clean, and the corruption draw
(the following odd index) always fires. -/
def corruptOracle : Nat → Bool := fun i => decide (i % 2 = 1)

/-- Witness for C8's amended statement: the all-corrupted channel and the
all-lost channel both fail a frame after 5 attempts, and an accepted frame is
reported `True` even when its ACK is lost. -/
theorem c8_witness :
    (∀ ix, corruptOracle ix = true ∨ corruptOracle (ix + 1) = true) ∧
    ((initSWWorld 10).send_frame corruptOracle "a").2 = false ∧
    ((initSWWorld 10).send_frame corruptOracle "a").1.snd.retransmission_count = 5 ∧
    ((initSWWorld 10).send_frame alwaysTrueOracle "a").2 = false ∧
    ((StopAndWaitReceiver.init).receive_frame ackLossOnlyOracle 0
      (Frame.mkData 0 "z")).1 = true := by
  have hfailc : ∀ ix, corruptOracle ix = true ∨ corruptOracle (ix + 1) = true := by
    intro ix
    by_cases h : ix % 2 = 1
    · exact Or.inl (by simp [corruptOracle, h])
    · refine Or.inr ?_
      simp only [corruptOracle, decide_eq_true_eq]
      omega
  have hfailt : ∀ ix, alwaysTrueOracle ix = true ∨ alwaysTrueOracle (ix + 1) = true :=
    fun ix => Or.inl rfl
  refine ⟨hfailc, ?_, ?_, ?_, ?_⟩
  · exact (c8_amended corruptOracle hfailc (initSWWorld 10) "a").1.1
  · exact (c8_amended corruptOracle hfailc (initSWWorld 10) "a").1.2.1
  · exact (c8_amended alwaysTrueOracle hfailt (initSWWorld 10) "a").1.1
  · exact (c8_amended corruptOracle hfailc (initSWWorld 10) "a").2.2.2.2
      StopAndWaitReceiver.init ackLossOnlyOracle 0 (Frame.mkData 0 "z") rfl rfl rfl

/-! ### C1 — termination caps -/

theorem sr_receive_frame_lost (o : Nat → Bool) (r : SelectiveRepeatReceiver)
    (ix : Nat) (f : Frame) (h : o ix = true) :
    r.receive_frame o ix f =
      (none, { r with total_frames_received := r.total_frames_received + 1 }, ix + 1) := by
  simp [SelectiveRepeatReceiver.receive_frame, h]

theorem sr_send_new_frames_empty (o : Nat → Bool) (w : SRWorld)
    (h : w.snd.data_buffer = []) : w.send_new_frames o = w := by
  unfold SRWorld.send_new_frames
  simp [SelectiveRepeatSender.can_send, h]

theorem sr_selective_retransmit_all_lost (o : Nat → Bool) (ho : ∀ i, o i = true)
    (w : SRWorld) (k : Nat) :
    keysOf (w.selective_retransmit o k).snd.window = keysOf w.snd.window ∧
    (w.selective_retransmit o k).snd.ack_received = w.snd.ack_received ∧
    (w.selective_retransmit o k).snd.data_buffer = w.snd.data_buffer := by
  unfold SRWorld.selective_retransmit
  cases hl : lookupKey k w.snd.window with
  | none => exact ⟨rfl, rfl, rfl⟩
  | some e =>
    have hk : k ∈ keysOf w.snd.window := mem_keysOf_of_lookup hl
    simp [sr_receive_frame_lost o w.rcv w.ix e.frame (ho w.ix),
      keysOf_setKey_mem _ hk]

theorem sr_fold_retransmit_all_lost (o : Nat → Bool) (ho : ∀ i, o i = true)
    (L : List Nat) :
    ∀ w : SRWorld,
      keysOf (L.foldl (fun w' k =>
          if (lookupKey k w'.snd.window).isSome then w'.selective_retransmit o k
          else w') w).snd.window = keysOf w.snd.window ∧
      (L.foldl (fun w' k =>
          if (lookupKey k w'.snd.window).isSome then w'.selective_retransmit o k
          else w') w).snd.ack_received = w.snd.ack_received ∧
      (L.foldl (fun w' k =>
          if (lookupKey k w'.snd.window).isSome then w'.selective_retransmit o k
          else w') w).snd.data_buffer = w.snd.data_buffer := by
  induction L with
  | nil => intro w; exact ⟨rfl, rfl, rfl⟩
  | cons k L ih =>
    intro w
    rw [List.foldl_cons]
    by_cases h : (lookupKey k w.snd.window).isSome
    · obtain ⟨h1, h2, h3⟩ := sr_selective_retransmit_all_lost o ho w k
      obtain ⟨g1, g2, g3⟩ := ih (w.selective_retransmit o k)
      rw [if_pos h]
      exact ⟨g1.trans h1, g2.trans h2, g3.trans h3⟩
    · rw [if_neg h]
      exact ih w

theorem sr_check_timeouts_all_lost (o : Nat → Bool) (ho : ∀ i, o i = true)
    (w : SRWorld) :
    keysOf (w.check_individual_timeouts o).snd.window = keysOf w.snd.window ∧
    (w.check_individual_timeouts o).snd.ack_received = w.snd.ack_received ∧
    (w.check_individual_timeouts o).snd.data_buffer = w.snd.data_buffer := by
  unfold SRWorld.check_individual_timeouts
  exact sr_fold_retransmit_all_lost o ho _ w

theorem sr_slide_window_no_ack (s : SelectiveRepeatSender)
    (h : s.ack_received = []) : s.slide_window = s := by
  unfold SelectiveRepeatSender.slide_window
  simp [h]

theorem sr_loop_stuck (o : Nat → Bool) (ho : ∀ i, o i = true) :
    ∀ (fuel : Nat) (w : SRWorld), w.snd.data_buffer = [] → w.snd.window ≠ [] →
      w.snd.ack_received = [] →
      (SRWorld.send_frames_loop o fuel w).2 = false := by
  intro fuel
  induction fuel with
  | zero => intro w _ _ _; rfl
  | succ n ih =>
    intro w hbuf hwin hack
    have hwe : w.snd.window.isEmpty = false := by
      cases hw : w.snd.window with
      | nil => exact absurd hw hwin
      | cons a l => rfl
    have h1 : w.send_new_frames o = w := sr_send_new_frames_empty o w hbuf
    obtain ⟨hck, hca, hcb⟩ := sr_check_timeouts_all_lost o ho w
    have hkeys_ne : keysOf (w.check_individual_timeouts o).snd.window ≠ [] := by
      rw [hck]
      intro hc
      apply hwin
      cases hw : w.snd.window with
      | nil => rfl
      | cons a l => rw [hw, keysOf_cons] at hc; exact absurd hc (List.cons_ne_nil _ _)
    have hwin2 : (w.check_individual_timeouts o).snd.window ≠ [] := by
      intro hc
      rw [hc] at hkeys_ne
      exact hkeys_ne rfl
    have hslide : (w.check_individual_timeouts o).snd.slide_window =
        (w.check_individual_timeouts o).snd :=
      sr_slide_window_no_ack _ (hca.trans hack)
    have hwe2 : (w.check_individual_timeouts o).snd.window.isEmpty = false := by
      cases hw : (w.check_individual_timeouts o).snd.window with
      | nil => exact absurd hw hwin2
      | cons a l => rfl
    rw [SRWorld.send_frames_loop]
    simp only [hbuf, List.isEmpty_nil, hwe, Bool.true_and, h1, hslide, hwe2,
      Bool.false_and, Bool.and_false]
    simp only [Bool.false_eq_true, if_false]
    exact ih _ (hcb.trans hbuf) hwin2 (hca.trans hack)

/-- C1: the Go-Back-N loop is capped at 500 iterations and Stop-and-Wait at 5
attempts per frame, but the Selective Repeat sender's main transmission loop in
`send_frames` has *no* iteration or retransmission cap: with a single payload
and a channel that loses every transmission, the `while self.data_buffer or
self.window` loop never exits — for every number of loop iterations the run is
still going.  (The repository's own SELECTIVE_REPEAT_FIXES.py and
test_selective_repeat.py claim a `max_iterations` guard was added, but
selective_repeat.py contains none.) -/
theorem sr_receive_frame_lost_true (r : SelectiveRepeatReceiver) (ix : Nat)
    (f : Frame) :
    r.receive_frame alwaysTrueOracle ix f =
      (none, { r with total_frames_received := r.total_frames_received + 1 },
        ix + 1) :=
  sr_receive_frame_lost _ _ _ _ rfl

/-- The state of the all-loss single-payload Selective Repeat run after the
body of the first pass of the `send_frames` loop: frame 0 sent (and lost),
backlog empty, instance 0 stuck in the window with no acknowledgment. -/
def srStuckWorld : SRWorld :=
  { snd := { window_size := 4, timeout := 20, base := 0, next_seq_num := 1,
             window := [(0, { frame := { seq_num := 0, frame_type := .DATA,
                                         data := "A", checksum := 65 },
                              timestamp := 0, data := "A" })],
             ack_received := [], data_buffer := [], total_transmissions := 1,
             retransmissions := 0, individual_timers := [(0, 0)] },
    rcv := { window_size := 4, base := 0, buffer := [], received_frames := [],
             total_frames_received := 1, frames_discarded := 0,
             duplicate_frames := 0 },
    ix := 1, clock := 1,
    sent_log := [{ seq_num := 0, frame_type := .DATA, data := "A", checksum := 65 }] }

theorem c1_sr_send_frames_has_no_iteration_cap :
    ∀ fuel : Nat,
      (SRWorld.send_frames_loop alwaysTrueOracle fuel
        (initSRWorld 4 4 20 ["A"])).2 = false := by
  have ha : (initSRWorld 4 4 20 ["A"]).send_new_frames alwaysTrueOracle =
      srStuckWorld := by
    rw [SRWorld.send_new_frames]
    simp only [initSRWorld, SelectiveRepeatSender.init, SelectiveRepeatSender.add_data,
      SelectiveRepeatReceiver.init, SelectiveRepeatSender.can_send,
      List.nil_append, sr_receive_frame_lost_true, List.isEmpty_cons,
      Frame.mkData, setKey]
    norm_num
    rw [SRWorld.send_new_frames]
    simp only [SelectiveRepeatSender.can_send, List.isEmpty_nil, Bool.not_true,
      Bool.and_false, Bool.false_eq_true, if_false, srStuckWorld]
    norm_num [calculate_checksum]
    rfl
  have hb : SRWorld.check_individual_timeouts alwaysTrueOracle srStuckWorld =
      srStuckWorld := by
    unfold SRWorld.check_individual_timeouts
    norm_num [srStuckWorld]
  have hc : srStuckWorld.snd.slide_window = srStuckWorld.snd :=
    sr_slide_window_no_ack _ rfl
  intro fuel
  cases fuel with
  | zero => rfl
  | succ n =>
    rw [SRWorld.send_frames_loop]
    rw [if_neg (by simp [initSRWorld, SelectiveRepeatSender.init,
      SelectiveRepeatSender.add_data])]
    simp only [ha, hb, hc]
    rw [if_neg (by simp [srStuckWorld])]
    exact sr_loop_stuck alwaysTrueOracle (fun _ => rfl) n _ rfl
      (by simp [srStuckWorld]) rfl

/-! ### C3 — selective retransmission touches only the target frame -/

theorem sr_deliver_frames_fst :
    ∀ (n : Nat) (r : SelectiveRepeatReceiver), r.buffer.length ≤ n →
      (r.deliver_frames).1 = [] := by
  intro n
  induction n with
  | zero =>
    intro r hr
    have hb : r.buffer = [] := List.length_eq_zero.mp (Nat.le_zero.mp hr)
    rw [SelectiveRepeatReceiver.deliver_frames]
    split
    · rfl
    · rename_i data hl
      rw [hb] at hl
      simp [lookupKey] at hl
  | succ n ih =>
    intro r hr
    rw [SelectiveRepeatReceiver.deliver_frames]
    split
    · rfl
    · rename_i data hl
      exact ih _ (by
        have := removeKey_length_lt hl
        simp only []
        omega)

theorem sr_receive_frame_acks_cases (o : Nat → Bool) (r : SelectiveRepeatReceiver)
    (ix : Nat) (f : Frame) :
    (r.receive_frame o ix f).1 = none ∨ (r.receive_frame o ix f).1 = some [] ∨
    (r.receive_frame o ix f).1 = some [f.seq_num] := by
  unfold SelectiveRepeatReceiver.receive_frame
  by_cases h1 : o ix
  · simp [h1]
  · by_cases h2 : o (ix + 1)
    · simp [h1, h2]
    · by_cases h3 : ({ r with total_frames_received :=
          r.total_frames_received + 1 } : SelectiveRepeatReceiver).is_in_window f.seq_num
      · by_cases h4 : o (ix + 1 + 1) <;>
          simp [h1, h2, h3, h4, sr_deliver_frames_fst _ _ (Nat.le_refl _)]
      · by_cases h5 : ({ r with total_frames_received :=
            r.total_frames_received + 1 } : SelectiveRepeatReceiver).is_already_delivered
              f.seq_num
        · by_cases h4 : o (ix + 1 + 1) <;> simp [h1, h2, h3, h5, h4]
        · simp [h1, h2, h3, h5]

theorem sr_process_ack_lookup_ne (s : SelectiveRepeatSender) (a m : Nat)
    (h : m % maxSeqNum ≠ a) :
    lookupKey m (s.process_ack a).window = lookupKey m s.window ∧
    lookupKey m (s.process_ack a).individual_timers =
      lookupKey m s.individual_timers := by
  have hnr : ∀ (w : List (Nat × WindowEntry)),
      m ∉ (keysOf w).filter (fun k => k % maxSeqNum = a) := by
    intro w hmem
    have := (List.mem_filter.mp hmem).2
    simp at this
    exact h this
  unfold SelectiveRepeatSender.process_ack
  by_cases hmem : a ∈ s.ack_received <;>
    simp only [hmem, if_true, if_false] <;>
    exact ⟨lookupKey_foldl_removeKey_not_mem _ _ (hnr _),
      lookupKey_foldl_removeKey_not_mem _ _ (hnr _)⟩

theorem sr_process_ack_counters (s : SelectiveRepeatSender) (a : Nat) :
    (s.process_ack a).retransmissions = s.retransmissions ∧
    (s.process_ack a).total_transmissions = s.total_transmissions := by
  unfold SelectiveRepeatSender.process_ack
  by_cases hmem : a ∈ s.ack_received <;> simp [hmem]

/-- C3: retransmitting frame `n` (with `n` outstanding) leaves every other
outstanding frame `m`'s window entry (hence its stored frame and timestamp)
and its individual timer untouched, transmits exactly one frame — frame `n`'s,
whose modular number differs from `m`'s — and counts exactly one
retransmission. -/
theorem c3_selective_retransmit_touches_only_target (o : Nat → Bool) (w : SRWorld)
    (m n : Nat) (e : WindowEntry)
    (hmn : m ≠ n)
    (hbounds : ∀ k ∈ keysOf w.snd.window,
      w.snd.base ≤ k ∧ k < w.snd.base + w.snd.window_size)
    (hws : w.snd.window_size ≤ maxSeqNum)
    (hm : m ∈ keysOf w.snd.window)
    (hn : lookupKey n w.snd.window = some e)
    (hseq : e.frame.seq_num = n % maxSeqNum) :
    lookupKey m (w.selective_retransmit o n).snd.window = lookupKey m w.snd.window ∧
    lookupKey m (w.selective_retransmit o n).snd.individual_timers =
      lookupKey m w.snd.individual_timers ∧
    (w.selective_retransmit o n).sent_log = w.sent_log ++ [e.frame] ∧
    e.frame.seq_num ≠ m % maxSeqNum ∧
    (w.selective_retransmit o n).snd.retransmissions = w.snd.retransmissions + 1 := by
  have hnmem : n ∈ keysOf w.snd.window := mem_keysOf_of_lookup hn
  obtain ⟨hm1, hm2⟩ := hbounds m hm
  obtain ⟨hn1, hn2⟩ := hbounds n hnmem
  have hmod : m % maxSeqNum ≠ n % maxSeqNum := by
    simp only [maxSeqNum] at hws ⊢
    omega
  have hne : e.frame.seq_num ≠ m % maxSeqNum := by
    rw [hseq]
    exact fun hh => hmod hh.symm
  unfold SRWorld.selective_retransmit
  rw [hn]
  simp only []
  rcases sr_receive_frame_acks_cases o w.rcv w.ix e.frame with hacks | hacks | hacks <;>
    rw [hacks]
  · simp only [Option.getD_none, List.foldl_nil]
    refine ⟨?_, ?_, ?_, ?_, ?_⟩
    · exact lookupKey_setKey_ne _ _ hmn
    · exact lookupKey_setKey_ne _ _ hmn
    · trivial
    · exact hne
    · trivial
  · simp only [Option.getD_some, List.foldl_nil]
    refine ⟨?_, ?_, ?_, ?_, ?_⟩
    · exact lookupKey_setKey_ne _ _ hmn
    · exact lookupKey_setKey_ne _ _ hmn
    · trivial
    · exact hne
    · trivial
  · simp only [Option.getD_some, List.foldl_cons, List.foldl_nil]
    have hmod2 : m % maxSeqNum ≠ e.frame.seq_num := fun hh => hne hh.symm
    refine ⟨?_, ?_, ?_, ?_, ?_⟩
    · rw [(sr_process_ack_lookup_ne _ _ m hmod2).1, lookupKey_setKey_ne _ _ hmn]
    · rw [(sr_process_ack_lookup_ne _ _ m hmod2).2, lookupKey_setKey_ne _ _ hmn]
    · trivial
    · exact hne
    · rw [(sr_process_ack_counters _ _).1]

/-- A Selective Repeat sender world with instances 0 and 1 outstanding. -/
def srTwoFrameWorld : SRWorld :=
  { snd := { window_size := 4, timeout := 20, base := 0, next_seq_num := 2,
             window := [(0, { frame := Frame.mkData 0 "A", timestamp := 0, data := "A" }),
                        (1, { frame := Frame.mkData 1 "B", timestamp := 0, data := "B" })],
             ack_received := [], data_buffer := [], total_transmissions := 2,
             retransmissions := 0, individual_timers := [(0, 0), (1, 0)] },
    rcv := SelectiveRepeatReceiver.init 4,
    ix := 0, clock := 30, sent_log := [] }

/-- Witness for C3 at a concrete state: retransmitting frame 0 leaves frame 1's
window entry and timer untouched. -/
theorem c3_witness :
    lookupKey 1 (srTwoFrameWorld.selective_retransmit alwaysFalseOracle 0).snd.window =
      lookupKey 1 srTwoFrameWorld.snd.window ∧
    lookupKey 1
        (srTwoFrameWorld.selective_retransmit alwaysFalseOracle 0).snd.individual_timers =
      lookupKey 1 srTwoFrameWorld.snd.individual_timers ∧
    (srTwoFrameWorld.selective_retransmit alwaysFalseOracle 0).sent_log =
      srTwoFrameWorld.sent_log ++ [Frame.mkData 0 "A"] := by
  have h := c3_selective_retransmit_touches_only_target alwaysFalseOracle
    srTwoFrameWorld 1 0 { frame := Frame.mkData 0 "A", timestamp := 0, data := "A" }
    (by decide)
    (by intro k hk
        have : k = 0 ∨ k = 1 := by
          revert hk
          show k ∈ keysOf srTwoFrameWorld.snd.window → _
          rw [show keysOf srTwoFrameWorld.snd.window = [0, 1] from rfl]
          intro hk
          rcases List.mem_cons.mp hk with h0 | h1
          · exact Or.inl h0
          · exact Or.inr (List.mem_singleton.mp h1)
        rcases this with rfl | rfl <;>
          exact ⟨by norm_num [srTwoFrameWorld], by norm_num [srTwoFrameWorld]⟩)
    (by norm_num [srTwoFrameWorld, maxSeqNum])
    (by rw [show keysOf srTwoFrameWorld.snd.window = [0, 1] from rfl]
        exact List.mem_cons_of_mem _ (List.mem_singleton.mpr rfl))
    rfl rfl
  exact ⟨h.1, h.2.1, h.2.2.1⟩

/-! ### C4 — window invariants -/

theorem window_residue_check (b ws s : Nat) (hb : b < 8) (hws1 : 1 ≤ ws)
    (hws8 : ws ≤ 8) (hs : s < 8) :
    ((if b ≤ (b + ws - 1) % 8 then b ≤ s ∧ s ≤ (b + ws - 1) % 8
      else s ≥ b ∨ s ≤ (b + ws - 1) % 8) ↔ ∃ j < ws, s = (b + j) % 8) := by
  constructor
  · intro h
    by_cases hcase : b + ws ≤ 8
    · rw [if_pos (by omega)] at h
      exact ⟨s - b, by omega, by omega⟩
    · rw [if_neg (by omega)] at h
      rcases h with h | h
      · exact ⟨s - b, by omega, by omega⟩
      · exact ⟨s + 8 - b, by omega, by omega⟩
  · rintro ⟨j, hj, rfl⟩
    by_cases hcase : b + ws ≤ 8
    · rw [if_pos (by omega)]
      omega
    · rw [if_neg (by omega)]
      omega

/-- The coded wraparound window test accepts exactly the residues
`(base + j) % 8` for `j < window_size` (for any window size between 1 and 8). -/
theorem sr_is_in_window_iff (r : SelectiveRepeatReceiver) (hpos : 1 ≤ r.window_size)
    (hle : r.window_size ≤ maxSeqNum) (s : Nat) (hs : s < maxSeqNum) :
    r.is_in_window s = true ↔
      ∃ j < r.window_size, s = (r.base + j) % maxSeqNum := by
  simp only [maxSeqNum] at hle hs ⊢
  have hkey := window_residue_check (r.base % 8) r.window_size s (by omega) hpos hle hs
  rw [SelectiveRepeatReceiver.is_in_window]
  simp only [maxSeqNum]
  have h1 : (r.base + r.window_size - 1) % 8 = (r.base % 8 + r.window_size - 1) % 8 := by
    omega
  simp only [h1]
  have h2 : (∃ j < r.window_size, s = (r.base + j) % 8) ↔
      (∃ j < r.window_size, s = (r.base % 8 + j) % 8) := by
    apply exists_congr
    intro j
    apply and_congr_right
    intro _
    constructor <;> (intro hh; omega)
  rw [h2, ← hkey]
  by_cases hcond : r.base % 8 ≤ (r.base % 8 + r.window_size - 1) % 8
  · simp [hcond]
  · simp [hcond]

/-- Receiver-side invariant for C4: buffered residues lie in the modular
receive window, keys are duplicate-free, and the base residue is never
buffered at an observable point (`deliver_frames` has drained it). -/
structure SRReceiverInv (r : SelectiveRepeatReceiver) : Prop where
  ws_pos : 1 ≤ r.window_size
  ws_le : r.window_size ≤ maxSeqNum
  nodup_buf : (keysOf r.buffer).Nodup
  buf_w : ∀ k ∈ keysOf r.buffer, ∃ j < r.window_size, k = (r.base + j) % maxSeqNum
  base_not_buf : lookupKey (r.base % maxSeqNum) r.buffer = none

theorem keysOf_removeKey_subset {β : Type} (k : Nat) (l : List (Nat × β)) :
    ∀ m ∈ keysOf (removeKey k l), m ∈ keysOf l := by
  induction l with
  | nil => intro m hm; simpa [removeKey, keysOf_nil] using hm
  | cons hd t ih =>
    obtain ⟨a, b⟩ := hd
    intro m hm
    by_cases hak : a = k
    · simp only [removeKey, hak, if_pos rfl] at hm
      exact (keysOf_cons a b t) ▸ List.mem_cons_of_mem _ hm
    · simp only [removeKey, hak, if_false, keysOf_cons] at hm
      rcases List.mem_cons.mp hm with h' | h'
      · exact (keysOf_cons a b t) ▸ (h' ▸ List.mem_cons_self a _)
      · exact (keysOf_cons a b t) ▸ List.mem_cons_of_mem _ (ih m h')

theorem nodup_keysOf_removeKey {β : Type} (k : Nat) (l : List (Nat × β))
    (h : (keysOf l).Nodup) : (keysOf (removeKey k l)).Nodup := by
  induction l with
  | nil => simpa [removeKey, keysOf_nil]
  | cons hd t ih =>
    obtain ⟨a, b⟩ := hd
    rw [keysOf_cons, List.nodup_cons] at h
    by_cases hak : a = k
    · simpa [removeKey, hak] using h.2
    · simp only [removeKey, hak, if_false, keysOf_cons, List.nodup_cons]
      exact ⟨fun hmem => h.1 (keysOf_removeKey_subset k t a hmem), ih h.2⟩

theorem lookup_removeKey_of_nodup {β : Type} (k : Nat) (l : List (Nat × β))
    (h : (keysOf l).Nodup) : lookupKey k (removeKey k l) = none := by
  induction l with
  | nil => rfl
  | cons hd t ih =>
    obtain ⟨a, b⟩ := hd
    rw [keysOf_cons, List.nodup_cons] at h
    by_cases hak : a = k
    · subst hak
      simp only [removeKey, if_pos rfl]
      exact lookup_none_of_not_mem_keysOf h.1
    · simp only [removeKey, hak, if_false, lookupKey, hak]
      simpa [hak] using ih h.2

/-- `deliver_frames` preserves the receiver invariant fields and drains the
base residue; the base only moves forward. -/
theorem sr_deliver_frames_inv :
    ∀ (n : Nat) (r : SelectiveRepeatReceiver), r.buffer.length ≤ n →
      1 ≤ r.window_size → r.window_size ≤ maxSeqNum →
      (keysOf r.buffer).Nodup →
      (∀ k ∈ keysOf r.buffer, ∃ j < r.window_size, k = (r.base + j) % maxSeqNum) →
      SRReceiverInv (r.deliver_frames).2 ∧ r.base ≤ (r.deliver_frames).2.base ∧
        (r.deliver_frames).2.window_size = r.window_size := by
  intro n
  induction n with
  | zero =>
    intro r hlen hpos hle hnd hw
    have hb : r.buffer = [] := List.length_eq_zero.mp (Nat.le_zero.mp hlen)
    rw [SelectiveRepeatReceiver.deliver_frames]
    split
    · rename_i hl
      exact ⟨⟨hpos, hle, hnd, hw, hl⟩, Nat.le_refl _, rfl⟩
    · rename_i data hl
      rw [hb] at hl
      simp [lookupKey] at hl
  | succ n ih =>
    intro r hlen hpos hle hnd hw
    rw [SelectiveRepeatReceiver.deliver_frames]
    split
    · rename_i hl
      exact ⟨⟨hpos, hle, hnd, hw, hl⟩, Nat.le_refl _, rfl⟩
    · rename_i data hl
      have hlen' : (removeKey (r.base % maxSeqNum) r.buffer).length ≤ n := by
        have := removeKey_length_lt hl
        omega
      have hnd' := nodup_keysOf_removeKey (r.base % maxSeqNum) r.buffer hnd
      have hw' : ∀ k ∈ keysOf (removeKey (r.base % maxSeqNum) r.buffer),
          ∃ j < r.window_size, k = (r.base + 1 + j) % maxSeqNum := by
        intro k hk
        have hkin := keysOf_removeKey_subset _ _ _ hk
        obtain ⟨j, hj, hkj⟩ := hw k hkin
        have hkne : k ≠ r.base % maxSeqNum := by
          intro hkeq
          rw [hkeq] at hk
          have := lookup_isSome_of_mem_keysOf hk
          rw [lookup_removeKey_of_nodup _ _ hnd] at this
          simp at this
        have hj0 : j ≠ 0 := by
          intro hj0
          rw [hj0] at hkj
          simp at hkj
          exact hkne hkj
        refine ⟨j - 1, by omega, ?_⟩
        rw [hkj]
        congr 1
        omega
      obtain ⟨hinv, hbase, hws⟩ :=
        ih { r with received_frames := r.received_frames ++ [data],
                    buffer := removeKey (r.base % maxSeqNum) r.buffer,
                    base := r.base + 1 } hlen' hpos hle hnd' hw'
      refine ⟨hinv, ?_, hws⟩
      have hb2 : r.base + 1 ≤
          (SelectiveRepeatReceiver.deliver_frames
            { r with received_frames := r.received_frames ++ [data],
                     buffer := removeKey (r.base % maxSeqNum) r.buffer,
                     base := r.base + 1 }).2.base := hbase
      omega

theorem keysOf_setKey_subset {β : Type} (k : Nat) (v : β) (l : List (Nat × β)) :
    ∀ m ∈ keysOf (setKey k v l), m = k ∨ m ∈ keysOf l := by
  intro m hm
  by_cases hkl : k ∈ keysOf l
  · rw [keysOf_setKey_mem v hkl] at hm
    exact Or.inr hm
  · rw [keysOf_setKey_not_mem v hkl] at hm
    rcases List.mem_append.mp hm with h' | h'
    · exact Or.inr h'
    · exact Or.inl (List.mem_singleton.mp h')

/-- `receive_frame` preserves the receiver invariant for any well-formed frame
(modular sequence number below 8); the receive base never moves backwards and
the window size is unchanged. -/
theorem sr_receive_frame_rcv_inv (o : Nat → Bool) (r : SelectiveRepeatReceiver)
    (ix : Nat) (f : Frame) (hr : SRReceiverInv r) (hf : f.seq_num < maxSeqNum) :
    SRReceiverInv (r.receive_frame o ix f).2.1 ∧
    r.base ≤ (r.receive_frame o ix f).2.1.base ∧
    (r.receive_frame o ix f).2.1.window_size = r.window_size := by
  obtain ⟨hpos, hle, hnd, hw, hnb⟩ := hr
  unfold SelectiveRepeatReceiver.receive_frame
  by_cases h1 : o ix
  · simp only [h1, if_true]
    exact ⟨⟨hpos, hle, hnd, hw, hnb⟩, Nat.le_refl _, trivial⟩
  · simp only [h1, Bool.false_eq_true, if_false]
    by_cases h2 : o (ix + 1)
    · simp only [h2, if_true]
      exact ⟨⟨hpos, hle, hnd, hw, hnb⟩, Nat.le_refl _, trivial⟩
    · simp only [h2, Bool.false_eq_true, if_false]
      set r1 : SelectiveRepeatReceiver :=
        { r with total_frames_received := r.total_frames_received + 1 } with hr1
      by_cases h3 : r1.is_in_window f.seq_num
      · simp only [h3, if_true]
        by_cases h4 : (lookupKey f.seq_num r1.buffer).isSome
        · simp only [h4, if_true]
          have hinv2 : SRReceiverInv
              { r1 with duplicate_frames := r1.duplicate_frames + 1 } :=
            ⟨hpos, hle, hnd, hw, hnb⟩
          obtain ⟨hinv3, hb3, hws3⟩ := sr_deliver_frames_inv _ _ (Nat.le_refl _)
            hinv2.ws_pos hinv2.ws_le hinv2.nodup_buf hinv2.buf_w
          exact ⟨hinv3, hb3, hws3⟩
        · simp only [h4, if_false]
          have hwin : ∃ j < r.window_size, f.seq_num = (r.base + j) % maxSeqNum := by
            have := (sr_is_in_window_iff r1 hpos hle f.seq_num hf).mp h3
            exact this
          have hnotmem : f.seq_num ∉ keysOf r.buffer := by
            intro hmem
            exact absurd (lookup_isSome_of_mem_keysOf hmem) (by simpa using h4)
          have hnd2 : (keysOf (setKey f.seq_num f.data r.buffer)).Nodup := by
            rw [keysOf_setKey_not_mem _ hnotmem]
            simp [List.nodup_append, hnd, hnotmem]
          have hw2 : ∀ k ∈ keysOf (setKey f.seq_num f.data r.buffer),
              ∃ j < r.window_size, k = (r.base + j) % maxSeqNum := by
            intro k hk
            rcases keysOf_setKey_subset _ _ _ k hk with rfl | hk'
            · exact hwin
            · exact hw k hk'
          obtain ⟨hinv3, hb3, hws3⟩ := sr_deliver_frames_inv
            ((setKey f.seq_num f.data r.buffer).length)
            { r1 with buffer := setKey f.seq_num f.data r1.buffer }
            (Nat.le_refl _) hpos hle hnd2 hw2
          exact ⟨hinv3, hb3, hws3⟩
      · simp only [h3, Bool.false_eq_true, if_false]
        by_cases h5 : r1.is_already_delivered f.seq_num
        · simp only [h5, if_true]
          by_cases h6 : o (ix + 1 + 1) <;>
            simp only [h6, if_true, Bool.false_eq_true, if_false] <;>
            exact ⟨⟨hpos, hle, hnd, hw, hnb⟩, Nat.le_refl _, trivial⟩
        · simp only [h5, Bool.false_eq_true, if_false]
          exact ⟨⟨hpos, hle, hnd, hw, hnb⟩, Nat.le_refl _, trivial⟩

/-! #### Sender-side invariant -/

theorem mem_of_lookup {β : Type} {k : Nat} {v : β} {l : List (Nat × β)}
    (h : lookupKey k l = some v) : (k, v) ∈ l := by
  induction l with
  | nil => simp [lookupKey] at h
  | cons hd t ih =>
    obtain ⟨a, b⟩ := hd
    by_cases hak : a = k
    · subst hak
      rw [show lookupKey a ((a, b) :: t) = some b by simp [lookupKey]] at h
      cases h
      exact List.mem_cons_self _ _
    · simp only [lookupKey, hak, if_false] at h
      exact List.mem_cons_of_mem _ (ih h)

theorem lookup_eq_of_mem_of_nodup {β : Type} {k : Nat} {v : β} {l : List (Nat × β)}
    (hm : (k, v) ∈ l) (hnd : (keysOf l).Nodup) : lookupKey k l = some v := by
  induction l with
  | nil => simp at hm
  | cons hd t ih =>
    obtain ⟨a, b⟩ := hd
    rw [keysOf_cons, List.nodup_cons] at hnd
    rcases List.mem_cons.mp hm with h' | h'
    · cases h'
      simp [lookupKey]
    · have hka : ¬ a = k := by
        intro hh
        subst hh
        exact hnd.1 (List.mem_map_of_mem Prod.fst h')
      simp only [lookupKey, hka, if_false]
      exact ih h' hnd.2

theorem mem_removeNat_subset (k : Nat) (l : List Nat) :
    ∀ a ∈ removeNat k l, a ∈ l := by
  induction l with
  | nil => intro a ha; simpa [removeNat] using ha
  | cons b t ih =>
    intro a ha
    by_cases hbk : b = k
    · simp only [removeNat, hbk, if_pos rfl] at ha
      exact List.mem_cons_of_mem _ ha
    · simp only [removeNat, hbk, if_false] at ha
      rcases List.mem_cons.mp ha with h' | h'
      · exact h' ▸ List.mem_cons_self _ _
      · exact List.mem_cons_of_mem _ (ih a h')

theorem mem_removeNat_ne_of_nodup {k : Nat} {l : List Nat} (hnd : l.Nodup) :
    ∀ a ∈ removeNat k l, a ≠ k := by
  induction l with
  | nil => intro a ha; simpa [removeNat] using ha
  | cons b t ih =>
    rw [List.nodup_cons] at hnd
    intro a ha
    by_cases hbk : b = k
    · subst hbk
      simp only [removeNat, if_pos rfl] at ha
      intro hak
      exact hnd.1 (hak ▸ ha)
    · simp only [removeNat, hbk, if_false] at ha
      rcases List.mem_cons.mp ha with h' | h'
      · exact h' ▸ hbk
      · exact ih hnd.2 a h'

theorem nodup_removeNat {k : Nat} {l : List Nat} (hnd : l.Nodup) :
    (removeNat k l).Nodup := by
  induction l with
  | nil => simpa [removeNat]
  | cons b t ih =>
    rw [List.nodup_cons] at hnd
    by_cases hbk : b = k
    · simpa [removeNat, hbk] using hnd.2
    · simp only [removeNat, hbk, if_false, List.nodup_cons]
      exact ⟨fun hmem => hnd.1 (mem_removeNat_subset k t b hmem), ih hnd.2⟩

/-- Sender-side window invariant for the Selective Repeat engine. -/
structure SRSenderInv (s : SelectiveRepeatSender) : Prop where
  ws_le : s.window_size ≤ maxSeqNum
  base_le_next : s.base ≤ s.next_seq_num
  next_le : s.next_seq_num ≤ s.base + s.window_size
  keys_lb : ∀ k ∈ keysOf s.window, s.base ≤ k
  keys_ub : ∀ k ∈ keysOf s.window, k < s.next_seq_num
  nodup_keys : (keysOf s.window).Nodup
  nodup_ack : s.ack_received.Nodup
  ack_wit : ∀ a ∈ s.ack_received,
    ∃ i, s.base ≤ i ∧ i < s.next_seq_num ∧ i % maxSeqNum = a
  ack_no_key : ∀ a ∈ s.ack_received, ∀ k ∈ keysOf s.window, k % maxSeqNum ≠ a
  entry_seq : ∀ k e, lookupKey k s.window = some e →
    e.frame.seq_num = k % maxSeqNum

theorem sr_process_ack_fields (s : SelectiveRepeatSender) (a : Nat) :
    (s.process_ack a).base = s.base ∧
    (s.process_ack a).next_seq_num = s.next_seq_num ∧
    (s.process_ack a).window_size = s.window_size ∧
    (s.process_ack a).data_buffer = s.data_buffer := by
  unfold SelectiveRepeatSender.process_ack
  by_cases hmem : a ∈ s.ack_received <;> simp [hmem]

theorem sr_process_ack_window (s : SelectiveRepeatSender) (a : Nat)
    (hnd : (keysOf s.window).Nodup) :
    (s.process_ack a).window = s.window.filter
      (fun kv => decide (kv.1 ∉
        (keysOf s.window).filter (fun k => k % maxSeqNum = a))) := by
  unfold SelectiveRepeatSender.process_ack
  by_cases hmem : a ∈ s.ack_received <;>
    simp only [hmem, if_true, if_false] <;>
    exact foldl_removeKey_eq_filter_of_nodup _ _ hnd

theorem sr_process_ack_ack (s : SelectiveRepeatSender) (a : Nat) :
    (s.process_ack a).ack_received =
      if a ∈ s.ack_received then s.ack_received else s.ack_received ++ [a] := by
  unfold SelectiveRepeatSender.process_ack
  by_cases hmem : a ∈ s.ack_received <;> simp [hmem]

theorem sr_process_ack_inv (s : SelectiveRepeatSender) (a : Nat) (hs : SRSenderInv s)
    (ha : ∃ i, s.base ≤ i ∧ i < s.next_seq_num ∧ i % maxSeqNum = a) :
    SRSenderInv (s.process_ack a) := by
  obtain ⟨hf1, hf2, hf3, hf4⟩ := sr_process_ack_fields s a
  have hwin := sr_process_ack_window s a hs.nodup_keys
  have hack := sr_process_ack_ack s a
  have hkeys : ∀ k, k ∈ keysOf (s.process_ack a).window ↔
      (k ∈ keysOf s.window ∧
        k ∉ (keysOf s.window).filter (fun k' => k' % maxSeqNum = a)) := by
    intro k
    rw [hwin]
    exact mem_keysOf_filter_not_mem _ _ k
  have hmem_ack : ∀ a', a' ∈ (s.process_ack a).ack_received →
      a' ∈ s.ack_received ∨ a' = a := by
    intro a' h'
    rw [hack] at h'
    by_cases hmem : a ∈ s.ack_received
    · rw [if_pos hmem] at h'
      exact Or.inl h'
    · rw [if_neg hmem] at h'
      rcases List.mem_append.mp h' with h'' | h''
      · exact Or.inl h''
      · exact Or.inr (List.mem_singleton.mp h'')
  refine ⟨?_, ?_, ?_, ?_, ?_, ?_, ?_, ?_, ?_, ?_⟩
  · rw [hf3]; exact hs.ws_le
  · rw [hf1, hf2]; exact hs.base_le_next
  · rw [hf1, hf2, hf3]; exact hs.next_le
  · intro k hk
    rw [hf1]
    exact hs.keys_lb k ((hkeys k).mp hk).1
  · intro k hk
    rw [hf2]
    exact hs.keys_ub k ((hkeys k).mp hk).1
  · rw [hwin]
    exact hs.nodup_keys.sublist (keysOf_filter_sublist _ _)
  · rw [hack]
    by_cases hmem : a ∈ s.ack_received
    · rw [if_pos hmem]; exact hs.nodup_ack
    · rw [if_neg hmem]
      simp [List.nodup_append, hs.nodup_ack, hmem]
  · intro a' h'
    rw [hf1, hf2]
    rcases hmem_ack a' h' with h'' | rfl
    · exact hs.ack_wit a' h''
    · exact ha
  · intro a' h' k hk
    rcases hmem_ack a' h' with h'' | rfl
    · exact hs.ack_no_key a' h'' k ((hkeys k).mp hk).1
    · obtain ⟨hkmem, hknot⟩ := (hkeys k).mp hk
      intro hkel
      exact hknot (List.mem_filter.mpr ⟨hkmem, by simpa using hkel⟩)
  · intro k e he
    rw [hwin] at he
    have hmem := mem_of_lookup he
    have hmem2 := List.mem_of_mem_filter hmem
    exact hs.entry_seq k e (lookup_eq_of_mem_of_nodup hmem2 hs.nodup_keys)

theorem sr_slide_window_inv :
    ∀ (n : Nat) (s : SelectiveRepeatSender), s.ack_received.length ≤ n →
      SRSenderInv s →
      SRSenderInv s.slide_window ∧
      s.slide_window.next_seq_num = s.next_seq_num ∧
      s.slide_window.window = s.window ∧
      s.slide_window.window_size = s.window_size ∧
      s.slide_window.data_buffer = s.data_buffer ∧
      s.base ≤ s.slide_window.base := by
  intro n
  induction n with
  | zero =>
    intro s hlen hs
    have hack : s.ack_received = [] := List.length_eq_zero.mp (Nat.le_zero.mp hlen)
    rw [sr_slide_window_no_ack s hack]
    exact ⟨hs, rfl, rfl, rfl, rfl, Nat.le_refl _⟩
  | succ n ih =>
    intro s hlen hs
    rw [SelectiveRepeatSender.slide_window]
    split
    · rename_i h
      set s' : SelectiveRepeatSender :=
        { s with ack_received := removeNat (s.base % maxSeqNum) s.ack_received,
                 base := s.base + 1 } with hs'
      have hb' : s'.base = s.base + 1 := rfl
      have hn' : s'.next_seq_num = s.next_seq_num := rfl
      have hw' : s'.window = s.window := rfl
      have hws' : s'.window_size = s.window_size := rfl
      have hbuf' : s'.data_buffer = s.data_buffer := rfl
      have hackrem : s'.ack_received = removeNat (s.base % maxSeqNum) s.ack_received :=
        rfl
      obtain ⟨i0, hi0b, hi0n, hi0m⟩ := hs.ack_wit _ h
      have hbn : s.base < s.next_seq_num := Nat.lt_of_le_of_lt hi0b hi0n
      have hinv' : SRSenderInv s' := by
        refine ⟨?_, ?_, ?_, ?_, ?_, ?_, ?_, ?_, ?_, ?_⟩
        · rw [hws']; exact hs.ws_le
        · rw [hb', hn']; omega
        · rw [hb', hn', hws']
          have := hs.next_le
          omega
        · intro k hk
          rw [hw'] at hk
          have hkb := hs.keys_lb k hk
          have hkne : k ≠ s.base := by
            intro hkeq
            exact hs.ack_no_key _ h k hk (by rw [hkeq])
          rw [hb']
          omega
        · intro k hk
          rw [hw'] at hk
          rw [hn']
          exact hs.keys_ub k hk
        · rw [hw']; exact hs.nodup_keys
        · rw [hackrem]; exact nodup_removeNat hs.nodup_ack
        · intro a' ha'
          rw [hackrem] at ha'
          have ha'mem := mem_removeNat_subset _ _ a' ha'
          have ha'ne := mem_removeNat_ne_of_nodup hs.nodup_ack a' ha'
          obtain ⟨i, hib, hin, him⟩ := hs.ack_wit a' ha'mem
          have hine : i ≠ s.base := by
            intro hieq
            exact ha'ne (by rw [← him, hieq])
          refine ⟨i, ?_, ?_, him⟩
          · rw [hb']; omega
          · rw [hn']; exact hin
        · intro a' ha' k hk
          rw [hackrem] at ha'
          rw [hw'] at hk
          exact hs.ack_no_key a' (mem_removeNat_subset _ _ a' ha') k hk
        · intro k e he
          rw [hw'] at he
          exact hs.entry_seq k e he
      have hlen' : s'.ack_received.length ≤ n := by
        rw [hackrem]
        have := removeNat_length_lt h
        omega
      obtain ⟨g1, g2, g3, g4, g5, g6⟩ := ih s' hlen' hinv'
      refine ⟨g1, g2.trans hn', g3.trans hw', g4.trans hws', g5.trans hbuf', ?_⟩
      rw [hb'] at g6
      omega
    · exact ⟨hs, rfl, rfl, rfl, rfl, Nat.le_refl _⟩

theorem sr_process_ack_set_next (s : SelectiveRepeatSender) (a x : Nat) :
    ({ s.process_ack a with next_seq_num := x } : SelectiveRepeatSender) =
      ({ s with next_seq_num := x } : SelectiveRepeatSender).process_ack a := by
  unfold SelectiveRepeatSender.process_ack
  by_cases hmem : a ∈ s.ack_received <;> simp [hmem]

theorem sr_foldl_ack_set_next (L : List Nat) (s : SelectiveRepeatSender) (x : Nat) :
    ({ L.foldl (fun s' a => s'.process_ack a) s with next_seq_num := x } :
      SelectiveRepeatSender) =
      L.foldl (fun s' a => s'.process_ack a)
        ({ s with next_seq_num := x } : SelectiveRepeatSender) := by
  induction L generalizing s with
  | nil => rfl
  | cons a L ih => rw [List.foldl_cons, List.foldl_cons, ih, sr_process_ack_set_next]

theorem sr_fold_acks_inv (L : List Nat) :
    ∀ (s : SelectiveRepeatSender), SRSenderInv s →
      (∀ a ∈ L, ∃ i, s.base ≤ i ∧ i < s.next_seq_num ∧ i % maxSeqNum = a) →
      SRSenderInv (L.foldl (fun s' a => s'.process_ack a) s) ∧
      (L.foldl (fun s' a => s'.process_ack a) s).base = s.base ∧
      (L.foldl (fun s' a => s'.process_ack a) s).next_seq_num = s.next_seq_num ∧
      (L.foldl (fun s' a => s'.process_ack a) s).window_size = s.window_size ∧
      (L.foldl (fun s' a => s'.process_ack a) s).data_buffer = s.data_buffer := by
  induction L with
  | nil => intro s hs _; exact ⟨hs, rfl, rfl, rfl, rfl⟩
  | cons a L ih =>
    intro s hs hL
    rw [List.foldl_cons]
    obtain ⟨hf1, hf2, hf3, hf4⟩ := sr_process_ack_fields s a
    have hinv := sr_process_ack_inv s a hs (hL a (List.mem_cons_self a L))
    obtain ⟨g0, g1, g2, g3, g4⟩ := ih (s.process_ack a) hinv (by
      intro a' ha'
      obtain ⟨i, h1, h2, h3⟩ := hL a' (List.mem_cons_of_mem _ ha')
      exact ⟨i, by rw [hf1]; exact h1, by rw [hf2]; exact h2, h3⟩)
    exact ⟨g0, g1.trans hf1, g2.trans hf2, g3.trans hf3, g4.trans hf4⟩

/-- The full per-frame fresh-send step preserves the sender invariant: insert
the new window entry, advance `next_seq_num`, and process any returned ACKs. -/
theorem sr_fresh_sender_inv (s : SelectiveRepeatSender) (hs : SRSenderInv s)
    (d : String) (rest : List String) (ts : Int)
    (hcan : s.next_seq_num < s.base + s.window_size) :
    SRSenderInv
      ({ s with
          data_buffer := rest,
          window := setKey s.next_seq_num
            { frame := Frame.mkData (s.next_seq_num % maxSeqNum) d, timestamp := ts,
              data := d } s.window,
          individual_timers := setKey s.next_seq_num ts s.individual_timers,
          total_transmissions := s.total_transmissions + 1,
          next_seq_num := s.next_seq_num + 1 } : SelectiveRepeatSender) := by
  have hnotmem : s.next_seq_num ∉ keysOf s.window := by
    intro hmem
    exact absurd (hs.keys_ub _ hmem) (Nat.lt_irrefl _)
  have hkeys : keysOf (setKey s.next_seq_num
      { frame := Frame.mkData (s.next_seq_num % maxSeqNum) d, timestamp := ts,
        data := d } s.window) = keysOf s.window ++ [s.next_seq_num] :=
    keysOf_setKey_not_mem _ hnotmem
  refine ⟨hs.ws_le,
    by simp only []; have := hs.base_le_next; omega,
    by simp only []; omega, ?_, ?_, ?_, hs.nodup_ack, ?_, ?_, ?_⟩
  · intro k hk
    simp only [] at hk
    rw [hkeys] at hk
    rcases List.mem_append.mp hk with h' | h'
    · exact hs.keys_lb k h'
    · rw [List.mem_singleton.mp h']
      exact hs.base_le_next
  · intro k hk
    simp only [] at hk
    rw [hkeys] at hk
    rcases List.mem_append.mp hk with h' | h'
    · exact Nat.lt_succ_of_lt (hs.keys_ub k h')
    · rw [List.mem_singleton.mp h']
      exact Nat.lt_succ_self _
  · simp only []
    rw [hkeys]
    simp [List.nodup_append, hs.nodup_keys, hnotmem]
  · intro a ha
    obtain ⟨i, h1, h2, h3⟩ := hs.ack_wit a ha
    exact ⟨i, h1, Nat.lt_succ_of_lt h2, h3⟩
  · intro a ha k hk
    simp only [] at hk ha
    rw [hkeys] at hk
    rcases List.mem_append.mp hk with h' | h'
    · exact hs.ack_no_key a ha k h'
    · rw [List.mem_singleton.mp h']
      obtain ⟨i, h1, h2, h3⟩ := hs.ack_wit a ha
      have hws8 : s.window_size ≤ 8 := by
        have := hs.ws_le
        simpa [maxSeqNum] using this
      simp only [maxSeqNum] at h3 ⊢
      omega
  · intro k e he
    simp only [] at he
    by_cases hk : k = s.next_seq_num
    · subst hk
      rw [lookupKey_setKey_self] at he
      cases he
      rfl
    · rw [lookupKey_setKey_ne _ _ hk] at he
      exact hs.entry_seq k e he

theorem sr_foldl_ack_next (L : List Nat) (s : SelectiveRepeatSender) :
    (L.foldl (fun s' a => s'.process_ack a) s).next_seq_num = s.next_seq_num := by
  induction L generalizing s with
  | nil => rfl
  | cons a L ih =>
    rw [List.foldl_cons, ih, (sr_process_ack_fields s a).2.1]

/-- `send_new_frames` preserves sender and receiver invariants. -/
theorem sr_send_new_frames_inv (o : Nat → Bool) :
    ∀ (n : Nat) (w : SRWorld), w.snd.data_buffer.length ≤ n →
      SRSenderInv w.snd → SRReceiverInv w.rcv →
      SRSenderInv (w.send_new_frames o).snd ∧
      SRReceiverInv (w.send_new_frames o).rcv := by
  intro n
  induction n with
  | zero =>
    intro w hlen hs hr
    have hbuf : w.snd.data_buffer = [] := List.length_eq_zero.mp (Nat.le_zero.mp hlen)
    rw [sr_send_new_frames_empty o w hbuf]
    exact ⟨hs, hr⟩
  | succ n ih =>
    intro w hlen hs hr
    rw [SRWorld.send_new_frames]
    split
    · split
      · exact ⟨hs, hr⟩
      · rename_i hcan data rest hb2
        have hcan2 : w.snd.next_seq_num < w.snd.base + w.snd.window_size := by
          simp [SelectiveRepeatSender.can_send] at hcan
          exact hcan.1
        have hfseq : (Frame.mkData (w.snd.next_seq_num % maxSeqNum) data).seq_num <
            maxSeqNum := by
          simp only [Frame.mkData, maxSeqNum]
          omega
        have heq : ∀ L : List Nat,
            ({ L.foldl (fun s' a => s'.process_ack a)
                ({ w.snd with
                  data_buffer := rest,
                  window := setKey w.snd.next_seq_num
                    { frame := Frame.mkData (w.snd.next_seq_num % maxSeqNum) data,
                      timestamp := w.clock, data := data } w.snd.window,
                  individual_timers := setKey w.snd.next_seq_num w.clock
                    w.snd.individual_timers,
                  total_transmissions := w.snd.total_transmissions + 1 } :
                    SelectiveRepeatSender) with
              next_seq_num := (L.foldl (fun s' a => s'.process_ack a)
                ({ w.snd with
                  data_buffer := rest,
                  window := setKey w.snd.next_seq_num
                    { frame := Frame.mkData (w.snd.next_seq_num % maxSeqNum) data,
                      timestamp := w.clock, data := data } w.snd.window,
                  individual_timers := setKey w.snd.next_seq_num w.clock
                    w.snd.individual_timers,
                  total_transmissions := w.snd.total_transmissions + 1 } :
                    SelectiveRepeatSender)).next_seq_num + 1 } :
              SelectiveRepeatSender) =
            L.foldl (fun s' a => s'.process_ack a)
              ({ w.snd with
                data_buffer := rest,
                window := setKey w.snd.next_seq_num
                  { frame := Frame.mkData (w.snd.next_seq_num % maxSeqNum) data,
                    timestamp := w.clock, data := data } w.snd.window,
                individual_timers := setKey w.snd.next_seq_num w.clock
                  w.snd.individual_timers,
                total_transmissions := w.snd.total_transmissions + 1,
                next_seq_num := w.snd.next_seq_num + 1 } : SelectiveRepeatSender) := by
          intro L
          rw [sr_foldl_ack_next, sr_foldl_ack_set_next]
        have hs1'inv : SRSenderInv
            ({ w.snd with
              data_buffer := rest,
              window := setKey w.snd.next_seq_num
                { frame := Frame.mkData (w.snd.next_seq_num % maxSeqNum) data,
                  timestamp := w.clock, data := data } w.snd.window,
              individual_timers := setKey w.snd.next_seq_num w.clock
                w.snd.individual_timers,
              total_transmissions := w.snd.total_transmissions + 1,
              next_seq_num := w.snd.next_seq_num + 1 } : SelectiveRepeatSender) :=
          sr_fresh_sender_inv w.snd hs data rest w.clock hcan2
        have hLwit : ∀ a ∈ ((w.rcv.receive_frame o w.ix
            (Frame.mkData (w.snd.next_seq_num % maxSeqNum) data)).1.getD []),
            ∃ i, w.snd.base ≤ i ∧ i < w.snd.next_seq_num + 1 ∧ i % maxSeqNum = a := by
          intro a ha
          rcases sr_receive_frame_acks_cases o w.rcv w.ix
            (Frame.mkData (w.snd.next_seq_num % maxSeqNum) data) with hc | hc | hc <;>
            rw [hc] at ha
          · simp at ha
          · simp at ha
          · simp only [Option.getD_some, List.mem_singleton] at ha
            exact ⟨w.snd.next_seq_num, hs.base_le_next, Nat.lt_succ_self _,
              by rw [ha]; rfl⟩
        obtain ⟨hfold_inv, hfb, hfn, hfw, hfbuf⟩ :=
          sr_fold_acks_inv ((w.rcv.receive_frame o w.ix
              (Frame.mkData (w.snd.next_seq_num % maxSeqNum) data)).1.getD [])
            _ hs1'inv hLwit
        obtain ⟨hrcv', hrb', hrw'⟩ := sr_receive_frame_rcv_inv o w.rcv w.ix
          (Frame.mkData (w.snd.next_seq_num % maxSeqNum) data) hr hfseq
        apply ih
        · simp only [heq]
          rw [foldl_process_ack_data_buffer]
          show rest.length ≤ n
          have hlen2 : (data :: rest).length ≤ n + 1 := by
            rw [← hb2]
            exact hlen
          simpa using hlen2
        · simp only [heq]
          exact hfold_inv
        · exact hrcv'
    · exact ⟨hs, hr⟩

/-- `selective_retransmit` preserves the sender and receiver invariants. -/
theorem sr_selective_retransmit_world_inv (o : Nat → Bool) (w : SRWorld) (k : Nat)
    (hs : SRSenderInv w.snd) (hr : SRReceiverInv w.rcv) :
    SRSenderInv (w.selective_retransmit o k).snd ∧
    SRReceiverInv (w.selective_retransmit o k).rcv := by
  unfold SRWorld.selective_retransmit
  cases hl : lookupKey k w.snd.window with
  | none => exact ⟨hs, hr⟩
  | some e =>
    simp only []
    have hkmem := mem_keysOf_of_lookup hl
    have hkb := hs.keys_lb k hkmem
    have hkn := hs.keys_ub k hkmem
    have hfseq : e.frame.seq_num = k % maxSeqNum := hs.entry_seq k e hl
    have hfseq8 : e.frame.seq_num < maxSeqNum := by
      rw [hfseq]
      simp only [maxSeqNum]
      omega
    have hkeys : keysOf (setKey k { e with timestamp := w.clock } w.snd.window) =
        keysOf w.snd.window := keysOf_setKey_mem _ hkmem
    have hs1 : SRSenderInv ({ w.snd with
        total_transmissions := w.snd.total_transmissions + 1,
        retransmissions := w.snd.retransmissions + 1,
        window := setKey k { e with timestamp := w.clock } w.snd.window,
        individual_timers := setKey k w.clock w.snd.individual_timers } :
          SelectiveRepeatSender) := by
      refine ⟨hs.ws_le, hs.base_le_next, hs.next_le, ?_, ?_, ?_, hs.nodup_ack,
        hs.ack_wit, ?_, ?_⟩
      · intro k' hk'
        rw [show keysOf _ = keysOf w.snd.window from hkeys] at hk'
        exact hs.keys_lb k' hk'
      · intro k' hk'
        rw [show keysOf _ = keysOf w.snd.window from hkeys] at hk'
        exact hs.keys_ub k' hk'
      · rw [show keysOf _ = keysOf w.snd.window from hkeys]
        exact hs.nodup_keys
      · intro a ha k' hk'
        rw [show keysOf _ = keysOf w.snd.window from hkeys] at hk'
        exact hs.ack_no_key a ha k' hk'
      · intro k' e' he'
        by_cases hkk : k' = k
        · subst hkk
          rw [lookupKey_setKey_self] at he'
          cases he'
          exact hfseq
        · rw [lookupKey_setKey_ne _ _ hkk] at he'
          exact hs.entry_seq k' e' he'
    have hLwit : ∀ a ∈ ((w.rcv.receive_frame o w.ix e.frame).1.getD []),
        ∃ i, w.snd.base ≤ i ∧ i < w.snd.next_seq_num ∧ i % maxSeqNum = a := by
      intro a ha
      rcases sr_receive_frame_acks_cases o w.rcv w.ix e.frame with hc | hc | hc <;>
        rw [hc] at ha
      · simp at ha
      · simp at ha
      · simp only [Option.getD_some, List.mem_singleton] at ha
        exact ⟨k, hkb, hkn, by rw [ha, hfseq]⟩
    obtain ⟨hfold_inv, _, _, _, _⟩ :=
      sr_fold_acks_inv ((w.rcv.receive_frame o w.ix e.frame).1.getD []) _ hs1 hLwit
    obtain ⟨hrcv', _, _⟩ := sr_receive_frame_rcv_inv o w.rcv w.ix e.frame hr hfseq8
    exact ⟨hfold_inv, hrcv'⟩

theorem sr_fold_retransmit_world_inv (o : Nat → Bool) (L : List Nat) :
    ∀ w : SRWorld, SRSenderInv w.snd → SRReceiverInv w.rcv →
      SRSenderInv (L.foldl (fun w' kk =>
        if (lookupKey kk w'.snd.window).isSome then w'.selective_retransmit o kk
        else w') w).snd ∧
      SRReceiverInv (L.foldl (fun w' kk =>
        if (lookupKey kk w'.snd.window).isSome then w'.selective_retransmit o kk
        else w') w).rcv := by
  induction L with
  | nil => intro w hs hr; exact ⟨hs, hr⟩
  | cons kk L ih =>
    intro w hs hr
    rw [List.foldl_cons]
    by_cases hg : (lookupKey kk w.snd.window).isSome
    · rw [if_pos hg]
      obtain ⟨hs', hr'⟩ := sr_selective_retransmit_world_inv o w kk hs hr
      exact ih _ hs' hr'
    · rw [if_neg hg]
      exact ih w hs hr

theorem sr_check_timeouts_world_inv (o : Nat → Bool) (w : SRWorld)
    (hs : SRSenderInv w.snd) (hr : SRReceiverInv w.rcv) :
    SRSenderInv (w.check_individual_timeouts o).snd ∧
    SRReceiverInv (w.check_individual_timeouts o).rcv := by
  unfold SRWorld.check_individual_timeouts
  exact sr_fold_retransmit_world_inv o _ w hs hr

theorem sr_send_frames_loop_world_inv (o : Nat → Bool) :
    ∀ (fuel : Nat) (w : SRWorld), SRSenderInv w.snd → SRReceiverInv w.rcv →
      SRSenderInv ((SRWorld.send_frames_loop o fuel w).1).snd ∧
      SRReceiverInv ((SRWorld.send_frames_loop o fuel w).1).rcv := by
  intro fuel
  induction fuel with
  | zero => intro w hs hr; exact ⟨hs, hr⟩
  | succ n ih =>
    intro w hs hr
    rw [SRWorld.send_frames_loop]
    split
    · exact ⟨hs, hr⟩
    · obtain ⟨hs1, hr1⟩ := sr_send_new_frames_inv o w.snd.data_buffer.length w
        (Nat.le_refl _) hs hr
      obtain ⟨hs2, hr2⟩ := sr_check_timeouts_world_inv o (w.send_new_frames o) hs1 hr1
      obtain ⟨hs3, _, _, _, _, _⟩ := sr_slide_window_inv
        ((w.send_new_frames o).check_individual_timeouts o).snd.ack_received.length
        ((w.send_new_frames o).check_individual_timeouts o).snd (Nat.le_refl _) hs2
      simp only []
      split
      · exact ⟨hs3, hr2⟩
      · exact ih _ hs3 hr2

theorem sr_init_world_inv (sws rws : Nat) (t : Int) (payloads : List String)
    (h1 : sws ≤ maxSeqNum) (h2 : 1 ≤ rws) (h3 : rws ≤ maxSeqNum) :
    SRSenderInv (initSRWorld sws rws t payloads).snd ∧
    SRReceiverInv (initSRWorld sws rws t payloads).rcv := by
  constructor
  · refine ⟨h1, Nat.le_refl _, Nat.le_add_right _ _, ?_, ?_, ?_, ?_, ?_, ?_, ?_⟩ <;>
      simp [initSRWorld, SelectiveRepeatSender.init, SelectiveRepeatSender.add_data,
        keysOf_nil, lookupKey]
  · refine ⟨h2, h3, ?_, ?_, ?_⟩ <;>
      simp [initSRWorld, SelectiveRepeatReceiver.init, keysOf_nil, lookupKey]

/-- C4: at every observable point of a Selective Repeat run (i.e. after any
number of passes of the `send_frames` loop, over any channel behavior and
backlog), the sender satisfies `base ≤ next_seq_num ≤ base + window_size` with
every window key in `[base, next_seq_num)`, and every frame buffered by the
receiver has a modular sequence number inside the receiver's modular window
(the coded wraparound test `is_in_window`). -/
theorem c4_sr_window_invariant (o : Nat → Bool) (fuel : Nat) (payloads : List String)
    (sws rws : Nat) (t : Int)
    (h1 : sws ≤ maxSeqNum) (h2 : 1 ≤ rws) (h3 : rws ≤ maxSeqNum) :
    (((SRWorld.send_frames_loop o fuel (initSRWorld sws rws t payloads)).1.snd.base ≤
        (SRWorld.send_frames_loop o fuel (initSRWorld sws rws t payloads)).1.snd.next_seq_num) ∧
      ((SRWorld.send_frames_loop o fuel (initSRWorld sws rws t payloads)).1.snd.next_seq_num ≤
        (SRWorld.send_frames_loop o fuel (initSRWorld sws rws t payloads)).1.snd.base +
          (SRWorld.send_frames_loop o fuel (initSRWorld sws rws t payloads)).1.snd.window_size)) ∧
    (∀ k ∈ keysOf (SRWorld.send_frames_loop o fuel
        (initSRWorld sws rws t payloads)).1.snd.window,
      (SRWorld.send_frames_loop o fuel (initSRWorld sws rws t payloads)).1.snd.base ≤ k ∧
      k < (SRWorld.send_frames_loop o fuel
        (initSRWorld sws rws t payloads)).1.snd.next_seq_num) ∧
    (∀ s ∈ keysOf (SRWorld.send_frames_loop o fuel
        (initSRWorld sws rws t payloads)).1.rcv.buffer,
      (SRWorld.send_frames_loop o fuel
        (initSRWorld sws rws t payloads)).1.rcv.is_in_window s = true) := by
  obtain ⟨hs0, hr0⟩ := sr_init_world_inv sws rws t payloads h1 h2 h3
  obtain ⟨hs, hr⟩ := sr_send_frames_loop_world_inv o fuel _ hs0 hr0
  refine ⟨⟨hs.base_le_next, hs.next_le⟩, ?_, ?_⟩
  · intro k hk
    exact ⟨hs.keys_lb k hk, hs.keys_ub k hk⟩
  · intro s hsmem
    obtain ⟨j, hj, hsj⟩ := hr.buf_w s hsmem
    have hs8 : s < maxSeqNum := by
      rw [hsj]
      simp only [maxSeqNum]
      omega
    exact (sr_is_in_window_iff _ hr.ws_pos hr.ws_le s hs8).mpr ⟨j, hj, hsj⟩

/-- Witness for C4 at a concrete clean-channel run. -/
theorem c4_witness :
    (4 ≤ maxSeqNum ∧ 1 ≤ 4 ∧ 4 ≤ maxSeqNum) ∧
    ((SRWorld.send_frames_loop alwaysFalseOracle 3
        (initSRWorld 4 4 20 ["x"])).1.snd.base ≤
      (SRWorld.send_frames_loop alwaysFalseOracle 3
        (initSRWorld 4 4 20 ["x"])).1.snd.next_seq_num) := by
  refine ⟨⟨by norm_num [maxSeqNum], by norm_num, by norm_num [maxSeqNum]⟩, ?_⟩
  exact (c4_sr_window_invariant alwaysFalseOracle 3 ["x"] 4 4 20
    (by norm_num [maxSeqNum]) (by norm_num) (by norm_num [maxSeqNum])).1.1

/-! ### C2: delivered data is a duplicate-free order-preserving subsequence -/

/-! #### Stop-and-Wait -/

/-- A `receive_frame` call that reports failure leaves the receiver unchanged. -/
theorem sw_receive_frame_false (o : Nat → Bool) (r : StopAndWaitReceiver)
    (ix : Nat) (f : Frame)
    (h : (StopAndWaitReceiver.receive_frame o r ix f).1 = false) :
    (StopAndWaitReceiver.receive_frame o r ix f).2.1 = r := by
  unfold StopAndWaitReceiver.receive_frame at h ⊢
  by_cases h1 : o ix
  · simp [h1]
  · by_cases h2 : o (ix + 1)
    · simp [h1, h2]
    · by_cases h3 : f.seq_num = r.expected_seq_num <;> simp [h1, h2, h3] at h

/-- A single `receive_frame` call appends at most the incoming frame's payload. -/
theorem sw_receive_frame_frames (o : Nat → Bool) (r : StopAndWaitReceiver)
    (ix : Nat) (f : Frame) :
    (StopAndWaitReceiver.receive_frame o r ix f).2.1.received_frames =
        r.received_frames ∨
    (StopAndWaitReceiver.receive_frame o r ix f).2.1.received_frames =
        r.received_frames ++ [f.data] := by
  unfold StopAndWaitReceiver.receive_frame
  by_cases h1 : o ix
  · simp [h1]
  · by_cases h2 : o (ix + 1)
    · simp [h1, h2]
    · by_cases h3 : f.seq_num = r.expected_seq_num <;> simp [h1, h2, h3]

/-- Across the whole retry loop of one `send_frame` call, the receiver's
delivered list grows by at most the one payload being sent. -/
theorem sw_attempt_loop_frames (o : Nat → Bool) (f : Frame) :
    ∀ (n : Nat) (w : SWWorld), 5 - w.snd.retransmission_count ≤ n →
      (SWWorld.send_attempt_loop o f w).1.rcv.received_frames =
          w.rcv.received_frames ∨
      (SWWorld.send_attempt_loop o f w).1.rcv.received_frames =
          w.rcv.received_frames ++ [f.data] := by
  intro n
  induction n with
  | zero =>
    intro w hn
    rw [SWWorld.send_attempt_loop]
    rw [dif_neg (by omega)]
    exact Or.inl rfl
  | succ n ih =>
    intro w hn
    rw [SWWorld.send_attempt_loop]
    by_cases hg : w.snd.waiting_for_ack = true ∧ w.snd.retransmission_count < 5
    · rw [dif_pos hg]
      simp only []
      by_cases hres : (w.rcv.receive_frame o w.ix f).1
      · rw [if_pos hres]
        exact sw_receive_frame_frames o w.rcv w.ix f
      · rw [if_neg hres]
        have hrcv := sw_receive_frame_false o w.rcv w.ix f (by
          cases hh : (w.rcv.receive_frame o w.ix f).1
          · rfl
          · exact absurd hh hres)
        rw [hrcv]
        apply ih
        show 5 - (w.snd.retransmission_count + 1) ≤ n
        omega
    · rw [dif_neg hg]
      exact Or.inl rfl

/-- One `send_frame` call appends at most its own payload to the delivered
list. -/
theorem sw_send_frame_frames (o : Nat → Bool) (w : SWWorld) (d : String) :
    (SWWorld.send_frame o w d).1.rcv.received_frames = w.rcv.received_frames ∨
    (SWWorld.send_frame o w d).1.rcv.received_frames =
        w.rcv.received_frames ++ [d] := by
  unfold SWWorld.send_frame
  exact sw_attempt_loop_frames o (Frame.mkData w.snd.seq_num d) 5 _ (by omega)

/-- Running the Stop-and-Wait harness over a backlog appends to the delivered
list a sublist of the backlog. -/
theorem sw_run_all_sublist (o : Nat → Bool) :
    ∀ (payloads : List String) (w : SWWorld),
      ∃ extra, (SWWorld.run_all o payloads w).rcv.received_frames =
          w.rcv.received_frames ++ extra ∧ extra.Sublist payloads := by
  intro payloads
  induction payloads with
  | nil => intro w; exact ⟨[], by simp [SWWorld.run_all], List.nil_sublist _⟩
  | cons d rest ih =>
    intro w
    rw [SWWorld.run_all]
    obtain ⟨extra, hx, hsub⟩ := ih
      { (w.send_frame o d).1 with clock := (w.send_frame o d).1.clock + 5 }
    rcases sw_send_frame_frames o w d with hc | hc
    · refine ⟨extra, ?_, List.Sublist.cons d hsub⟩
      rw [hx]
      simp only []
      rw [hc]
    · refine ⟨d :: extra, ?_, hsub.cons₂ d⟩
      rw [hx]
      simp only []
      rw [hc, List.append_assoc]
      rfl

/-! #### Generic prefix/sublist helpers -/

theorem take_sublist_take {α : Type} (l : List α) {m n : Nat} (h : m ≤ n) :
    (l.take m).Sublist (l.take n) := by
  have h1 := List.take_sublist m (l.take n)
  rwa [List.take_take, Nat.min_eq_left h] at h1

theorem take_concat_getD {α : Type} :
    ∀ (l : List α) (j : Nat), j < l.length → ∀ d : α,
      l.take j ++ [l.getD j d] = l.take (j + 1) := by
  intro l
  induction l with
  | nil => intro j hj d; simp at hj
  | cons a t ih =>
    intro j hj d
    cases j with
    | zero => rfl
    | succ j =>
      rw [List.take_succ_cons, List.take_succ_cons, List.getD_cons_succ,
        List.cons_append, ih j (by simpa using hj) d]

theorem drop_eq_cons_facts {α : Type} :
    ∀ (l : List α) (n : Nat) (d : α) (rest : List α), l.drop n = d :: rest →
      n < l.length ∧ (∀ x, l.getD n x = d) ∧ l.drop (n + 1) = rest := by
  intro l
  induction l with
  | nil =>
    intro n d rest h
    rw [List.drop_nil] at h
    exact absurd h (by simp)
  | cons a t ih =>
    intro n d rest h
    cases n with
    | zero =>
      rw [List.drop_zero] at h
      cases h
      exact ⟨by simp, fun x => rfl, by simp⟩
    | succ n =>
      rw [List.drop_succ_cons] at h
      obtain ⟨h1, h2, h3⟩ := ih n d rest h
      refine ⟨by simpa using Nat.succ_lt_succ h1, ?_, ?_⟩
      · intro x
        rw [List.getD_cons_succ]
        exact h2 x
      · rw [List.drop_succ_cons]
        exact h3

theorem foldl_max_spec : ∀ (l : List Nat) (a : Nat),
    (l.foldl max a = a ∨ l.foldl max a ∈ l) ∧ a ≤ l.foldl max a ∧
      ∀ x ∈ l, x ≤ l.foldl max a := by
  intro l
  induction l with
  | nil => intro a; exact ⟨Or.inl rfl, Nat.le_refl _, by simp⟩
  | cons b t ih =>
    intro a
    rw [List.foldl_cons]
    obtain ⟨h1, h2, h3⟩ := ih (max a b)
    refine ⟨?_, ?_, ?_⟩
    · rcases h1 with h | h
      · rcases (by omega : max a b = a ∨ max a b = b) with hm | hm
        · exact Or.inl (by rw [h, hm])
        · exact Or.inr (by rw [h, hm]; exact List.mem_cons_self b t)
      · exact Or.inr (List.mem_cons_of_mem _ h)
    · have : a ≤ max a b := Nat.le_max_left a b
      omega
    · intro x hx
      rcases List.mem_cons.mp hx with rfl | hx'
      · have : x ≤ max a x := Nat.le_max_right a x
        omega
      · exact h3 x hx'

theorem max?_spec (l : List Nat) (m : Nat) (h : l.max? = some m) :
    m ∈ l ∧ ∀ x ∈ l, x ≤ m := by
  cases l with
  | nil => simp [List.max?] at h
  | cons a t =>
    have hm : t.foldl max a = m := by
      simpa [List.max?] using h
    obtain ⟨h1, h2, h3⟩ := foldl_max_spec t a
    constructor
    · rcases h1 with h' | h'
      · rw [← hm, h']
        exact List.mem_cons_self a t
      · exact List.mem_cons_of_mem _ (hm ▸ h')
    · intro x hx
      rcases List.mem_cons.mp hx with rfl | hx'
      · omega
      · have := h3 x hx'
        omega

theorem lookup_filter_some {β : Type} (q : Nat × β → Bool) (l : List (Nat × β))
    (hnd : (keysOf l).Nodup) (k : Nat) (e : β)
    (h : lookupKey k (l.filter q) = some e) : lookupKey k l = some e := by
  have hm := mem_of_lookup h
  exact lookup_eq_of_mem_of_nodup (List.mem_of_mem_filter hm) hnd

/-! #### Go-Back-N delivery -/

/-- Coupled Go-Back-N receiver fact: the delivered list is a sublist of a
prefix of the backlog, the frontier is congruent (mod 8) to the expected
number, and the frontier is at most `bound` (the sender's `base + window_size`,
which only grows during a run). -/
def GBNRcvOk (payloads : List String) (bound : Nat) (r : GoBackNReceiver) : Prop :=
  ∃ fr, r.received_frames.Sublist (payloads.take fr) ∧
    fr % maxSeqNum = r.expected_seq_num % maxSeqNum ∧ fr ≤ bound

theorem gbn_rcv_ok_mono (payloads : List String) {b b' : Nat}
    (h : b ≤ b') (r : GoBackNReceiver) (hok : GBNRcvOk payloads b r) :
    GBNRcvOk payloads b' r := by
  obtain ⟨fr, h1, h2, h3⟩ := hok
  exact ⟨fr, h1, h2, by omega⟩

/-- A Go-Back-N `receive_frame` call either leaves the delivered list and the
expected number unchanged, or accepts: it appends exactly the incoming payload
and bumps the expected number, and this happens only when the frame's modular
number equals the expected residue. -/
theorem gbn_receive_frame_cases (o : Nat → Bool) (r : GoBackNReceiver) (ix : Nat)
    (f : Frame) :
    ((GoBackNReceiver.receive_frame o r ix f).2.1.received_frames =
        r.received_frames ∧
      (GoBackNReceiver.receive_frame o r ix f).2.1.expected_seq_num =
        r.expected_seq_num) ∨
    (f.seq_num = r.expected_seq_num % maxSeqNum ∧
      (GoBackNReceiver.receive_frame o r ix f).2.1.received_frames =
        r.received_frames ++ [f.data] ∧
      (GoBackNReceiver.receive_frame o r ix f).2.1.expected_seq_num =
        r.expected_seq_num + 1) := by
  unfold GoBackNReceiver.receive_frame
  simp only []
  split
  · exact Or.inl ⟨rfl, rfl⟩
  · split
    · exact Or.inl ⟨rfl, rfl⟩
    · split
      · rename_i hacc
        split
        · exact Or.inr ⟨hacc, rfl, rfl⟩
        · exact Or.inr ⟨hacc, rfl, rfl⟩
      · split
        · split
          · exact Or.inl ⟨rfl, rfl⟩
          · exact Or.inl ⟨rfl, rfl⟩
        · exact Or.inl ⟨rfl, rfl⟩

/-- Receiving a frame that carries instance `k` of the backlog (with `k` inside
the sender's current window) preserves the coupled receiver fact. -/
theorem gbn_receive_frame_ok (o : Nat → Bool) (r : GoBackNReceiver) (ix : Nat)
    (payloads : List String) (sb ws k : Nat) (f : Frame)
    (hseq : f.seq_num = k % maxSeqNum) (hdata : f.data = payloads.getD k "")
    (hklen : k < payloads.length) (hkb : sb ≤ k) (hkn : k < sb + ws) (hws : ws ≤ 7)
    (hok : GBNRcvOk payloads (sb + ws) r) :
    GBNRcvOk payloads (sb + ws) (GoBackNReceiver.receive_frame o r ix f).2.1 := by
  obtain ⟨fr, h1, h2, h3⟩ := hok
  rcases gbn_receive_frame_cases o r ix f with ⟨hfr, hex⟩ | ⟨hacc, hfr, hex⟩
  · exact ⟨fr, by rw [hfr]; exact h1, by rw [hex]; exact h2, h3⟩
  · rw [hseq] at hacc
    have hkfr : k % maxSeqNum = fr % maxSeqNum := by
      simp only [maxSeqNum] at hacc h2 ⊢
      omega
    have hfrk : fr ≤ k := by
      simp only [maxSeqNum] at hkfr
      by_contra hlt
      push_neg at hlt
      omega
    refine ⟨k + 1, ?_, ?_, by omega⟩
    · rw [hfr, hdata, ← take_concat_getD payloads k hklen ""]
      exact List.Sublist.append (h1.trans (take_sublist_take payloads hfrk))
        (List.Sublist.refl _)
    · rw [hex]
      simp only [maxSeqNum] at hkfr h2 ⊢
      omega

theorem gbn_process_ack_fields (s : GoBackNSender) (a : Nat) :
    (s.process_ack a).next_seq_num = s.next_seq_num ∧
    (s.process_ack a).window_size = s.window_size ∧
    (s.process_ack a).data_buffer = s.data_buffer := by
  rw [GoBackNSender.process_ack]
  split <;> exact ⟨rfl, rfl, rfl⟩

/-- `process_ack` moves `base` forward but never past `next_seq_num`, keeps the
surviving window entries (unchanged) between the new `base` and
`next_seq_num`, and keeps the keys duplicate-free. -/
theorem gbn_process_ack_inv (s : GoBackNSender) (a N : Nat)
    (hbn : s.base ≤ N)
    (hlb : ∀ k ∈ keysOf s.window, s.base ≤ k)
    (hub : ∀ k ∈ keysOf s.window, k < N)
    (hnd : (keysOf s.window).Nodup) :
    s.base ≤ (s.process_ack a).base ∧
    (s.process_ack a).base ≤ N ∧
    (∀ k ∈ keysOf (s.process_ack a).window, (s.process_ack a).base ≤ k) ∧
    (∀ k ∈ keysOf (s.process_ack a).window, k < N) ∧
    (keysOf (s.process_ack a).window).Nodup ∧
    (∀ k e, lookupKey k (s.process_ack a).window = some e →
      lookupKey k s.window = some e) := by
  have hwin : (s.process_ack a).window =
      s.window.filter (fun kv => decide (kv.1 ∉
        (keysOf s.window).filter (fun k => GoBackNSender.is_in_range k s.base a))) := by
    rw [gbn_process_ack_window_eq]
    exact foldl_removeKey_eq_filter_of_nodup _ s.window hnd
  have hkeys : ∀ k, k ∈ keysOf (s.process_ack a).window ↔
      k ∈ keysOf s.window ∧
        k ∉ (keysOf s.window).filter
          (fun k' => GoBackNSender.is_in_range k' s.base a) := by
    intro k
    rw [hwin]
    exact mem_keysOf_filter_not_mem _ _ k
  have hnd' : (keysOf (s.process_ack a).window).Nodup := by
    rw [hwin]
    exact hnd.sublist (keysOf_filter_sublist _ _)
  have hlook : ∀ k e, lookupKey k (s.process_ack a).window = some e →
      lookupKey k s.window = some e := by
    intro k e he
    rw [hwin] at he
    exact lookup_filter_some _ _ hnd k e he
  cases hmax : ((keysOf s.window).filter
      (fun k => GoBackNSender.is_in_range k s.base a)).max? with
  | none =>
    have hb := gbn_process_ack_base_none s a hmax
    refine ⟨by omega, by omega, ?_, ?_, hnd', hlook⟩
    · intro k hk
      rw [hb]
      exact hlb k ((hkeys k).mp hk).1
    · intro k hk
      exact hub k ((hkeys k).mp hk).1
  | some m =>
    have hb := gbn_process_ack_base_some s a m hmax
    obtain ⟨hmmem, -⟩ := max?_spec _ m hmax
    have hmkeys := List.mem_of_mem_filter hmmem
    have hmrange : GoBackNSender.is_in_range m s.base a = true :=
      (List.mem_filter.mp hmmem).2
    have hmb := hlb m hmkeys
    have hmn := hub m hmkeys
    refine ⟨by omega, by omega, ?_, ?_, hnd', hlook⟩
    · intro k hk
      obtain ⟨hkmem, hknot⟩ := (hkeys k).mp hk
      have hkb := hlb k hkmem
      have hkrange : ¬ GoBackNSender.is_in_range k s.base a = true := by
        intro hc
        exact hknot (List.mem_filter.mpr ⟨hkmem, hc⟩)
      rw [hb]
      rw [GoBackNSender.is_in_range] at hkrange hmrange
      by_cases hba : s.base ≤ a
      · rw [if_pos hba] at hkrange hmrange
        simp only [Bool.and_eq_true, decide_eq_true_eq] at hkrange hmrange
        omega
      · rw [if_neg hba] at hkrange
        simp only [Bool.or_eq_true, decide_eq_true_eq, ge_iff_le] at hkrange
        omega
    · intro k hk
      exact hub k ((hkeys k).mp hk).1

/-- Coupled invariant for a Go-Back-N run over backlog `payloads`: the classic
window facts, plus "every outstanding window entry `k` carries payload `k` with
modular number `k % 8`", "the backlog remainder is exactly the un-sent suffix",
and the receiver-side delivery fact. -/
structure GBNInv (payloads : List String) (w : GBNWorld) : Prop where
  ws_le : w.snd.window_size ≤ 7
  base_le_next : w.snd.base ≤ w.snd.next_seq_num
  next_le : w.snd.next_seq_num ≤ w.snd.base + w.snd.window_size
  keys_lb : ∀ k ∈ keysOf w.snd.window, w.snd.base ≤ k
  keys_ub : ∀ k ∈ keysOf w.snd.window, k < w.snd.next_seq_num
  nodup_keys : (keysOf w.snd.window).Nodup
  buffer_eq : w.snd.data_buffer = payloads.drop w.snd.next_seq_num
  entry_ok : ∀ k e, lookupKey k w.snd.window = some e →
    e.frame.seq_num = k % maxSeqNum ∧ e.frame.data = payloads.getD k "" ∧
      k < payloads.length
  rcv_ok : GBNRcvOk payloads (w.snd.base + w.snd.window_size) w.rcv

theorem gbn_send_new_frames_empty (o : Nat → Bool) (w : GBNWorld)
    (hbuf : w.snd.data_buffer = []) : w.send_new_frames o = w := by
  rw [GBNWorld.send_new_frames]
  have hcs : w.snd.can_send = false := by
    simp [GoBackNSender.can_send, hbuf]
  rw [hcs]
  simp

/-- The inner fresh-transmission loop preserves the coupled invariant. -/
theorem gbn_send_new_frames_inv (o : Nat → Bool) (payloads : List String) :
    ∀ (n : Nat) (w : GBNWorld), w.snd.data_buffer.length ≤ n →
      GBNInv payloads w → GBNInv payloads (w.send_new_frames o) := by
  intro n
  induction n with
  | zero =>
    intro w hlen hw
    rw [gbn_send_new_frames_empty o w
      (List.length_eq_zero.mp (Nat.le_zero.mp hlen))]
    exact hw
  | succ n ih =>
    intro w hlen hw
    rw [GBNWorld.send_new_frames]
    split
    · rename_i hcan
      split
      · exact hw
      · rename_i data rest hb2
        simp only []
        have hcan2 : w.snd.next_seq_num < w.snd.base + w.snd.window_size := by
          simp [GoBackNSender.can_send] at hcan
          exact hcan.1
        obtain ⟨hnl, hgd, hdrop⟩ := drop_eq_cons_facts payloads w.snd.next_seq_num
          data rest (hw.buffer_eq.symm.trans hb2)
        set f : Frame := Frame.mkData (w.snd.next_seq_num % maxSeqNum) data with hf
        set s1 : GoBackNSender := { w.snd with
          data_buffer := rest,
          window := setKey w.snd.next_seq_num
            { frame := f, timestamp := w.clock, data := data } w.snd.window,
          total_transmissions := w.snd.total_transmissions + 1 } with hs1
        have hnotmem : w.snd.next_seq_num ∉ keysOf w.snd.window := by
          intro hmem
          exact absurd (hw.keys_ub _ hmem) (Nat.lt_irrefl _)
        have hkeys1 : keysOf s1.window = keysOf w.snd.window ++ [w.snd.next_seq_num] :=
          keysOf_setKey_not_mem _ hnotmem
        have hlb1 : ∀ k ∈ keysOf s1.window, w.snd.base ≤ k := by
          intro k hk
          rw [hkeys1] at hk
          rcases List.mem_append.mp hk with h' | h'
          · exact hw.keys_lb k h'
          · rw [List.mem_singleton.mp h']
            exact hw.base_le_next
        have hub1 : ∀ k ∈ keysOf s1.window, k < w.snd.next_seq_num + 1 := by
          intro k hk
          rw [hkeys1] at hk
          rcases List.mem_append.mp hk with h' | h'
          · exact Nat.lt_succ_of_lt (hw.keys_ub k h')
          · rw [List.mem_singleton.mp h']
            exact Nat.lt_succ_self _
        have hnd1 : (keysOf s1.window).Nodup := by
          rw [hkeys1]
          simp [List.nodup_append, hw.nodup_keys, hnotmem]
        have hent1 : ∀ k e, lookupKey k s1.window = some e →
            e.frame.seq_num = k % maxSeqNum ∧ e.frame.data = payloads.getD k "" ∧
              k < payloads.length := by
          intro k e he
          have hwin1 : s1.window = setKey w.snd.next_seq_num
              { frame := f, timestamp := w.clock, data := data } w.snd.window := rfl
          rw [hwin1] at he
          by_cases hk : k = w.snd.next_seq_num
          · subst hk
            rw [lookupKey_setKey_self] at he
            cases he
            exact ⟨rfl, (hgd "").symm, hnl⟩
          · rw [lookupKey_setKey_ne _ _ hk] at he
            exact hw.entry_ok k e he
        have hrcv1 : GBNRcvOk payloads (w.snd.base + w.snd.window_size)
            (w.rcv.receive_frame o w.ix f).2.1 :=
          gbn_receive_frame_ok o w.rcv w.ix payloads w.snd.base w.snd.window_size
            w.snd.next_seq_num f rfl (hgd "").symm hnl hw.base_le_next hcan2
            hw.ws_le hw.rcv_ok
        cases hres : (w.rcv.receive_frame o w.ix f).1 with
        | none =>
          simp only [hres]
          apply ih
          · show rest.length ≤ n
            have h5 : (data :: rest).length ≤ n + 1 := hb2 ▸ hlen
            simp at h5
            omega
          · refine ⟨hw.ws_le, ?_, ?_, ?_, ?_, hnd1, ?_, hent1, ?_⟩
            · show w.snd.base ≤ w.snd.next_seq_num + 1
              have := hw.base_le_next
              omega
            · show w.snd.next_seq_num + 1 ≤ w.snd.base + w.snd.window_size
              omega
            · exact hlb1
            · exact hub1
            · show rest = payloads.drop (w.snd.next_seq_num + 1)
              exact hdrop.symm
            · exact hrcv1
        | some a =>
          simp only [hres]
          have h1 : s1.next_seq_num = w.snd.next_seq_num := rfl
          have h2 : s1.window_size = w.snd.window_size := rfl
          have h3 : s1.base = w.snd.base := rfl
          obtain ⟨hpb1, hpb2, hplb, hpub, hpnd, hplook⟩ :=
            gbn_process_ack_inv s1 a (w.snd.next_seq_num + 1)
              (by rw [h3]; have := hw.base_le_next; omega) hlb1 hub1 hnd1
          obtain ⟨hpn, hpws, hpbuf⟩ := gbn_process_ack_fields s1 a
          rw [h3] at hpb1
          rw [h1] at hpn
          rw [h2] at hpws
          apply ih
          · show (s1.process_ack a).data_buffer.length ≤ n
            rw [hpbuf]
            show rest.length ≤ n
            have h5 : (data :: rest).length ≤ n + 1 := hb2 ▸ hlen
            simp at h5
            omega
          · refine ⟨?_, ?_, ?_, ?_, ?_, hpnd, ?_, ?_, ?_⟩
            · show (s1.process_ack a).window_size ≤ 7
              rw [hpws]
              exact hw.ws_le
            · show (s1.process_ack a).base ≤ (s1.process_ack a).next_seq_num + 1
              rw [hpn]
              omega
            · show (s1.process_ack a).next_seq_num + 1 ≤
                (s1.process_ack a).base + (s1.process_ack a).window_size
              rw [hpn, hpws]
              omega
            · intro k hk
              exact hplb k hk
            · intro k hk
              have hk2 := hpub k hk
              show k < (s1.process_ack a).next_seq_num + 1
              rw [hpn]
              omega
            · show (s1.process_ack a).data_buffer = payloads.drop
                ((s1.process_ack a).next_seq_num + 1)
              rw [hpbuf, hpn]
              show rest = payloads.drop (w.snd.next_seq_num + 1)
              exact hdrop.symm
            · intro k e he
              exact hent1 k e (hplook k e he)
            · show GBNRcvOk payloads
                ((s1.process_ack a).base + (s1.process_ack a).window_size) _
              apply gbn_rcv_ok_mono payloads _ _ hrcv1
              rw [hpws]
              omega
    · exact hw

/-- The retransmission loop preserves the coupled invariant (for an arbitrary
list of candidate keys: absent keys are skipped, and the per-run cap branch
only touches counters). -/
theorem gbn_retransmit_list_inv (o : Nat → Bool) (payloads : List String) :
    ∀ (L : List Nat) (w : GBNWorld), GBNInv payloads w →
      GBNInv payloads (GBNWorld.retransmit_list o L w) := by
  intro L
  induction L with
  | nil => intro w hw; exact hw
  | cons k rest ih =>
    intro w hw
    rw [GBNWorld.retransmit_list]
    cases hl : lookupKey k w.snd.window with
    | none =>
      simp only [hl]
      exact ih w hw
    | some entry =>
      simp only [hl]
      obtain ⟨hseq, hdata, hklen⟩ := hw.entry_ok k entry hl
      have hkmem := mem_keysOf_of_lookup hl
      have hkb := hw.keys_lb k hkmem
      have hkn := hw.keys_ub k hkmem
      have hkn2 : k < w.snd.base + w.snd.window_size :=
        Nat.lt_of_lt_of_le hkn hw.next_le
      have hrcv1 : GBNRcvOk payloads (w.snd.base + w.snd.window_size)
          (w.rcv.receive_frame o w.ix entry.frame).2.1 :=
        gbn_receive_frame_ok o w.rcv w.ix payloads w.snd.base w.snd.window_size
          k entry.frame hseq hdata hklen hkb hkn2 hw.ws_le hw.rcv_ok
      split
      · exact ⟨hw.ws_le, hw.base_le_next, hw.next_le, hw.keys_lb, hw.keys_ub,
          hw.nodup_keys, hw.buffer_eq, hw.entry_ok, hw.rcv_ok⟩
      · have hkeys2 : keysOf (setKey k { entry with timestamp := w.clock }
            w.snd.window) = keysOf w.snd.window := keysOf_setKey_mem _ hkmem
        have hent2 : ∀ k' e', lookupKey k' (setKey k
            { entry with timestamp := w.clock } w.snd.window) = some e' →
            e'.frame.seq_num = k' % maxSeqNum ∧
              e'.frame.data = payloads.getD k' "" ∧ k' < payloads.length := by
          intro k' e' he'
          by_cases hkk : k' = k
          · subst hkk
            rw [lookupKey_setKey_self] at he'
            cases he'
            exact ⟨hseq, hdata, hklen⟩
          · rw [lookupKey_setKey_ne _ _ hkk] at he'
            exact hw.entry_ok k' e' he'
        cases hres : (w.rcv.receive_frame o w.ix entry.frame).1 with
        | none =>
          simp only [hres]
          apply ih
          refine ⟨hw.ws_le, hw.base_le_next, hw.next_le, ?_, ?_, ?_, ?_, ?_, ?_⟩
          · intro k' hk'
            have hk2 : k' ∈ keysOf (setKey k { entry with timestamp := w.clock }
                w.snd.window) := hk'
            rw [hkeys2] at hk2
            exact hw.keys_lb k' hk2
          · intro k' hk'
            have hk2 : k' ∈ keysOf (setKey k { entry with timestamp := w.clock }
                w.snd.window) := hk'
            rw [hkeys2] at hk2
            exact hw.keys_ub k' hk2
          · show (keysOf (setKey k { entry with timestamp := w.clock }
              w.snd.window)).Nodup
            rw [hkeys2]
            exact hw.nodup_keys
          · exact hw.buffer_eq
          · intro k' e' he'
            have he2 : lookupKey k' (setKey k { entry with timestamp := w.clock }
                w.snd.window) = some e' := he'
            exact hent2 k' e' he2
          · exact hrcv1
        | some a =>
          simp only [hres]
          set SF : GoBackNSender := { w.snd with
            total_transmissions := w.snd.total_transmissions + 1,
            retransmissions := w.snd.retransmissions + 1,
            total_retransmission_count := w.snd.total_retransmission_count + 1,
            window := setKey k { entry with timestamp := w.clock } w.snd.window }
            with hSF
          obtain ⟨hpb1, hpb2, hplb, hpub, hpnd, hplook⟩ :=
            gbn_process_ack_inv SF a w.snd.next_seq_num hw.base_le_next
              (by
                intro k' hk'
                have hk2 : k' ∈ keysOf (setKey k { entry with timestamp := w.clock }
                    w.snd.window) := hk'
                rw [hkeys2] at hk2
                exact hw.keys_lb k' hk2)
              (by
                intro k' hk'
                have hk2 : k' ∈ keysOf (setKey k { entry with timestamp := w.clock }
                    w.snd.window) := hk'
                rw [hkeys2] at hk2
                exact hw.keys_ub k' hk2)
              (by
                show (keysOf (setKey k { entry with timestamp := w.clock }
                  w.snd.window)).Nodup
                rw [hkeys2]
                exact hw.nodup_keys)
          have hpb1' : w.snd.base ≤ (SF.process_ack a).base := hpb1
          have hpf := gbn_process_ack_fields SF a
          have hpn' : (SF.process_ack a).next_seq_num = w.snd.next_seq_num := hpf.1
          have hpws' : (SF.process_ack a).window_size = w.snd.window_size := hpf.2.1
          have hpbuf' : (SF.process_ack a).data_buffer = w.snd.data_buffer := hpf.2.2
          apply ih
          refine ⟨?_, ?_, ?_, ?_, ?_, hpnd, ?_, ?_, ?_⟩
          · show (SF.process_ack a).window_size ≤ 7
            rw [hpws']
            exact hw.ws_le
          · show (SF.process_ack a).base ≤ (SF.process_ack a).next_seq_num
            rw [hpn']
            exact hpb2
          · show (SF.process_ack a).next_seq_num ≤
              (SF.process_ack a).base + (SF.process_ack a).window_size
            rw [hpn', hpws']
            have := hw.next_le
            omega
          · exact hplb
          · intro k' hk'
            have hk2 := hpub k' hk'
            show k' < (SF.process_ack a).next_seq_num
            rw [hpn']
            exact hk2
          · show (SF.process_ack a).data_buffer =
              payloads.drop (SF.process_ack a).next_seq_num
            rw [hpbuf', hpn']
            exact hw.buffer_eq
          · intro k' e' he'
            have he2 : lookupKey k' (setKey k { entry with timestamp := w.clock }
                w.snd.window) = some e' := hplook k' e' he'
            exact hent2 k' e' he2
          · show GBNRcvOk payloads
              ((SF.process_ack a).base + (SF.process_ack a).window_size) _
            apply gbn_rcv_ok_mono payloads _ _ hrcv1
            rw [hpws']
            omega

theorem gbn_go_back_n_retransmit_inv (o : Nat → Bool) (payloads : List String)
    (w : GBNWorld) (fs : Nat) (hw : GBNInv payloads w) :
    GBNInv payloads (w.go_back_n_retransmit o fs) := by
  rw [GBNWorld.go_back_n_retransmit]
  split
  · exact hw
  · exact gbn_retransmit_list_inv o payloads _ w hw

theorem gbn_check_timeouts_inv (o : Nat → Bool) (payloads : List String)
    (w : GBNWorld) (hw : GBNInv payloads w) :
    GBNInv payloads (w.check_timeouts o) := by
  rw [GBNWorld.check_timeouts]
  cases hmin : (keysOf w.snd.window).min? with
  | none => exact hw
  | some oldest =>
    simp only []
    cases hl : lookupKey oldest w.snd.window with
    | none =>
      simp only [hl]
      exact hw
    | some entry =>
      simp only [hl]
      split
      · exact gbn_go_back_n_retransmit_inv o payloads w oldest hw
      · exact hw

theorem gbn_inv_set_clock (payloads : List String) (w : GBNWorld) (c : Int)
    (hw : GBNInv payloads w) : GBNInv payloads { w with clock := c } :=
  ⟨hw.ws_le, hw.base_le_next, hw.next_le, hw.keys_lb, hw.keys_ub, hw.nodup_keys,
    hw.buffer_eq, hw.entry_ok, hw.rcv_ok⟩

/-- The capped Go-Back-N main loop preserves the coupled invariant. -/
theorem gbn_send_frames_loop_inv (o : Nat → Bool) (payloads : List String) :
    ∀ (n ic : Nat) (w : GBNWorld), 500 - ic ≤ n → GBNInv payloads w →
      GBNInv payloads (GBNWorld.send_frames_loop o ic w).1 := by
  intro n
  induction n with
  | zero =>
    intro ic w hn hw
    rw [GBNWorld.send_frames_loop]
    split
    · exact hw
    · rw [dif_pos (by omega)]
      exact hw
  | succ n ih =>
    intro ic w hn hw
    rw [GBNWorld.send_frames_loop]
    split
    · exact hw
    · split
      · exact hw
      · simp only []
        have hw1 := gbn_send_new_frames_inv o payloads
          w.snd.data_buffer.length w (Nat.le_refl _) hw
        split
        · have hw2 := gbn_check_timeouts_inv o payloads _ hw1
          split
          · exact hw2
          · apply ih
            · omega
            · exact gbn_inv_set_clock payloads _ _ hw2
        · split
          · exact hw1
          · apply ih
            · omega
            · exact gbn_inv_set_clock payloads _ _ hw1

theorem gbn_init_inv (ws : Nat) (t : Int) (payloads : List String) (hws : ws ≤ 7) :
    GBNInv payloads (initGBNWorld ws t payloads) := by
  refine ⟨hws, Nat.le_refl _, Nat.le_add_right _ _, ?_, ?_, ?_, ?_, ?_, ?_⟩
  · intro k hk
    simp [initGBNWorld, GoBackNSender.init, GoBackNSender.add_data, keysOf_nil] at hk
  · intro k hk
    simp [initGBNWorld, GoBackNSender.init, GoBackNSender.add_data, keysOf_nil] at hk
  · show (keysOf ([] : List (Nat × WindowEntry))).Nodup
    simp [keysOf_nil]
  · show ([] : List String) ++ payloads = payloads.drop 0
    simp
  · intro k e he
    simp [initGBNWorld, GoBackNSender.init, GoBackNSender.add_data, lookupKey] at he
  · exact ⟨0, List.nil_sublist _, rfl, by omega⟩

theorem gbn_rcv_ok_sublist (payloads : List String) (b : Nat) (r : GoBackNReceiver)
    (h : GBNRcvOk payloads b r) : r.received_frames.Sublist payloads := by
  obtain ⟨fr, h1, -, -⟩ := h
  exact h1.trans (List.take_sublist fr payloads)

/-! #### Selective Repeat delivery: coupled receiver facts -/

/-- Coupled Selective Repeat receiver facts, relative to the backlog and the
in-flight bound `N` (the sender's `next_seq_num`): every buffered residue is
an in-flight instance in `[base, N)` carrying its backlog payload, and the
delivered list is exactly the backlog prefix below `base`. -/
def SRRcvCoupled (payloads : List String) (N : Nat)
    (r : SelectiveRepeatReceiver) : Prop :=
  (∀ s d, lookupKey s r.buffer = some d →
    ∃ i, r.base ≤ i ∧ i < N ∧ i % maxSeqNum = s ∧ d = payloads.getD i "" ∧
      i < payloads.length) ∧
  r.received_frames = payloads.take r.base ∧ r.base ≤ N

/-- Every residue buffered in `r` is, in `r'`, either still buffered or
accounted for by a delivered instance between the two bases. -/
def SRBufWitness (r r' : SelectiveRepeatReceiver) : Prop :=
  ∀ s, (lookupKey s r.buffer).isSome →
    (lookupKey s r'.buffer).isSome ∨
    ∃ t, r.base ≤ t ∧ t < r'.base ∧ t % maxSeqNum = s

/-- `deliver_frames` preserves the coupled receiver facts: each popped entry is
necessarily the instance `base` itself (in-flight instances within `[base, N)`
with `N ≤ base + 8` have distinct residues), so delivery extends the prefix. -/
theorem sr_deliver_coupling (payloads : List String) (N : Nat) :
    ∀ (n : Nat) (r : SelectiveRepeatReceiver), r.buffer.length ≤ n →
      (keysOf r.buffer).Nodup →
      SRRcvCoupled payloads N r →
      N ≤ r.base + maxSeqNum →
      SRRcvCoupled payloads N (r.deliver_frames).2 ∧
      r.base ≤ (r.deliver_frames).2.base ∧
      SRBufWitness r (r.deliver_frames).2 := by
  intro n
  induction n with
  | zero =>
    intro r hlen hnd hcoup hN8
    have hb : r.buffer = [] := List.length_eq_zero.mp (Nat.le_zero.mp hlen)
    rw [SelectiveRepeatReceiver.deliver_frames]
    split
    · exact ⟨hcoup, Nat.le_refl _, fun s hs => Or.inl hs⟩
    · rename_i data hl
      rw [hb] at hl
      simp [lookupKey] at hl
  | succ n ih =>
    intro r hlen hnd hcoup hN8
    obtain ⟨hcon, hdel, hrbN⟩ := hcoup
    rw [SelectiveRepeatReceiver.deliver_frames]
    split
    · exact ⟨⟨hcon, hdel, hrbN⟩, Nat.le_refl _, fun s hs => Or.inl hs⟩
    · rename_i data hl
      obtain ⟨i, hib, hiN, him, hid, hil⟩ := hcon _ _ hl
      have hieq : i = r.base := by
        simp only [maxSeqNum] at him hN8
        omega
      subst hieq
      have hlen' : (removeKey (r.base % maxSeqNum) r.buffer).length ≤ n := by
        have := removeKey_length_lt hl
        omega
      have hnd' := nodup_keysOf_removeKey (r.base % maxSeqNum) r.buffer hnd
      have hcon' : ∀ s d,
          lookupKey s (removeKey (r.base % maxSeqNum) r.buffer) = some d →
          ∃ j, r.base + 1 ≤ j ∧ j < N ∧ j % maxSeqNum = s ∧
            d = payloads.getD j "" ∧ j < payloads.length := by
        intro s d hs
        have hsne : s ≠ r.base % maxSeqNum := by
          intro heq
          rw [heq, lookup_removeKey_of_nodup _ _ hnd] at hs
          exact absurd hs (by simp)
        rw [lookupKey_removeKey_ne _ hsne] at hs
        obtain ⟨j, hjb, hjN, hjm, hjd, hjl⟩ := hcon s d hs
        have hjne : j ≠ r.base := by
          intro heq
          rw [heq] at hjm
          exact hsne hjm.symm
        exact ⟨j, by omega, hjN, hjm, hjd, hjl⟩
      have hdel' : r.received_frames ++ [data] = payloads.take (r.base + 1) := by
        rw [hdel, hid]
        exact take_concat_getD payloads r.base hil ""
      obtain ⟨hcoup2, hbmono, hwit⟩ := ih
        { r with received_frames := r.received_frames ++ [data],
                 buffer := removeKey (r.base % maxSeqNum) r.buffer,
                 base := r.base + 1 }
        hlen' hnd' ⟨hcon', hdel', by show r.base + 1 ≤ N; omega⟩
        (by show N ≤ r.base + 1 + maxSeqNum; omega)
      have hbmono' : r.base + 1 ≤
          (SelectiveRepeatReceiver.deliver_frames
            { r with received_frames := r.received_frames ++ [data],
                     buffer := removeKey (r.base % maxSeqNum) r.buffer,
                     base := r.base + 1 }).2.base := hbmono
      refine ⟨hcoup2, by omega, ?_⟩
      intro s hs
      by_cases hsb : s = r.base % maxSeqNum
      · exact Or.inr ⟨r.base, Nat.le_refl _, by omega, hsb.symm⟩
      · have hs2 : (lookupKey s
            (removeKey (r.base % maxSeqNum) r.buffer)).isSome := by
          rw [lookupKey_removeKey_ne _ hsb]
          exact hs
        rcases hwit s hs2 with h' | ⟨t, ht1, ht2, ht3⟩
        · exact Or.inl h'
        · exact Or.inr ⟨t, by
            simp only [] at ht1
            omega, ht2, ht3⟩

/-- Receiving (a transmission of) in-flight instance `j` preserves the coupled
receiver facts, never moves the receive base backwards, and every
acknowledgment returned names an in-flight instance that is afterwards either
delivered or still buffered.  Requires equal window sizes with
`2 * window_size ≤ 8` and the sender base at or below the receive base. -/
theorem sr_receive_frame_coupling (o : Nat → Bool) (r : SelectiveRepeatReceiver)
    (ix : Nat) (payloads : List String) (sb ws N j : Nat) (f : Frame)
    (hr : SRReceiverInv r)
    (hws_eq : r.window_size = ws)
    (hws2 : 2 * ws ≤ maxSeqNum)
    (hseq : f.seq_num = j % maxSeqNum) (hdata : f.data = payloads.getD j "")
    (hjlen : j < payloads.length) (hjb : sb ≤ j) (hjN : j < N)
    (hNsb : N ≤ sb + ws) (hsbrb : sb ≤ r.base)
    (hcoup : SRRcvCoupled payloads N r) :
    SRRcvCoupled payloads N (r.receive_frame o ix f).2.1 ∧
    r.base ≤ (r.receive_frame o ix f).2.1.base ∧
    (∀ a ∈ ((r.receive_frame o ix f).1.getD []),
      ∃ i, sb ≤ i ∧ i < N ∧ i % maxSeqNum = a ∧
        (i < (r.receive_frame o ix f).2.1.base ∨
          (lookupKey (i % maxSeqNum) (r.receive_frame o ix f).2.1.buffer).isSome)) ∧
    SRBufWitness r (r.receive_frame o ix f).2.1 := by
  obtain ⟨hpos, hle, hnd, hw, hnb⟩ := hr
  obtain ⟨hcon, hdel, hrbN⟩ := hcoup
  have hf8 : f.seq_num < maxSeqNum := by
    rw [hseq]
    simp only [maxSeqNum]
    omega
  have hws4 : 2 * ws ≤ 8 := by
    simpa [maxSeqNum] using hws2
  have hN8 : N ≤ r.base + maxSeqNum := by
    simp only [maxSeqNum]
    omega
  unfold SelectiveRepeatReceiver.receive_frame
  by_cases h1 : o ix
  · simp only [h1, if_true]
    refine ⟨⟨hcon, hdel, hrbN⟩, Nat.le_refl _, ?_, fun s hs => Or.inl hs⟩
    intro a ha
    simp at ha
  · simp only [h1, Bool.false_eq_true, if_false]
    by_cases h2 : o (ix + 1)
    · simp only [h2, if_true]
      refine ⟨⟨hcon, hdel, hrbN⟩, Nat.le_refl _, ?_, fun s hs => Or.inl hs⟩
      intro a ha
      simp at ha
    · simp only [h2, Bool.false_eq_true, if_false]
      set r1 : SelectiveRepeatReceiver :=
        { r with total_frames_received := r.total_frames_received + 1 } with hr1
      by_cases h3 : r1.is_in_window f.seq_num
      · simp only [h3, if_true]
        have hjrb : r.base ≤ j := by
          by_contra hlt
          push_neg at hlt
          obtain ⟨jj, hjj, hjjeq⟩ :=
            (sr_is_in_window_iff r1 hpos hle f.seq_num hf8).mp h3
          rw [hseq] at hjjeq
          have hbase1 : r1.base = r.base := rfl
          have hws1' : r1.window_size = r.window_size := rfl
          rw [hbase1] at hjjeq
          rw [hws1', hws_eq] at hjj
          simp only [maxSeqNum] at hjjeq
          omega
        by_cases h4 : (lookupKey f.seq_num r1.buffer).isSome
        · simp only [h4, if_true]
          obtain ⟨hcoup2, hbmono, hwit⟩ := sr_deliver_coupling payloads N
            ({ r1 with duplicate_frames := r1.duplicate_frames + 1 } :
              SelectiveRepeatReceiver).buffer.length
            { r1 with duplicate_frames := r1.duplicate_frames + 1 }
            (Nat.le_refl _) hnd ⟨hcon, hdel, hrbN⟩ hN8
          obtain ⟨hcon2, hdel2, hrbN2⟩ := hcoup2
          have hbmono' : r.base ≤ (SelectiveRepeatReceiver.deliver_frames
              { r1 with duplicate_frames := r1.duplicate_frames + 1 }).2.base :=
            hbmono
          refine ⟨⟨hcon2, hdel2, hrbN2⟩, hbmono', ?_, ?_⟩
          · intro a ha
            have hfst : (SelectiveRepeatReceiver.deliver_frames
                { r1 with duplicate_frames := r1.duplicate_frames + 1 }).1 = [] :=
              sr_deliver_frames_fst _ _ (Nat.le_refl _)
            by_cases h6 : o (ix + 1 + 1)
            · simp only [h6, if_true, hfst, Option.getD_some,
                List.append_nil] at ha
              simp at ha
            · simp only [h6, Bool.false_eq_true, if_false, hfst, Option.getD_some,
                List.append_nil, List.mem_singleton] at ha
              subst ha
              rcases hwit (j % maxSeqNum) (by rw [← hseq]; exact h4) with
                hpost | ⟨t, ht1, ht2, ht3⟩
              · exact ⟨j, hjb, hjN, by rw [hseq], Or.inr hpost⟩
              · have ht1' : r.base ≤ t := ht1
                have htj : t = j := by
                  simp only [maxSeqNum] at ht3
                  omega
                subst htj
                exact ⟨t, hjb, hjN, by rw [hseq], Or.inl ht2⟩
          · exact hwit
        · simp only [h4, if_false]
          have hnotmem : f.seq_num ∉ keysOf r.buffer := fun hmem =>
            absurd (lookup_isSome_of_mem_keysOf hmem) (by simpa using h4)
          have hnd2 : (keysOf (setKey f.seq_num f.data r.buffer)).Nodup := by
            rw [keysOf_setKey_not_mem _ hnotmem]
            simp [List.nodup_append, hnd, hnotmem]
          have hcon2 : ∀ s d,
              lookupKey s (setKey f.seq_num f.data r.buffer) = some d →
              ∃ i, r.base ≤ i ∧ i < N ∧ i % maxSeqNum = s ∧
                d = payloads.getD i "" ∧ i < payloads.length := by
            intro s d hsd
            by_cases hs : s = f.seq_num
            · subst hs
              rw [lookupKey_setKey_self] at hsd
              cases hsd
              exact ⟨j, hjrb, hjN, hseq.symm, hdata, hjlen⟩
            · rw [lookupKey_setKey_ne _ _ hs] at hsd
              exact hcon s d hsd
          obtain ⟨hcoup2, hbmono, hwit⟩ := sr_deliver_coupling payloads N
            ({ r1 with buffer := setKey f.seq_num f.data r1.buffer } :
              SelectiveRepeatReceiver).buffer.length
            { r1 with buffer := setKey f.seq_num f.data r1.buffer }
            (Nat.le_refl _) hnd2 ⟨hcon2, hdel, hrbN⟩ hN8
          obtain ⟨hcon2', hdel2, hrbN2⟩ := hcoup2
          have hbmono' : r.base ≤ (SelectiveRepeatReceiver.deliver_frames
              { r1 with buffer := setKey f.seq_num f.data r1.buffer }).2.base :=
            hbmono
          refine ⟨⟨hcon2', hdel2, hrbN2⟩, hbmono', ?_, ?_⟩
          · intro a ha
            have hfst : (SelectiveRepeatReceiver.deliver_frames
                { r1 with buffer := setKey f.seq_num f.data r1.buffer }).1 = [] :=
              sr_deliver_frames_fst _ _ (Nat.le_refl _)
            by_cases h6 : o (ix + 1 + 1)
            · simp only [h6, if_true, Option.getD_some, List.nil_append] at ha
              have ha2 : a ∈ (SelectiveRepeatReceiver.deliver_frames
                  { r1 with buffer := setKey f.seq_num f.data r1.buffer }).1 := ha
              rw [hfst] at ha2
              simp at ha2
            · simp only [h6, Bool.false_eq_true, if_false, Option.getD_some] at ha
              have ha2 : a ∈ [f.seq_num] ++ (SelectiveRepeatReceiver.deliver_frames
                  { r1 with buffer := setKey f.seq_num f.data r1.buffer }).1 := ha
              rw [hfst, List.append_nil, List.mem_singleton] at ha2
              subst ha2
              have hpre : (lookupKey (j % maxSeqNum)
                  (setKey f.seq_num f.data r.buffer)).isSome := by
                rw [← hseq, lookupKey_setKey_self]
                simp
              rcases hwit (j % maxSeqNum) hpre with hpost | ⟨t, ht1, ht2, ht3⟩
              · exact ⟨j, hjb, hjN, by rw [hseq], Or.inr hpost⟩
              · have ht1' : r.base ≤ t := ht1
                have htj : t = j := by
                  simp only [maxSeqNum] at ht3
                  omega
                subst htj
                exact ⟨t, hjb, hjN, by rw [hseq], Or.inl ht2⟩
          · intro s hs
            have hs2 : (lookupKey s (setKey f.seq_num f.data r.buffer)).isSome := by
              by_cases hsf : s = f.seq_num
              · subst hsf
                rw [lookupKey_setKey_self]
                simp
              · rw [lookupKey_setKey_ne _ _ hsf]
                exact hs
            exact hwit s hs2
      · simp only [h3, Bool.false_eq_true, if_false]
        by_cases h5 : r1.is_already_delivered f.seq_num
        · simp only [h5, if_true]
          have hjlt : j < r.base := by
            by_contra hge
            push_neg at hge
            have hwin : r1.is_in_window f.seq_num = true := by
              apply (sr_is_in_window_iff r1 hpos hle f.seq_num hf8).mpr
              refine ⟨j - r.base, ?_, ?_⟩
              · have hws1' : r1.window_size = r.window_size := rfl
                rw [hws1', hws_eq]
                omega
              · have hbase1 : r1.base = r.base := rfl
                rw [hbase1, hseq]
                have hj : r.base + (j - r.base) = j := by omega
                rw [hj]
            exact absurd hwin h3
          by_cases h6 : o (ix + 1 + 1)
          · simp only [h6, if_true]
            refine ⟨⟨hcon, hdel, hrbN⟩, Nat.le_refl _, ?_, fun s hs => Or.inl hs⟩
            intro a ha
            simp at ha
          · simp only [h6, Bool.false_eq_true, if_false]
            refine ⟨⟨hcon, hdel, hrbN⟩, Nat.le_refl _, ?_, fun s hs => Or.inl hs⟩
            intro a ha
            simp only [Option.getD_some, List.mem_singleton] at ha
            subst ha
            exact ⟨j, hjb, hjN, hseq.symm, Or.inl hjlt⟩
        · simp only [h5, Bool.false_eq_true, if_false]
          refine ⟨⟨hcon, hdel, hrbN⟩, Nat.le_refl _, ?_, fun s hs => Or.inl hs⟩
          intro a ha
          simp at ha

theorem sr_foldl_ack_fields (L : List Nat) (s : SelectiveRepeatSender) :
    (L.foldl (fun s' a => s'.process_ack a) s).base = s.base ∧
    (L.foldl (fun s' a => s'.process_ack a) s).next_seq_num = s.next_seq_num ∧
    (L.foldl (fun s' a => s'.process_ack a) s).window_size = s.window_size ∧
    (L.foldl (fun s' a => s'.process_ack a) s).data_buffer = s.data_buffer := by
  induction L generalizing s with
  | nil => exact ⟨rfl, rfl, rfl, rfl⟩
  | cons a L ih =>
    rw [List.foldl_cons]
    obtain ⟨h1, h2, h3, h4⟩ := ih (s.process_ack a)
    obtain ⟨g1, g2, g3, g4⟩ := sr_process_ack_fields s a
    exact ⟨h1.trans g1, h2.trans g2, h3.trans g3, h4.trans g4⟩

theorem sr_process_ack_lookup_some (s : SelectiveRepeatSender) (a : Nat)
    (hnd : (keysOf s.window).Nodup) (k : Nat) (e : WindowEntry)
    (h : lookupKey k (s.process_ack a).window = some e) :
    lookupKey k s.window = some e := by
  rw [sr_process_ack_window s a hnd] at h
  exact lookup_filter_some _ _ hnd k e h

theorem sr_foldl_ack_lookup (L : List Nat) :
    ∀ (s : SelectiveRepeatSender), (keysOf s.window).Nodup →
      ∀ (k : Nat) (e : WindowEntry),
      lookupKey k (L.foldl (fun s' a => s'.process_ack a) s).window = some e →
      lookupKey k s.window = some e := by
  induction L with
  | nil => intro s _ k e h; exact h
  | cons a L ih =>
    intro s hnd k e h
    rw [List.foldl_cons] at h
    have hnd' : (keysOf (s.process_ack a).window).Nodup := by
      rw [sr_process_ack_window s a hnd]
      exact hnd.sublist (keysOf_filter_sublist _ _)
    exact sr_process_ack_lookup_some s a hnd k e (ih (s.process_ack a) hnd' k e h)

theorem sr_rcv_coupled_mono (payloads : List String) {N N' : Nat} (h : N ≤ N')
    (r : SelectiveRepeatReceiver) (hc : SRRcvCoupled payloads N r) :
    SRRcvCoupled payloads N' r := by
  obtain ⟨hcon, hdel, hrbN⟩ := hc
  refine ⟨?_, hdel, by omega⟩
  intro s d hsd
  obtain ⟨i, h1, h2, h3, h4, h5⟩ := hcon s d hsd
  exact ⟨i, h1, by omega, h3, h4, h5⟩

/-- Updating the receiver (by a buffered-or-delivered transfer step) keeps the
acked-residue witnesses valid: the unique-residue argument pins a delivered
instance to the witness itself. -/
theorem sr_ack_rec_update (payloads : List String) (N sb : Nat)
    (rold rnew : SelectiveRepeatReceiver) (ackold : List Nat)
    (hrec : ∀ a ∈ ackold, ∃ i, sb ≤ i ∧ i < N ∧ i % maxSeqNum = a ∧
      (i < rold.base ∨ (lookupKey (i % maxSeqNum) rold.buffer).isSome))
    (hwit : SRBufWitness rold rnew)
    (hmono : rold.base ≤ rnew.base)
    (hrbN : rnew.base ≤ N)
    (hsbrb : sb ≤ rold.base)
    (hN8 : N ≤ sb + maxSeqNum) :
    ∀ a ∈ ackold, ∃ i, sb ≤ i ∧ i < N ∧ i % maxSeqNum = a ∧
      (i < rnew.base ∨ (lookupKey (i % maxSeqNum) rnew.buffer).isSome) := by
  intro a ha
  obtain ⟨i, h1, h2, h3, h4⟩ := hrec a ha
  rcases h4 with h' | h'
  · exact ⟨i, h1, h2, h3, Or.inl (by omega)⟩
  · rcases hwit _ h' with h'' | ⟨t, ht1, ht2, ht3⟩
    · exact ⟨i, h1, h2, h3, Or.inr h''⟩
    · have hti : t = i := by
        simp only [maxSeqNum] at ht3 hN8
        omega
      subst hti
      exact ⟨t, h1, h2, h3, Or.inl ht2⟩

/-- `slide_window`, coupled to the receiver: since every acked residue is
backed by a delivered-or-buffered in-flight instance, and the base residue is
never buffered at an observable point, the sender base can only slide while it
is strictly below the receive base — so `base ≤ receiver.base` is preserved,
along with the witnesses for the remaining acked residues. -/
theorem sr_slide_window_coupling :
    ∀ (n : Nat) (s : SelectiveRepeatSender) (rb : Nat)
      (rbuf : List (Nat × String)),
      s.ack_received.length ≤ n →
      s.ack_received.Nodup →
      s.base ≤ rb →
      lookupKey (rb % maxSeqNum) rbuf = none →
      s.next_seq_num ≤ s.base + maxSeqNum →
      (∀ a ∈ s.ack_received, ∃ i, s.base ≤ i ∧ i < s.next_seq_num ∧
        i % maxSeqNum = a ∧ (i < rb ∨ (lookupKey (i % maxSeqNum) rbuf).isSome)) →
      s.slide_window.base ≤ rb ∧
      (∀ a ∈ s.slide_window.ack_received, ∃ i, s.slide_window.base ≤ i ∧
        i < s.slide_window.next_seq_num ∧ i % maxSeqNum = a ∧
        (i < rb ∨ (lookupKey (i % maxSeqNum) rbuf).isSome)) := by
  intro n
  induction n with
  | zero =>
    intro s rb rbuf hlen hnda hsrb hnb hn8 hrec
    have hack : s.ack_received = [] := List.length_eq_zero.mp (Nat.le_zero.mp hlen)
    rw [sr_slide_window_no_ack s hack]
    exact ⟨hsrb, hrec⟩
  | succ n ih =>
    intro s rb rbuf hlen hnda hsrb hnb hn8 hrec
    rw [SelectiveRepeatSender.slide_window]
    split
    · rename_i hmem
      obtain ⟨i, hib, hin, him, hdisj⟩ := hrec _ hmem
      have hieq : i = s.base := by
        simp only [maxSeqNum] at him hn8
        omega
      subst hieq
      have hlt : s.base < rb := by
        rcases hdisj with h' | h'
        · omega
        · by_contra hge
          push_neg at hge
          have heq : s.base = rb := by omega
          rw [heq, hnb] at h'
          simp at h'
      apply ih
      · show (removeNat (s.base % maxSeqNum) s.ack_received).length ≤ n
        have := removeNat_length_lt hmem
        omega
      · exact nodup_removeNat hnda
      · show s.base + 1 ≤ rb
        omega
      · exact hnb
      · show s.next_seq_num ≤ s.base + 1 + maxSeqNum
        omega
      · intro a' ha'
        have ham := mem_removeNat_subset _ _ a' ha'
        have hane := mem_removeNat_ne_of_nodup hnda a' ha'
        obtain ⟨i', g1, g2, g3, g4⟩ := hrec a' ham
        have hine : i' ≠ s.base := by
          intro he
          exact hane (by rw [← g3, he])
        refine ⟨i', ?_, ?_, g3, g4⟩
        · show s.base + 1 ≤ i'
          omega
        · exact g2
    · exact ⟨hsrb, hrec⟩

/-- Full coupled invariant for a Selective Repeat run over backlog `payloads`:
the C4 window invariants on both sides, equal window sizes obeying the
classical `2·w ≤ maxSeq` bound, content tracking for the sender window and the
backlog remainder, the coupled receiver facts (delivered list is exactly the
backlog prefix below the receive base), `sender.base ≤ receiver.base`, and a
delivered-or-buffered witness for every acked residue. -/
structure SRCoupling (payloads : List String) (w : SRWorld) : Prop where
  hs : SRSenderInv w.snd
  hr : SRReceiverInv w.rcv
  ws_eq : w.rcv.window_size = w.snd.window_size
  ws2 : 2 * w.snd.window_size ≤ maxSeqNum
  buffer_eq : w.snd.data_buffer = payloads.drop w.snd.next_seq_num
  entry_data : ∀ k e, lookupKey k w.snd.window = some e →
    e.frame.data = payloads.getD k "" ∧ k < payloads.length
  rcv_coup : SRRcvCoupled payloads w.snd.next_seq_num w.rcv
  sbase_le_rbase : w.snd.base ≤ w.rcv.base
  ack_rec : ∀ a ∈ w.snd.ack_received, ∃ i, w.snd.base ≤ i ∧
    i < w.snd.next_seq_num ∧ i % maxSeqNum = a ∧
    (i < w.rcv.base ∨ (lookupKey (i % maxSeqNum) w.rcv.buffer).isSome)

/-- `selective_retransmit` preserves the full Selective Repeat coupling. -/
theorem sr_selective_retransmit_coupling (o : Nat → Bool) (payloads : List String)
    (w : SRWorld) (k : Nat) (hc : SRCoupling payloads w) :
    SRCoupling payloads (w.selective_retransmit o k) := by
  obtain ⟨hs', hr'⟩ := sr_selective_retransmit_world_inv o w k hc.hs hc.hr
  unfold SRWorld.selective_retransmit at hs' hr' ⊢
  cases hl : lookupKey k w.snd.window with
  | none =>
    simp only [hl] at hs' hr' ⊢
    exact hc
  | some e =>
    simp only [hl] at hs' hr' ⊢
    have hseq : e.frame.seq_num = k % maxSeqNum := hc.hs.entry_seq k e hl
    obtain ⟨hdata, hklen⟩ := hc.entry_data k e hl
    have hf8 : e.frame.seq_num < maxSeqNum := by
      rw [hseq]
      simp only [maxSeqNum]
      omega
    have hkmem := mem_keysOf_of_lookup hl
    have hkb := hc.hs.keys_lb k hkmem
    have hkn := hc.hs.keys_ub k hkmem
    obtain ⟨hcoup2, hbmono, hackS, hwit⟩ :=
      sr_receive_frame_coupling o w.rcv w.ix payloads w.snd.base
        w.snd.window_size w.snd.next_seq_num k e.frame hc.hr hc.ws_eq hc.ws2
        hseq hdata hklen hkb hkn hc.hs.next_le hc.sbase_le_rbase hc.rcv_coup
    obtain ⟨hcon2, hdel2, hrbN2⟩ := hcoup2
    obtain ⟨-, -, hrws⟩ := sr_receive_frame_rcv_inv o w.rcv w.ix e.frame hc.hr hf8
    have hN8 : w.snd.next_seq_num ≤ w.snd.base + maxSeqNum := by
      have h1 := hc.hs.next_le
      have h2 := hc.hs.ws_le
      omega
    have f9 : ∀ a ∈ w.snd.ack_received, ∃ i, w.snd.base ≤ i ∧
        i < w.snd.next_seq_num ∧ i % maxSeqNum = a ∧
        (i < (w.rcv.receive_frame o w.ix e.frame).2.1.base ∨
          (lookupKey (i % maxSeqNum)
            (w.rcv.receive_frame o w.ix e.frame).2.1.buffer).isSome) :=
      sr_ack_rec_update payloads w.snd.next_seq_num w.snd.base w.rcv
        (w.rcv.receive_frame o w.ix e.frame).2.1 w.snd.ack_received
        hc.ack_rec hwit hbmono hrbN2 hc.sbase_le_rbase hN8
    set SF : SelectiveRepeatSender := { w.snd with
      total_transmissions := w.snd.total_transmissions + 1,
      retransmissions := w.snd.retransmissions + 1,
      window := setKey k { e with timestamp := w.clock } w.snd.window,
      individual_timers := setKey k w.clock w.snd.individual_timers } with hSF
    have hkeysS1 : keysOf (setKey k { e with timestamp := w.clock } w.snd.window) =
        keysOf w.snd.window := keysOf_setKey_mem _ hkmem
    have hndSF : (keysOf SF.window).Nodup := by
      show (keysOf (setKey k { e with timestamp := w.clock } w.snd.window)).Nodup
      rw [hkeysS1]
      exact hc.hs.nodup_keys
    have hentS1 : ∀ k' e', lookupKey k' (setKey k { e with timestamp := w.clock }
        w.snd.window) = some e' →
        e'.frame.data = payloads.getD k' "" ∧ k' < payloads.length := by
      intro k' e' he'
      by_cases hkk : k' = k
      · subst hkk
        rw [lookupKey_setKey_self] at he'
        cases he'
        exact ⟨hdata, hklen⟩
      · rw [lookupKey_setKey_ne _ _ hkk] at he'
        exact hc.entry_data k' e' he'
    rcases sr_receive_frame_acks_cases o w.rcv w.ix e.frame with hc1 | hc1 | hc1 <;>
      simp only [hc1, Option.getD_none, Option.getD_some, List.foldl_nil,
        List.foldl_cons] at hs' ⊢
    · refine ⟨hs', hr', hrws.trans hc.ws_eq, hc.ws2, hc.buffer_eq, ?_, ?_,
        le_trans hc.sbase_le_rbase hbmono, f9⟩
      · intro k' e' he'
        have he2 : lookupKey k' (setKey k { e with timestamp := w.clock }
            w.snd.window) = some e' := he'
        exact hentS1 k' e' he2
      · exact ⟨hcon2, hdel2, hrbN2⟩
    · refine ⟨hs', hr', hrws.trans hc.ws_eq, hc.ws2, hc.buffer_eq, ?_, ?_,
        le_trans hc.sbase_le_rbase hbmono, f9⟩
      · intro k' e' he'
        have he2 : lookupKey k' (setKey k { e with timestamp := w.clock }
            w.snd.window) = some e' := he'
        exact hentS1 k' e' he2
      · exact ⟨hcon2, hdel2, hrbN2⟩
    · have hpaf := sr_process_ack_fields SF e.frame.seq_num
      have hpab : (SF.process_ack e.frame.seq_num).base = w.snd.base := hpaf.1
      have hpan : (SF.process_ack e.frame.seq_num).next_seq_num =
          w.snd.next_seq_num := hpaf.2.1
      have hpaws : (SF.process_ack e.frame.seq_num).window_size =
          w.snd.window_size := hpaf.2.2.1
      have hpabuf : (SF.process_ack e.frame.seq_num).data_buffer =
          w.snd.data_buffer := hpaf.2.2.2
      have f3 : (w.rcv.receive_frame o w.ix e.frame).2.1.window_size =
          (SF.process_ack e.frame.seq_num).window_size := by
        rw [hpaws, hrws]
        exact hc.ws_eq
      have f4 : 2 * (SF.process_ack e.frame.seq_num).window_size ≤ maxSeqNum := by
        rw [hpaws]
        exact hc.ws2
      have f5 : (SF.process_ack e.frame.seq_num).data_buffer =
          payloads.drop (SF.process_ack e.frame.seq_num).next_seq_num := by
        rw [hpabuf, hpan]
        exact hc.buffer_eq
      have f6 : ∀ k' e', lookupKey k' (SF.process_ack e.frame.seq_num).window =
          some e' → e'.frame.data = payloads.getD k' "" ∧ k' < payloads.length := by
        intro k' e' he'
        have he2 : lookupKey k' (setKey k { e with timestamp := w.clock }
            w.snd.window) = some e' :=
          sr_process_ack_lookup_some SF e.frame.seq_num hndSF k' e' he'
        exact hentS1 k' e' he2
      have f7 : SRRcvCoupled payloads (SF.process_ack e.frame.seq_num).next_seq_num
          (w.rcv.receive_frame o w.ix e.frame).2.1 := by
        rw [hpan]
        exact ⟨hcon2, hdel2, hrbN2⟩
      have f8 : (SF.process_ack e.frame.seq_num).base ≤
          (w.rcv.receive_frame o w.ix e.frame).2.1.base := by
        rw [hpab]
        exact le_trans hc.sbase_le_rbase hbmono
      have f9C : ∀ a ∈ (SF.process_ack e.frame.seq_num).ack_received,
          ∃ i, (SF.process_ack e.frame.seq_num).base ≤ i ∧
            i < (SF.process_ack e.frame.seq_num).next_seq_num ∧
            i % maxSeqNum = a ∧
            (i < (w.rcv.receive_frame o w.ix e.frame).2.1.base ∨
              (lookupKey (i % maxSeqNum)
                (w.rcv.receive_frame o w.ix e.frame).2.1.buffer).isSome) := by
        intro a ha
        rw [hpab, hpan]
        rw [sr_process_ack_ack SF e.frame.seq_num] at ha
        have hmem_or : a ∈ w.snd.ack_received ∨ a = e.frame.seq_num := by
          by_cases hxm : e.frame.seq_num ∈ SF.ack_received
          · rw [if_pos hxm] at ha
            exact Or.inl ha
          · rw [if_neg hxm] at ha
            rcases List.mem_append.mp ha with h' | h'
            · exact Or.inl h'
            · exact Or.inr (List.mem_singleton.mp h')
        rcases hmem_or with h' | rfl
        · exact f9 a h'
        · exact hackS e.frame.seq_num (by rw [hc1]; simp)
      exact ⟨hs', hr', f3, f4, f5, f6, f7, f8, f9C⟩

/-- The fresh-transmission loop (`while can_send`) preserves the coupling:
each popped payload is the backlog entry at `next_seq_num`, which is recorded
in the new window entry, transmitted, and acknowledged soundly. -/
theorem sr_send_new_frames_coupling (o : Nat → Bool) (payloads : List String) :
    ∀ (n : Nat) (w : SRWorld), w.snd.data_buffer.length ≤ n →
      SRCoupling payloads w → SRCoupling payloads (w.send_new_frames o) := by
  intro n
  induction n with
  | zero =>
    intro w hlen hcw
    rw [sr_send_new_frames_empty o w
      (List.length_eq_zero.mp (Nat.le_zero.mp hlen))]
    exact hcw
  | succ n ih =>
    intro w hlen hcw
    rw [SRWorld.send_new_frames]
    split
    · split
      · exact hcw
      · rename_i hcan data rest hb2
        have hcan2 : w.snd.next_seq_num < w.snd.base + w.snd.window_size := by
          simp [SelectiveRepeatSender.can_send] at hcan
          exact hcan.1
        obtain ⟨hnl, hgd, hdrop⟩ := drop_eq_cons_facts payloads w.snd.next_seq_num
          data rest (hcw.buffer_eq.symm.trans hb2)
        have hfseq : (Frame.mkData (w.snd.next_seq_num % maxSeqNum) data).seq_num <
            maxSeqNum := by
          simp only [Frame.mkData, maxSeqNum]
          omega
        have heq : ∀ L : List Nat,
            ({ L.foldl (fun s' a => s'.process_ack a)
                ({ w.snd with
                  data_buffer := rest,
                  window := setKey w.snd.next_seq_num
                    { frame := Frame.mkData (w.snd.next_seq_num % maxSeqNum) data,
                      timestamp := w.clock, data := data } w.snd.window,
                  individual_timers := setKey w.snd.next_seq_num w.clock
                    w.snd.individual_timers,
                  total_transmissions := w.snd.total_transmissions + 1 } :
                    SelectiveRepeatSender) with
              next_seq_num := (L.foldl (fun s' a => s'.process_ack a)
                ({ w.snd with
                  data_buffer := rest,
                  window := setKey w.snd.next_seq_num
                    { frame := Frame.mkData (w.snd.next_seq_num % maxSeqNum) data,
                      timestamp := w.clock, data := data } w.snd.window,
                  individual_timers := setKey w.snd.next_seq_num w.clock
                    w.snd.individual_timers,
                  total_transmissions := w.snd.total_transmissions + 1 } :
                    SelectiveRepeatSender)).next_seq_num + 1 } :
              SelectiveRepeatSender) =
            L.foldl (fun s' a => s'.process_ack a)
              ({ w.snd with
                data_buffer := rest,
                window := setKey w.snd.next_seq_num
                  { frame := Frame.mkData (w.snd.next_seq_num % maxSeqNum) data,
                    timestamp := w.clock, data := data } w.snd.window,
                individual_timers := setKey w.snd.next_seq_num w.clock
                  w.snd.individual_timers,
                total_transmissions := w.snd.total_transmissions + 1,
                next_seq_num := w.snd.next_seq_num + 1 } : SelectiveRepeatSender) := by
          intro L
          rw [sr_foldl_ack_next, sr_foldl_ack_set_next]
        simp only [heq]
        have hrcvN : SRRcvCoupled payloads (w.snd.next_seq_num + 1) w.rcv :=
          sr_rcv_coupled_mono payloads (Nat.le_succ _) w.rcv hcw.rcv_coup
        obtain ⟨hcoup2, hbmono, hackS, hwit⟩ :=
          sr_receive_frame_coupling o w.rcv w.ix payloads w.snd.base
            w.snd.window_size (w.snd.next_seq_num + 1) w.snd.next_seq_num
            (Frame.mkData (w.snd.next_seq_num % maxSeqNum) data)
            hcw.hr hcw.ws_eq hcw.ws2 rfl (hgd "").symm hnl hcw.hs.base_le_next
            (Nat.lt_succ_self _) (by omega) hcw.sbase_le_rbase hrcvN
        obtain ⟨hcon2, hdel2, hrbN2⟩ := hcoup2
        obtain ⟨hrcv', hrb', hrws⟩ := sr_receive_frame_rcv_inv o w.rcv w.ix
          (Frame.mkData (w.snd.next_seq_num % maxSeqNum) data) hcw.hr hfseq
        have hN8' : w.snd.next_seq_num + 1 ≤ w.snd.base + maxSeqNum := by
          have h2 := hcw.hs.ws_le
          omega
        have hrec' : ∀ a ∈ w.snd.ack_received, ∃ i, w.snd.base ≤ i ∧
            i < w.snd.next_seq_num + 1 ∧ i % maxSeqNum = a ∧
            (i < w.rcv.base ∨ (lookupKey (i % maxSeqNum) w.rcv.buffer).isSome) := by
          intro a ha
          obtain ⟨i, h1, h2, h3, h4⟩ := hcw.ack_rec a ha
          exact ⟨i, h1, by omega, h3, h4⟩
        have f9 : ∀ a ∈ w.snd.ack_received, ∃ i, w.snd.base ≤ i ∧
            i < w.snd.next_seq_num + 1 ∧ i % maxSeqNum = a ∧
            (i < (w.rcv.receive_frame o w.ix
                (Frame.mkData (w.snd.next_seq_num % maxSeqNum) data)).2.1.base ∨
              (lookupKey (i % maxSeqNum)
                (w.rcv.receive_frame o w.ix
                  (Frame.mkData (w.snd.next_seq_num % maxSeqNum) data)
                  ).2.1.buffer).isSome) :=
          sr_ack_rec_update payloads (w.snd.next_seq_num + 1) w.snd.base w.rcv
            (w.rcv.receive_frame o w.ix
              (Frame.mkData (w.snd.next_seq_num % maxSeqNum) data)).2.1
            w.snd.ack_received hrec' hwit hbmono hrbN2 hcw.sbase_le_rbase hN8'
        set SFb : SelectiveRepeatSender := { w.snd with
          data_buffer := rest,
          window := setKey w.snd.next_seq_num
            { frame := Frame.mkData (w.snd.next_seq_num % maxSeqNum) data,
              timestamp := w.clock, data := data } w.snd.window,
          individual_timers := setKey w.snd.next_seq_num w.clock
            w.snd.individual_timers,
          total_transmissions := w.snd.total_transmissions + 1,
          next_seq_num := w.snd.next_seq_num + 1 } with hSFb
        have hSFbinv : SRSenderInv SFb :=
          sr_fresh_sender_inv w.snd hcw.hs data rest w.clock hcan2
        have hentSFb : ∀ k' e', lookupKey k' (setKey w.snd.next_seq_num
            { frame := Frame.mkData (w.snd.next_seq_num % maxSeqNum) data,
              timestamp := w.clock, data := data } w.snd.window) = some e' →
            e'.frame.data = payloads.getD k' "" ∧ k' < payloads.length := by
          intro k' e' he'
          by_cases hkk : k' = w.snd.next_seq_num
          · subst hkk
            rw [lookupKey_setKey_self] at he'
            cases he'
            exact ⟨(hgd "").symm, hnl⟩
          · rw [lookupKey_setKey_ne _ _ hkk] at he'
            exact hcw.entry_data k' e' he'
        have hndSFb : (keysOf SFb.window).Nodup := hSFbinv.nodup_keys
        have hlenrest : rest.length ≤ n := by
          have h5 : (data :: rest).length ≤ n + 1 := hb2 ▸ hlen
          simp at h5
          omega
        rcases sr_receive_frame_acks_cases o w.rcv w.ix
            (Frame.mkData (w.snd.next_seq_num % maxSeqNum) data) with
          hc1 | hc1 | hc1 <;>
          simp only [hc1, Option.getD_none, Option.getD_some, List.foldl_nil,
            List.foldl_cons]
        · apply ih
          · show rest.length ≤ n
            exact hlenrest
          · refine ⟨hSFbinv, hrcv', hrws.trans hcw.ws_eq, hcw.ws2, ?_, ?_, ?_,
              le_trans hcw.sbase_le_rbase hbmono, f9⟩
            · show rest = payloads.drop (w.snd.next_seq_num + 1)
              exact hdrop.symm
            · intro k' e' he'
              have he2 : lookupKey k' (setKey w.snd.next_seq_num
                  { frame := Frame.mkData (w.snd.next_seq_num % maxSeqNum) data,
                    timestamp := w.clock, data := data } w.snd.window) = some e' :=
                he'
              exact hentSFb k' e' he2
            · exact ⟨hcon2, hdel2, hrbN2⟩
        · apply ih
          · show rest.length ≤ n
            exact hlenrest
          · refine ⟨hSFbinv, hrcv', hrws.trans hcw.ws_eq, hcw.ws2, ?_, ?_, ?_,
              le_trans hcw.sbase_le_rbase hbmono, f9⟩
            · show rest = payloads.drop (w.snd.next_seq_num + 1)
              exact hdrop.symm
            · intro k' e' he'
              have he2 : lookupKey k' (setKey w.snd.next_seq_num
                  { frame := Frame.mkData (w.snd.next_seq_num % maxSeqNum) data,
                    timestamp := w.clock, data := data } w.snd.window) = some e' :=
                he'
              exact hentSFb k' e' he2
            · exact ⟨hcon2, hdel2, hrbN2⟩
        · have hPAinv : SRSenderInv (SFb.process_ack
              (Frame.mkData (w.snd.next_seq_num % maxSeqNum) data).seq_num) :=
            sr_process_ack_inv SFb _ hSFbinv
              ⟨w.snd.next_seq_num, hcw.hs.base_le_next, Nat.lt_succ_self _, rfl⟩
          have hpaf := sr_process_ack_fields SFb
            (Frame.mkData (w.snd.next_seq_num % maxSeqNum) data).seq_num
          have hpab : (SFb.process_ack
              (Frame.mkData (w.snd.next_seq_num % maxSeqNum) data).seq_num).base =
              w.snd.base := hpaf.1
          have hpan : (SFb.process_ack
              (Frame.mkData (w.snd.next_seq_num % maxSeqNum) data).seq_num
              ).next_seq_num = w.snd.next_seq_num + 1 := hpaf.2.1
          have hpaws : (SFb.process_ack
              (Frame.mkData (w.snd.next_seq_num % maxSeqNum) data).seq_num
              ).window_size = w.snd.window_size := hpaf.2.2.1
          have hpabuf : (SFb.process_ack
              (Frame.mkData (w.snd.next_seq_num % maxSeqNum) data).seq_num
              ).data_buffer = rest := hpaf.2.2.2
          apply ih
          · show (SFb.process_ack
                (Frame.mkData (w.snd.next_seq_num % maxSeqNum) data).seq_num
                ).data_buffer.length ≤ n
            rw [hpabuf]
            exact hlenrest
          · refine ⟨hPAinv, hrcv', ?_, ?_, ?_, ?_, ?_, ?_, ?_⟩
            · show (w.rcv.receive_frame o w.ix
                  (Frame.mkData (w.snd.next_seq_num % maxSeqNum) data)
                  ).2.1.window_size = _
              rw [hpaws, hrws]
              exact hcw.ws_eq
            · show 2 * (SFb.process_ack
                  (Frame.mkData (w.snd.next_seq_num % maxSeqNum) data).seq_num
                  ).window_size ≤ maxSeqNum
              rw [hpaws]
              exact hcw.ws2
            · show (SFb.process_ack
                  (Frame.mkData (w.snd.next_seq_num % maxSeqNum) data).seq_num
                  ).data_buffer = payloads.drop (SFb.process_ack
                  (Frame.mkData (w.snd.next_seq_num % maxSeqNum) data).seq_num
                  ).next_seq_num
              rw [hpabuf, hpan]
              exact hdrop.symm
            · intro k' e' he'
              have he2 : lookupKey k' (setKey w.snd.next_seq_num
                  { frame := Frame.mkData (w.snd.next_seq_num % maxSeqNum) data,
                    timestamp := w.clock, data := data } w.snd.window) = some e' :=
                sr_process_ack_lookup_some SFb _ hndSFb k' e' he'
              exact hentSFb k' e' he2
            · show SRRcvCoupled payloads (SFb.process_ack
                  (Frame.mkData (w.snd.next_seq_num % maxSeqNum) data).seq_num
                  ).next_seq_num _
              rw [hpan]
              exact ⟨hcon2, hdel2, hrbN2⟩
            · show (SFb.process_ack
                  (Frame.mkData (w.snd.next_seq_num % maxSeqNum) data).seq_num
                  ).base ≤ _
              rw [hpab]
              exact le_trans hcw.sbase_le_rbase hbmono
            · intro a ha
              rw [hpab, hpan]
              rw [sr_process_ack_ack SFb
                (Frame.mkData (w.snd.next_seq_num % maxSeqNum) data).seq_num] at ha
              have hmem_or : a ∈ w.snd.ack_received ∨
                  a = (Frame.mkData (w.snd.next_seq_num % maxSeqNum) data
                    ).seq_num := by
                by_cases hxm : (Frame.mkData (w.snd.next_seq_num % maxSeqNum) data
                    ).seq_num ∈ SFb.ack_received
                · rw [if_pos hxm] at ha
                  exact Or.inl ha
                · rw [if_neg hxm] at ha
                  rcases List.mem_append.mp ha with h' | h'
                  · exact Or.inl h'
                  · exact Or.inr (List.mem_singleton.mp h')
              rcases hmem_or with h' | rfl
              · exact f9 a h'
              · exact hackS _ (by rw [hc1]; simp)
    · exact hcw

theorem sr_fold_retransmit_coupling (o : Nat → Bool) (payloads : List String)
    (L : List Nat) :
    ∀ w : SRWorld, SRCoupling payloads w →
      SRCoupling payloads (L.foldl (fun w' kk =>
        if (lookupKey kk w'.snd.window).isSome then w'.selective_retransmit o kk
        else w') w) := by
  induction L with
  | nil => intro w hcw; exact hcw
  | cons kk L ih =>
    intro w hcw
    rw [List.foldl_cons]
    by_cases hg : (lookupKey kk w.snd.window).isSome
    · rw [if_pos hg]
      exact ih _ (sr_selective_retransmit_coupling o payloads w kk hcw)
    · rw [if_neg hg]
      exact ih w hcw

theorem sr_check_timeouts_coupling (o : Nat → Bool) (payloads : List String)
    (w : SRWorld) (hcw : SRCoupling payloads w) :
    SRCoupling payloads (w.check_individual_timeouts o) := by
  unfold SRWorld.check_individual_timeouts
  exact sr_fold_retransmit_coupling o payloads _ w hcw

/-- `slide_window` preserves the coupling; in particular the sender base never
overtakes the receive base, because the acked residue at the sender base must
be a delivered instance (it cannot still be buffered at the base residue). -/
theorem sr_slide_world_coupling (payloads : List String) (w : SRWorld)
    (hcw : SRCoupling payloads w) :
    SRCoupling payloads { w with snd := w.snd.slide_window } := by
  obtain ⟨g1, g2, g3, g4, g5, g6⟩ := sr_slide_window_inv w.snd.ack_received.length
    w.snd (Nat.le_refl _) hcw.hs
  have hn8 : w.snd.next_seq_num ≤ w.snd.base + maxSeqNum := by
    have h1 := hcw.hs.next_le
    have h2 := hcw.hs.ws_le
    omega
  obtain ⟨c1, c2⟩ := sr_slide_window_coupling w.snd.ack_received.length w.snd
    w.rcv.base w.rcv.buffer (Nat.le_refl _) hcw.hs.nodup_ack hcw.sbase_le_rbase
    hcw.hr.base_not_buf hn8 hcw.ack_rec
  refine ⟨g1, hcw.hr, ?_, ?_, ?_, ?_, ?_, c1, c2⟩
  · show w.rcv.window_size = w.snd.slide_window.window_size
    rw [g4]
    exact hcw.ws_eq
  · show 2 * w.snd.slide_window.window_size ≤ maxSeqNum
    rw [g4]
    exact hcw.ws2
  · show w.snd.slide_window.data_buffer =
      payloads.drop w.snd.slide_window.next_seq_num
    rw [g5, g2]
    exact hcw.buffer_eq
  · intro k e he
    have he2 : lookupKey k w.snd.slide_window.window = some e := he
    rw [g3] at he2
    exact hcw.entry_data k e he2
  · show SRRcvCoupled payloads w.snd.slide_window.next_seq_num w.rcv
    rw [g2]
    exact hcw.rcv_coup

theorem sr_coupling_set_clock (payloads : List String) (w : SRWorld) (c : Int)
    (hcw : SRCoupling payloads w) : SRCoupling payloads { w with clock := c } :=
  ⟨hcw.hs, hcw.hr, hcw.ws_eq, hcw.ws2, hcw.buffer_eq, hcw.entry_data,
    hcw.rcv_coup, hcw.sbase_le_rbase, hcw.ack_rec⟩

/-- The (fuel-bounded) `send_frames` main loop preserves the coupling. -/
theorem sr_send_frames_loop_coupling (o : Nat → Bool) (payloads : List String) :
    ∀ (fuel : Nat) (w : SRWorld), SRCoupling payloads w →
      SRCoupling payloads ((SRWorld.send_frames_loop o fuel w).1) := by
  intro fuel
  induction fuel with
  | zero => intro w hcw; exact hcw
  | succ n ih =>
    intro w hcw
    rw [SRWorld.send_frames_loop]
    split
    · exact hcw
    · have h1 := sr_send_new_frames_coupling o payloads w.snd.data_buffer.length w
        (Nat.le_refl _) hcw
      have h2 := sr_check_timeouts_coupling o payloads (w.send_new_frames o) h1
      have h3 := sr_slide_world_coupling payloads
        ((w.send_new_frames o).check_individual_timeouts o) h2
      simp only []
      split
      · exact h3
      · apply ih
        exact sr_coupling_set_clock payloads _ _ h3

theorem sr_init_coupling (ws : Nat) (t : Int) (payloads : List String)
    (h1 : 1 ≤ ws) (h2 : 2 * ws ≤ maxSeqNum) :
    SRCoupling payloads (initSRWorld ws ws t payloads) := by
  have hws8 : ws ≤ maxSeqNum := by
    simp only [maxSeqNum] at h2 ⊢
    omega
  obtain ⟨hs0, hr0⟩ := sr_init_world_inv ws ws t payloads hws8 h1 hws8
  refine ⟨hs0, hr0, rfl, h2, ?_, ?_, ?_, Nat.le_refl _, ?_⟩
  · show ([] : List String) ++ payloads = payloads.drop 0
    simp
  · intro k e he
    simp [initSRWorld, SelectiveRepeatSender.init, SelectiveRepeatSender.add_data,
      lookupKey] at he
  · refine ⟨?_, rfl, Nat.le_refl _⟩
    intro s d hsd
    simp [initSRWorld, SelectiveRepeatReceiver.init, lookupKey] at hsd
  · intro a ha
    simp [initSRWorld, SelectiveRepeatSender.init, SelectiveRepeatSender.add_data]
      at ha

/-- C2: in all three engines, over every channel behavior, timeout, and
backlog (Go-Back-N within its classical window bound `w ≤ maxSeq - 1`,
Selective Repeat with equal sender/receiver windows within the classical bound
`2·w ≤ maxSeq`, both of which the spec documents as configuration
preconditions), the receiver's delivered list (`get_received_data`) is an
order-preserving subsequence (`List.Sublist`) of the input payload sequence —
so payloads are never reordered and no input payload instance is delivered
twice, even when frames are re-delivered by retransmission. -/
theorem c2_delivered_data_is_subsequence :
    (∀ (o : Nat → Bool) (t : Int) (payloads : List String),
      ((SWWorld.run_all o payloads
        (initSWWorld t)).rcv.get_received_data).Sublist payloads) ∧
    (∀ (o : Nat → Bool) (ws : Nat) (t : Int) (payloads : List String),
      ws ≤ maxSeqNum - 1 →
      (((GBNWorld.send_frames_loop o 0
        (initGBNWorld ws t payloads)).1.rcv.get_received_data)).Sublist payloads) ∧
    (∀ (o : Nat → Bool) (ws : Nat) (t : Int) (payloads : List String) (fuel : Nat),
      1 ≤ ws → 2 * ws ≤ maxSeqNum →
      (((SRWorld.send_frames_loop o fuel
        (initSRWorld ws ws t payloads)).1.rcv.get_received_data)).Sublist
        payloads) := by
  refine ⟨?_, ?_, ?_⟩
  · intro o t payloads
    obtain ⟨extra, hx, hsub⟩ := sw_run_all_sublist o payloads (initSWWorld t)
    show ((SWWorld.run_all o payloads
      (initSWWorld t)).rcv.received_frames).Sublist payloads
    rw [hx]
    show (([] : List String) ++ extra).Sublist payloads
    rw [List.nil_append]
    exact hsub
  · intro o ws t payloads hws
    have hws7 : ws ≤ 7 := by
      simpa [maxSeqNum] using hws
    have hinv := gbn_send_frames_loop_inv o payloads 500 0
      (initGBNWorld ws t payloads) (by omega) (gbn_init_inv ws t payloads hws7)
    exact gbn_rcv_ok_sublist payloads _ _ hinv.rcv_ok
  · intro o ws t payloads fuel h1 h2
    have hc := sr_send_frames_loop_coupling o payloads fuel _
      (sr_init_coupling ws t payloads h1 h2)
    obtain ⟨-, hdel, -⟩ := hc.rcv_coup
    show ((SRWorld.send_frames_loop o fuel
      (initSRWorld ws ws t payloads)).1.rcv.received_frames).Sublist payloads
    rw [hdel]
    exact List.take_sublist _ _

/-- Witness for C2 at concrete runs of all three engines (clean channel,
window size 4, two payloads). -/
theorem c2_witness :
    ((4 : Nat) ≤ maxSeqNum - 1 ∧ (1 : Nat) ≤ 4 ∧ 2 * 4 ≤ maxSeqNum) ∧
    ((SWWorld.run_all alwaysFalseOracle ["a", "b"]
      (initSWWorld 20)).rcv.get_received_data).Sublist ["a", "b"] ∧
    (((GBNWorld.send_frames_loop alwaysFalseOracle 0
      (initGBNWorld 4 20 ["a", "b"])).1.rcv.get_received_data)).Sublist
      ["a", "b"] ∧
    (((SRWorld.send_frames_loop alwaysFalseOracle 3
      (initSRWorld 4 4 20 ["a", "b"])).1.rcv.get_received_data)).Sublist
      ["a", "b"] := by
  refine ⟨⟨by norm_num [maxSeqNum], by norm_num, by norm_num [maxSeqNum]⟩,
    ?_, ?_, ?_⟩
  · exact c2_delivered_data_is_subsequence.1 alwaysFalseOracle 20 ["a", "b"]
  · exact c2_delivered_data_is_subsequence.2.1 alwaysFalseOracle 4 20 ["a", "b"]
      (by norm_num [maxSeqNum])
  · exact c2_delivered_data_is_subsequence.2.2 alwaysFalseOracle 4 20 ["a", "b"] 3
      (by norm_num) (by norm_num [maxSeqNum])

end ARQ
